import Mathlib

/-!
# FSI core driver (`drivers/fsi/fsi-core.c`): a shallow embedding

The driver talks to the outside world through the callbacks of the root master
(`read`, `write`, `send_break`, `link_enable`), through a few kernel services
(`kzalloc`, `device_add`, `device_register`, the index allocator `master_ida`) and
through the interrupt handlers of engine drivers.  Every such external call is an `Op`;
the environment answers an `Op` as a function of the calls made before it, and the
`World` is the record of the calls made so far.  C integers are natural numbers,
reduced modulo `2^32` (`u32`) or `2^8` (`u8`) wherever the C type does so.
-/

namespace Fsi

/-! ## Machine integers and error numbers -/

/-- Value of a `uint32_t` expression. -/
def u32 (x : Nat) : Nat := x % 2 ^ 32

/-- Value of a `uint8_t` expression. -/
def u8 (x : Nat) : Nat := x % 2 ^ 8

def EIO : Int := 5
def ENOMEM : Int := 12
def ENODEV : Int := 19
def EINVAL : Int := 22

/-! ## Constants of fsi-core.c -/

def FSI_N_SLAVES : Nat := 4
def FSI_BREAK : Nat := 0xc0de0000

def FSI_SLAVE_CONF_NEXT_MASK : Nat := 0x80000000
def FSI_SLAVE_CONF_SLOTS_MASK : Nat := 0x00ff0000
def FSI_SLAVE_CONF_SLOTS_SHIFT : Nat := 16
def FSI_SLAVE_CONF_VERSION_MASK : Nat := 0x0000f000
def FSI_SLAVE_CONF_VERSION_SHIFT : Nat := 12
def FSI_SLAVE_CONF_TYPE_MASK : Nat := 0x00000ff0
def FSI_SLAVE_CONF_TYPE_SHIFT : Nat := 4
def FSI_SLAVE_CONF_CRC_SHIFT : Nat := 4
def FSI_SLAVE_CONF_CRC_MASK : Nat := 0x0000000f
def FSI_SLAVE_CONF_DATA_BITS : Nat := 28

def FSI_PEEK_BASE : Nat := 0x410
def FSI_SLAVE_BASE : Nat := 0x800
def FSI_HUB_CONTROL : Nat := 0x3400
def FSI_SLAVE_SMODE_DFLT : Nat := 0xa0ff0100

def FSI_ENGID_HUB_MASTER : Nat := 0x1c
def FSI_ENGID_HUB_LINK : Nat := 0x1d
def FSI_HUB_LINK_OFFSET : Nat := 0x80000
def FSI_MASTER_HUB_LINK_SIZE : Nat := 0x80000
def FSI_HUB_MASTER_MAX_LINKS : Nat := 8

def engine_page_size : Nat := 0x400

def FSI_SMODE : Nat := 0x0
def FSI_SI1M : Nat := 0x18
def FSI_SI1S : Nat := 0x1C
def FSI_SRSIC0 : Nat := 0x68
def FSI_SRSIC1 : Nat := 0x6C
def FSI_SRSIM0 : Nat := 0x70
def FSI_SRSIS0 : Nat := 0x78

def FSI_SI1_HUB_SRC : Nat := 0x00100000

def FSI_SMODE_WSC : Nat := 0x80000000
def FSI_SMODE_ECRC : Nat := 0x20000000
def FSI_SMODE_SID_SHIFT : Nat := 24
def FSI_SMODE_SID_MASK : Nat := 3
def FSI_SMODE_ED_SHIFT : Nat := 20
def FSI_SMODE_ED_MASK : Nat := 0xf
def FSI_SMODE_SD_SHIFT : Nat := 16
def FSI_SMODE_SD_MASK : Nat := 0xf
def FSI_SMODE_LBCRR_SHIFT : Nat := 8
def FSI_SMODE_LBCRR_MASK : Nat := 0xf

/-- Register offsets and field values that fsi-core.c takes from `fsi-master.h`.
That header is not among the sources, so its constants are a parameter of the model. -/
structure MasterRegs where
  FSI_MMODE : Nat
  FSI_MDLYR : Nat
  FSI_MSENP0 : Nat
  FSI_MCENP0 : Nat
  FSI_MLEVP0 : Nat
  FSI_MAEB : Nat
  FSI_MVER : Nat
  FSI_MRESP0 : Nat
  FSI_MRESB0 : Nat
  FSI_MECTRL : Nat
  FSI_MSIEP0 : Nat
  FSI_MRESP_RST_ALL_MASTER : Nat
  FSI_MRESP_RST_ALL_LINK : Nat
  FSI_MRESP_RST_MCR : Nat
  FSI_MRESP_RST_PYE : Nat
  FSI_MECTRL_EOAE : Nat
  FSI_MECTRL_P8_AUTO_TERM : Nat
  FSI_MMODE_EIP : Nat
  FSI_MMODE_ECRC : Nat
  FSI_MMODE_EPC : Nat
  FSI_MMODE_P8_TO_LSB : Nat
  fsi_mmode_crs0 : Nat → Nat
  fsi_mmode_crs1 : Nat → Nat
  FSI_MRESB_RST_GEN : Nat
  FSI_MRESB_RST_ERR : Nat
  FSI_MSIEP_BITS_PER_LINK : Nat
  L_MSB_MASK : Nat → Nat

/-! ## Masters, slaves, engines -/

/-- A `struct fsi_master`, described by the way it is reached: the root master owns the
external callbacks; a hub master (`struct fsi_master_hub`, found through
`to_fsi_master_hub`) forwards to the slave that carries it. -/
inductive fsi_master where
  | root (n_links : Nat)
  | hub (n_links : Nat) (slave_master : fsi_master) (slave_link slave_id : Nat)
      (control_regs base : Nat)
  deriving DecidableEq

/-- A `struct fsi_slave`: the master it hangs off, its link and its id. -/
structure fsi_slave where
  master : fsi_master
  link : Nat
  id : Nat
  deriving DecidableEq

/-- A `struct fsi_master_hub`: the embedded master's link count, the owning slave,
and the two slave-relative addresses. -/
structure fsi_master_hub where
  n_links : Nat
  slave : fsi_slave
  control_regs : Nat
  base : Nat
  deriving DecidableEq

/-- The `struct fsi_master` embedded in a hub (`&hub->master`). -/
def fsi_master_hub.master (hub : fsi_master_hub) : fsi_master :=
  .hub hub.n_links hub.slave.master hub.slave.link hub.slave.id hub.control_regs hub.base

/-- A `struct fsi_device` (an engine); `irq_handler` tells whether a handler is bound. -/
structure fsi_device where
  slave : fsi_slave
  engine_type : Nat
  version : Nat
  unit : Nat
  addr : Nat
  size : Nat
  si1s_bit : Nat
  irq_handler : Bool
  deriving DecidableEq

/-! ## External calls -/

/-- One call that leaves the driver: a callback of the root master or a kernel service. -/
inductive Op where
  /-- Root `master->read(master, link, id, addr, val, size)`. -/
  | read (link id addr size : Nat)
  /-- Root `master->write(master, link, id, addr, val, size)`; `val` is the value of the
  `size` bytes handed over. -/
  | write (link id addr val size : Nat)
  /-- Root `master->send_break(master, link)`. -/
  | send_break (link : Nat)
  /-- Root `master->link_enable(master, link)`. -/
  | link_enable (link : Nat)
  /-- An allocation `kzalloc(...)`; the answer `rc = 0` is a non-NULL pointer. -/
  | kzalloc
  /-- Adding a device to the driver core (`device_add`, `device_register`). -/
  | device_add
  /-- `ida_simple_get(&master_ida, 0, INT_MAX, GFP_KERNEL)`; the answer `rc` is the index
  handed out, or a negative error. -/
  | ida_simple_get
  /-- `ida_simple_remove(&master_ida, id)`. -/
  | ida_simple_remove (id : Int)
  /-- A call `fsi_dev->irq_handler(0, &fsi_dev->dev)` of the handler `h` that an engine
  driver has bound. -/
  | irq_handler (h : Nat)
  deriving DecidableEq

/-- Answer to an external call: its return code and, for a read, the word left in the
caller's buffer. -/
structure Resp where
  rc : Int
  data : Nat
  deriving DecidableEq

/-- The environment of the driver: how the outside answers a call, given the calls made
before it (most recent first), and the constants of the missing header. -/
structure Env where
  respond : List Op → Op → Resp
  regs : MasterRegs
  /-- Whether the root master provides the optional `link_enable` callback. -/
  has_link_enable : Bool := true
  /-- Whether the root master provides the optional `send_break` callback. -/
  has_send_break : Bool := true
  /-- What the local `hub` of `fsi_slave_scan` holds when a scan starts after the calls of
  the log: the local has no initialiser, so C leaves its value indeterminate.  Where
  nothing else is said it is NULL. -/
  hub_uninit : List Op → Option fsi_master_hub := fun _ => none
  /-- What `x >> n` gives on a 32-bit `x` for a shift count `n` outside 0..31: C leaves
  such a shift undefined.  Where nothing else is said it is 0. -/
  shr_undef : Nat → Int → Nat := fun _ _ => 0

/-- The calls made so far, most recent first. -/
structure World where
  log : List Op
  deriving DecidableEq

/-- Perform one external call: ask the environment and record the call. -/
def call (E : Env) (op : Op) (w : World) : Resp × World :=
  (E.respond w.log op, { w with log := op :: w.log })

/-- `x >> n` on a 32-bit unsigned `x`: the shift for a count in 0..31, and what the
environment says for any other count. -/
def shr32 (E : Env) (x : Nat) (n : Int) : Nat :=
  if 0 ≤ n ∧ n < 32 then u32 x >>> n.toNat else u32 (E.shr_undef x n)

/-! ## Access through masters -/

/-- Dispatch of `master->read(master, link, id, addr, val, size)`: the root master calls
out; a hub master runs the body of `hub_master_read`, which ignores `id`. -/
def master_read (E : Env) : fsi_master → Nat → Nat → Nat → Nat → World → Resp × World
  | .root _, link, id, addr, size, w => call E (.read link id addr size) w
  | .hub _ sm sl si _ base, linkno, _, addr, size, w =>
      master_read E sm sl si (u32 (addr + u32 (linkno * FSI_MASTER_HUB_LINK_SIZE + base))) size w

/-- Dispatch of `master->write(master, link, id, addr, val, size)`. -/
def master_write (E : Env) : fsi_master → Nat → Nat → Nat → Nat → Nat → World → Resp × World
  | .root _, link, id, addr, val, size, w => call E (.write link id addr val size) w
  | .hub _ sm sl si _ base, linkno, _, addr, val, size, w =>
      master_write E sm sl si (u32 (addr + u32 (linkno * FSI_MASTER_HUB_LINK_SIZE + base)))
        val size w

/-- `fsi_slave_read`: the read callback of the slave's master at the slave's link and id. -/
def fsi_slave_read (E : Env) (slave : fsi_slave) (addr size : Nat) (w : World) :
    Resp × World :=
  master_read E slave.master slave.link slave.id (u32 addr) size w

/-- `fsi_slave_write`. -/
def fsi_slave_write (E : Env) (slave : fsi_slave) (addr val size : Nat) (w : World) :
    Resp × World :=
  master_write E slave.master slave.link slave.id (u32 addr) val size w

/-- `hub_master_read`: `addr += (linkno * FSI_MASTER_HUB_LINK_SIZE) + hub->base`, then a
read on the owning slave.  The `slave` argument is not used. -/
def hub_master_read (E : Env) (hub : fsi_master_hub) (linkno _slave addr size : Nat)
    (w : World) : Resp × World :=
  let addr := u32 (addr + u32 (linkno * FSI_MASTER_HUB_LINK_SIZE + hub.base))
  fsi_slave_read E hub.slave addr size w

/-- `hub_master_write`. -/
def hub_master_write (E : Env) (hub : fsi_master_hub) (linkno _slave addr val size : Nat)
    (w : World) : Resp × World :=
  let addr := u32 (addr + u32 (linkno * FSI_MASTER_HUB_LINK_SIZE + hub.base))
  fsi_slave_write E hub.slave addr val size w

/-- `hub_master_break`: the break command goes to offset 4 of the hub link. -/
def hub_master_break (E : Env) (hub : fsi_master_hub) (linkno : Nat) (w : World) :
    Resp × World :=
  let command := FSI_BREAK
  let break_offset := 0x4
  let addr := u32 (linkno * FSI_MASTER_HUB_LINK_SIZE + hub.base)
  fsi_slave_write E hub.slave (u32 (addr + break_offset)) command 4 w

/-- `fsi_device_read`; `val` is the caller's buffer before the call, which a rejected
access leaves as it is. -/
def fsi_device_read (E : Env) (dev : fsi_device) (addr val size : Nat) (w : World) :
    Resp × World :=
  if addr > dev.size ∨ size > dev.size ∨ addr > dev.size - size then
    (⟨-EINVAL, val⟩, w)
  else
    fsi_slave_read E dev.slave (u32 (dev.addr + addr)) size w

/-- `fsi_device_write`. -/
def fsi_device_write (E : Env) (dev : fsi_device) (addr val size : Nat) (w : World) :
    Resp × World :=
  if addr > dev.size ∨ size > dev.size ∨ addr > dev.size - size then
    (⟨-EINVAL, 0⟩, w)
  else
    fsi_slave_write E dev.slave (u32 (dev.addr + addr)) val size w

/-! ## CRC helpers -/

def crc4_tab : List Nat :=
  [0x0, 0x7, 0xe, 0x9, 0xb, 0xc, 0x5, 0x2,
   0x1, 0x6, 0xf, 0x8, 0xa, 0xd, 0x4, 0x3]

/-- The loop `for (i = bits; i >= 0; i -= 4) c = crc4_tab[c ^ ((x >> i) & 0xf)]` of
`fsi_crc4`, with `i = 4 * k`. -/
def fsi_crc4_loop (x : Nat) : Nat → Nat → Nat
  | 0, c => crc4_tab.getD (c ^^^ ((x >>> 0) &&& 0xf)) 0
  | k + 1, c => fsi_crc4_loop x k (crc4_tab.getD (c ^^^ ((x >>> (4 * (k + 1))) &&& 0xf)) 0)

/-- `fsi_crc4(c, x, bits)`; `bits` is first aligned up to a multiple of four. -/
def fsi_crc4 (c x bits : Nat) : Nat :=
  let bits := (bits + 3) / 4 * 4
  fsi_crc4_loop (x % 2 ^ 64) (bits / 4) (u8 c)

/-! ## Slave mode word -/

/-- `fsi_smode_echodly`. -/
def fsi_smode_echodly (x : Nat) : Nat := u32 ((x &&& FSI_SMODE_ED_MASK) <<< FSI_SMODE_ED_SHIFT)

/-- `fsi_smode_senddly`. -/
def fsi_smode_senddly (x : Nat) : Nat := u32 ((x &&& FSI_SMODE_SD_MASK) <<< FSI_SMODE_SD_SHIFT)

/-- `fsi_smode_lbcrr`. -/
def fsi_smode_lbcrr (x : Nat) : Nat :=
  u32 ((x &&& FSI_SMODE_LBCRR_MASK) <<< FSI_SMODE_LBCRR_SHIFT)

/-- `fsi_smode_sid`. -/
def fsi_smode_sid (x : Nat) : Nat := u32 ((x &&& FSI_SMODE_SID_MASK) <<< FSI_SMODE_SID_SHIFT)

/-- `set_smode_defaults`. -/
def set_smode_defaults : Nat :=
  FSI_SMODE_WSC ||| FSI_SMODE_ECRC ||| fsi_smode_echodly 0xf ||| fsi_smode_senddly 0xf
    ||| fsi_smode_lbcrr 1

/-- `fsi_slave_set_smode`: the mode word goes to the slave answering as id 3. -/
def fsi_slave_set_smode (E : Env) (master : fsi_master) (link id : Nat) (w : World) :
    Resp × World :=
  let smode := set_smode_defaults ||| fsi_smode_sid id
  master_write E master link 3 (FSI_SLAVE_BASE + FSI_SMODE) smode 4 w

/-- `fsi_slave_irq_clear`. -/
def fsi_slave_irq_clear (E : Env) (slave : fsi_slave) (w : World) : Resp × World :=
  let clear := 0xffffffff
  let r := fsi_slave_write E slave (FSI_SLAVE_BASE + FSI_SRSIC0) clear 4 w
  if r.1.rc ≠ 0 then r
  else fsi_slave_write E slave (FSI_SLAVE_BASE + FSI_SRSIC1) clear 4 r.2

/-! ## Hub master bring-up -/

/-- `hub_master_init`: the register sequence on the hub's control block; the first
failing access ends it.  The two `mdelay` waits have no counterpart here. -/
def hub_master_init (E : Env) (hub : fsi_master_hub) (w : World) : Int × World :=
  let R := E.regs
  let s := hub.slave
  let c := hub.control_regs
  let r := fsi_slave_read E s (c + R.FSI_MVER) 4 w
  if r.1.rc ≠ 0 then (r.1.rc, r.2) else
  let mver := u32 (R.FSI_MRESP_RST_ALL_MASTER ||| R.FSI_MRESP_RST_ALL_LINK
    ||| R.FSI_MRESP_RST_MCR ||| R.FSI_MRESP_RST_PYE)
  let r := fsi_slave_write E s (c + R.FSI_MRESP0) mver 4 r.2
  if r.1.rc ≠ 0 then (r.1.rc, r.2) else
  let mver := u32 (R.FSI_MECTRL_EOAE ||| R.FSI_MECTRL_P8_AUTO_TERM)
  let r := fsi_slave_write E s (c + R.FSI_MECTRL) mver 4 r.2
  if r.1.rc ≠ 0 then (r.1.rc, r.2) else
  let mver := u32 (R.FSI_MMODE_EIP ||| R.FSI_MMODE_ECRC ||| R.FSI_MMODE_EPC
    ||| R.fsi_mmode_crs0 1 ||| R.fsi_mmode_crs1 1 ||| R.FSI_MMODE_P8_TO_LSB)
  let r := fsi_slave_write E s (c + R.FSI_MMODE) mver 4 r.2
  if r.1.rc ≠ 0 then (r.1.rc, r.2) else
  let mver := 0xffff0000
  let r := fsi_slave_write E s (c + R.FSI_MDLYR) mver 4 r.2
  if r.1.rc ≠ 0 then (r.1.rc, r.2) else
  let mver := 0xffffffff
  let r := fsi_slave_write E s (c + R.FSI_MSENP0) mver 4 r.2
  if r.1.rc ≠ 0 then (r.1.rc, r.2) else
  let r := fsi_slave_write E s (c + R.FSI_MCENP0) mver 4 r.2
  if r.1.rc ≠ 0 then (r.1.rc, r.2) else
  let r := fsi_slave_read E s (c + R.FSI_MAEB) 4 r.2
  if r.1.rc ≠ 0 then (r.1.rc, r.2) else
  let mver := u32 (R.FSI_MRESP_RST_ALL_MASTER ||| R.FSI_MRESP_RST_ALL_LINK)
  let r := fsi_slave_write E s (c + R.FSI_MRESP0) mver 4 r.2
  if r.1.rc ≠ 0 then (r.1.rc, r.2) else
  let r := fsi_slave_read E s (c + R.FSI_MLEVP0) 4 r.2
  if r.1.rc ≠ 0 then (r.1.rc, r.2) else
  let mver := u32 R.FSI_MRESB_RST_GEN
  let r := fsi_slave_write E s (c + R.FSI_MRESB0) mver 4 r.2
  if r.1.rc ≠ 0 then (r.1.rc, r.2) else
  let mver := u32 R.FSI_MRESB_RST_ERR
  let r := fsi_slave_write E s (c + R.FSI_MRESB0) mver 4 r.2
  (r.1.rc, r.2)

/-! ## Configuration-table scan -/

/-- The locals of `fsi_slave_scan` that live across iterations of its loop, and the
list `slave->my_engines` (`list_add` puts the newest engine at the head). -/
structure ScanState where
  engine_addr : Nat
  si1s_bit : Nat
  conf_link_count : Nat
  hub : Option fsi_master_hub
  my_engines : List fsi_device
  deriving DecidableEq

/-- How one pass through the loop body of `fsi_slave_scan` ends. -/
inductive Flow where
  /-- The body ran to its end, or hit `continue`: on to `i++`. -/
  | next (st : ScanState) (w : World)
  /-- `break` out of the `for` loop. -/
  | brk (st : ScanState) (w : World)
  /-- `return rc` out of the function. -/
  | ret (rc : Int) (st : ScanState) (w : World)
  deriving DecidableEq

/-- The tail of the loop body: `engine_addr += slots * engine_page_size`, then leave the
loop unless the NEXT bit of `conf` is set. -/
def scan_advance (conf slots : Nat) (st : ScanState) (w : World) : Flow :=
  let st := { st with engine_addr := u32 (st.engine_addr + slots * engine_page_size) }
  if conf &&& FSI_SLAVE_CONF_NEXT_MASK = 0 then .brk st w else .next st w

/-- The body of the loop of `fsi_slave_scan` for table index `i`. -/
def fsi_slave_scan_body (E : Env) (slave : fsi_slave) (i : Nat) (st : ScanState)
    (w : World) : Flow :=
  let r := fsi_slave_read E slave ((i + 1) * 4) 4 w
  if r.1.rc ≠ 0 then .ret (-1) st r.2 else
  let conf := u32 r.1.data
  let w := r.2
  let crc := fsi_crc4 0 (conf >>> FSI_SLAVE_CONF_CRC_SHIFT) FSI_SLAVE_CONF_DATA_BITS
  if crc ≠ conf &&& FSI_SLAVE_CONF_CRC_MASK then .ret (-1) st w else
  let slots := u8 ((conf &&& FSI_SLAVE_CONF_SLOTS_MASK) >>> FSI_SLAVE_CONF_SLOTS_SHIFT)
  let version := u8 ((conf &&& FSI_SLAVE_CONF_VERSION_MASK) >>> FSI_SLAVE_CONF_VERSION_SHIFT)
  let type := u8 ((conf &&& FSI_SLAVE_CONF_TYPE_MASK) >>> FSI_SLAVE_CONF_TYPE_SHIFT)
  if type = 0 then
    scan_advance conf slots st w
  else if type = FSI_ENGID_HUB_MASTER then
    let a := call E .kzalloc w
    if a.1.rc ≠ 0 then .ret (-ENOMEM) st a.2 else
    let d := call E .device_add a.2
    if d.1.rc ≠ 0 then .ret d.1.rc st d.2 else
    let hub : fsi_master_hub :=
      { n_links := 0, slave := slave, control_regs := st.engine_addr,
        base := FSI_HUB_LINK_OFFSET }
    let h := hub_master_init E hub d.2
    scan_advance conf slots { st with hub := some hub } h.2
  else if type = FSI_ENGID_HUB_LINK then
    scan_advance conf slots { st with conf_link_count := u8 (st.conf_link_count + 1) } w
  else if slots = 0 then
    scan_advance conf slots st w
  else
    let a := call E .kzalloc w
    if a.1.rc ≠ 0 then .ret (-ENOMEM) st a.2 else
    let dev : fsi_device :=
      { slave := slave, engine_type := type, version := version, unit := u8 i,
        addr := st.engine_addr, size := u32 (slots * engine_page_size),
        si1s_bit := st.si1s_bit, irq_handler := false }
    let st := { st with si1s_bit := u8 (st.si1s_bit + 1) }
    let d := call E .device_add a.2
    if d.1.rc ≠ 0 then .next st d.2 else
    scan_advance conf slots { st with my_engines := dev :: st.my_engines } d.2

/-- The loop `for (i = 2; i < engine_page_size / sizeof(uint32_t); i++)` from index `i`
on, with `n` passes left before the loop condition fails. -/
def fsi_slave_scan_loop (E : Env) (slave : fsi_slave) :
    Nat → Nat → ScanState → World → Flow
  | _, 0, st, w => .next st w
  | i, n + 1, st, w =>
    match fsi_slave_scan_body E slave i st w with
    | .next st w => fsi_slave_scan_loop E slave (i + 1) n st w
    | .brk st w => .brk st w
    | .ret rc st w => .ret rc st w

/-- What `fsi_slave_scan` leaves behind: its return code, `slave->my_engines`, and the
hub it handed to `fsi_master_register`, if any. -/
structure ScanResult where
  rc : Int
  my_engines : List fsi_device
  hub : Option fsi_master_hub
  deriving DecidableEq

/-- The state on entry to the loop of `fsi_slave_scan`, for a scan that starts in `w`.
The C local `hub` has no initialiser; its value on entry is what the environment says. -/
def scan_init (E : Env) (w : World) : ScanState :=
  { engine_addr := engine_page_size * 3, si1s_bit := 1, conf_link_count := 0,
    hub := E.hub_uninit w.log, my_engines := [] }

/-- `fsi_slave_scan`.  `reg` stands for `fsi_master_register`, called on the hub found by
the scan once the loop is over. -/
def fsi_slave_scan (E : Env) (reg : fsi_master → World → World) (slave : fsi_slave)
    (w : World) : ScanResult × World :=
  match fsi_slave_scan_loop E slave 2 (engine_page_size / 4 - 2) (scan_init E w) w with
  | .ret rc st w => ({ rc := rc, my_engines := st.my_engines, hub := none }, w)
  | .next st w | .brk st w =>
    match st.hub with
    | some hub =>
      let hub := { hub with n_links := st.conf_link_count / 2 }
      ({ rc := 0, my_engines := st.my_engines, hub := some hub }, reg hub.master w)
    | none => ({ rc := 0, my_engines := st.my_engines, hub := none }, w)

/-- An entry of `master->my_slaves`: a registered slave and its engine list. -/
structure SlaveRec where
  slave : fsi_slave
  my_engines : List fsi_device
  deriving DecidableEq

/-- What `fsi_slave_init` leaves behind: its return code and the slave it put on
`master->my_slaves`, if it got that far. -/
structure InitResult where
  rc : Int
  slave : Option SlaveRec
  deriving DecidableEq

/-- `fsi_slave_init`.  A failure of `device_create_bin_file` only logs a warning and is
not modelled. -/
def fsi_slave_init (E : Env) (reg : fsi_master → World → World) (master : fsi_master)
    (link slave_id : Nat) (w : World) : InitResult × World :=
  if slave_id > 0 then ({ rc := 0, slave := none }, w) else
  let r := fsi_slave_set_smode E master link slave_id w
  if r.1.rc ≠ 0 then ({ rc := -ENODEV, slave := none }, r.2) else
  let c := master_read E master link slave_id 0 4 r.2
  if c.1.rc ≠ 0 then ({ rc := -ENODEV, slave := none }, c.2) else
  let chip_id := u32 c.1.data
  let crc := fsi_crc4 0 (chip_id >>> FSI_SLAVE_CONF_CRC_SHIFT) FSI_SLAVE_CONF_DATA_BITS
  if crc ≠ chip_id &&& FSI_SLAVE_CONF_CRC_MASK then ({ rc := - EIO, slave := none }, c.2) else
  let a := call E .kzalloc c.2
  if a.1.rc ≠ 0 then ({ rc := -ENOMEM, slave := none }, a.2) else
  let slave : fsi_slave := { master := master, link := link, id := slave_id }
  let d := call E .device_add a.2
  if d.1.rc < 0 then ({ rc := d.1.rc, slave := none }, d.2) else
  let s := fsi_slave_scan E reg slave d.2
  if s.1.rc ≠ 0 then ({ rc := s.1.rc, slave := some ⟨slave, s.1.my_engines⟩ }, s.2) else
  let q := fsi_slave_irq_clear E slave s.2
  ({ rc := q.1.rc, slave := some ⟨slave, s.1.my_engines⟩ }, q.2)


/-! ## Reading a scan -/

/-- The state a pass through the loop body ends in. -/
def Flow.st : Flow → ScanState
  | .next st _ => st
  | .brk st _ => st
  | .ret _ st _ => st

/-- The world a pass through the loop body ends in. -/
def Flow.w : Flow → World
  | .next _ w => w
  | .brk _ w => w
  | .ret _ _ w => w

/-- What holds of the scan state before the pass for table index `i`. -/
structure ScanInv (i : Nat) (st : ScanState) : Prop where
  addr_lo : 0xC00 ≤ st.engine_addr
  addr_hi : st.engine_addr ≤ 0xC00 + (i - 2) * 0x3FC00
  bit_lo : 1 ≤ st.si1s_bit
  bit_hi : st.si1s_bit + 1 ≤ i
  eng : ∀ e ∈ st.my_engines, 2 ≤ e.unit ∧ e.unit < i ∧ 0xC00 ≤ e.addr ∧ 0 < e.size
    ∧ e.addr + e.size ≤ st.engine_addr ∧ 1 ≤ e.si1s_bit ∧ e.si1s_bit < st.si1s_bit
    ∧ e.si1s_bit + 1 ≤ e.unit
  pw : st.my_engines.Pairwise
    (fun a b => b.unit < a.unit ∧ b.addr + b.size ≤ a.addr ∧ b.si1s_bit < a.si1s_bit)

/-! ## The configuration table as its layout describes it

A configuration word is `[NEXT:1][rsvd:7][SLOTS:8][VERSION:4][TYPE:8][CRC:4]`, most
significant bit first.  The definitions below read a table `tbl : index → word` by that
layout alone; they are what the scan is compared with. -/

/-- The NEXT bit (bit 31) of a configuration word. -/
def conf_next (w : Nat) : Bool := w / 2 ^ 31 % 2 = 1

/-- The SLOTS field (bits 16..23). -/
def conf_slots (w : Nat) : Nat := w / 2 ^ 16 % 2 ^ 8

/-- The VERSION field (bits 12..15). -/
def conf_version (w : Nat) : Nat := w / 2 ^ 12 % 2 ^ 4

/-- The TYPE field (bits 4..11). -/
def conf_type (w : Nat) : Nat := w / 2 ^ 4 % 2 ^ 8

/-- The CRC check on a 32-bit word: the CRC-4 of its top 28 bits is its low nibble. -/
def crc_ok (w : Nat) : Bool := fsi_crc4 0 (w >>> 4) 28 = w &&& 0xF

/-- The indices of `is`, in order, up to and including the first whose word has the
NEXT bit clear. -/
def table_entries (tbl : Nat → Nat) : List Nat → List Nat
  | [] => []
  | i :: is => if conf_next (tbl i) then i :: table_entries tbl is else [i]

/-- The number of slots of the entries `2 .. i-1`, of whatever type. -/
def slots_before (tbl : Nat → Nat) (i : Nat) : Nat :=
  ((List.range' 2 (i - 2)).map (fun j => conf_slots (tbl j))).sum

/-- An entry that describes an engine: its type is not 0, 0x1C or 0x1D and it has slots. -/
def is_engine_entry (tbl : Nat → Nat) (i : Nat) : Bool :=
  conf_type (tbl i) ≠ 0 ∧ conf_type (tbl i) ≠ 0x1C ∧ conf_type (tbl i) ≠ 0x1D
    ∧ 0 < conf_slots (tbl i)

/-- What a configuration entry says about its engine. -/
structure EngineDesc where
  unit : Nat
  engine_type : Nat
  version : Nat
  addr : Nat
  size : Nat
  deriving DecidableEq

/-- The description of an engine of the driver. -/
def fsi_device.desc (e : fsi_device) : EngineDesc :=
  ⟨e.unit, e.engine_type, e.version, e.addr, e.size⟩

/-- The engine that table entry `i` describes. -/
def spec_engine (tbl : Nat → Nat) (i : Nat) : EngineDesc :=
  { unit := i, engine_type := conf_type (tbl i), version := conf_version (tbl i),
    addr := 3 * 0x400 + 0x400 * slots_before tbl i, size := conf_slots (tbl i) * 0x400 }

/-- The engines of a table, in table order. -/
def spec_engines (tbl : Nat → Nat) : List EngineDesc :=
  ((table_entries tbl (List.range' 2 254)).filter (is_engine_entry tbl)).map (spec_engine tbl)

/-- The interrupt bit of an engine, `0x80000000 >> dev->si1s_bit`, as `fsi_enable_irq`,
`fsi_disable_irq` and `__fsi_dev_irq` compute it.  C defines the shift of the 32-bit
constant only for `si1s_bit < 32`. -/
def si1s_mask (E : Env) (dev : fsi_device) : Nat := shr32 E 0x80000000 dev.si1s_bit

/-! ## Concrete tables and environments -/

/-- Values for the constants of the missing header; no statement below depends on them. -/
def regs_zero : MasterRegs :=
  { FSI_MMODE := 0, FSI_MDLYR := 0, FSI_MSENP0 := 0, FSI_MCENP0 := 0, FSI_MLEVP0 := 0,
    FSI_MAEB := 0, FSI_MVER := 0, FSI_MRESP0 := 0, FSI_MRESB0 := 0, FSI_MECTRL := 0,
    FSI_MSIEP0 := 0, FSI_MRESP_RST_ALL_MASTER := 0, FSI_MRESP_RST_ALL_LINK := 0,
    FSI_MRESP_RST_MCR := 0, FSI_MRESP_RST_PYE := 0, FSI_MECTRL_EOAE := 0,
    FSI_MECTRL_P8_AUTO_TERM := 0, FSI_MMODE_EIP := 0, FSI_MMODE_ECRC := 0,
    FSI_MMODE_EPC := 0, FSI_MMODE_P8_TO_LSB := 0, fsi_mmode_crs0 := fun _ => 0,
    fsi_mmode_crs1 := fun _ => 0, FSI_MRESB_RST_GEN := 0, FSI_MRESB_RST_ERR := 0,
    FSI_MSIEP_BITS_PER_LINK := 0, L_MSB_MASK := fun _ => 0 }

/-- A transport over which every access succeeds and a read at slave offset `(i+1)*4`
returns word `i` of `tbl`; allocation and device registration succeed. -/
def env_table (tbl : Nat → Nat) : Env :=
  { respond := fun _ op =>
      match op with
      | .read _ _ addr _ => ⟨0, tbl (addr / 4 - 1)⟩
      | _ => ⟨0, 0⟩
    regs := regs_zero }

/-- Slave 0 on link 0 of a root master with one link. -/
def slave0 : fsi_slave := { master := .root 1, link := 0, id := 0 }

/-- The table of two engines: `(type 5, version 1, slots 1, NEXT)` and
`(type 9, version 2, slots 2)`, each with its CRC nibble. -/
def table2 (i : Nat) : Nat := if i = 2 then 0x8001105e else 0x00022095

/-- The same table with the CRC nibble of the second word inverted. -/
def table2_bad (i : Nat) : Nat := if i = 3 then 0x0002209a else table2 i

/-- A table of 32 engine entries `(type 5, version 1, slots 1)` at the indices 2..33, the
last of them with NEXT clear. -/
def table32 (i : Nat) : Nat := if i < 33 then 0x8001105e else 0x00011056

/-- The identity on worlds, for scans in which no hub is found. -/
def reg_none : fsi_master → World → World := fun _ w => w

/-- The first engine of `table2`, as a scan of `slave0` creates it. -/
def engine2 : fsi_device :=
  { slave := slave0, engine_type := 5, version := 1, unit := 2, addr := 0xC00,
    size := 0x400, si1s_bit := 1, irq_handler := false }

/-- A hub carried by `slave0`, with its control registers at the first engine address. -/
def hub0 : fsi_master_hub :=
  { n_links := 1, slave := slave0, control_regs := 0xC00, base := FSI_HUB_LINK_OFFSET }


/-! ## Master support: link bring-up and scan -/

/-- `master->n_links`. -/
def fsi_master.n_links : fsi_master → Nat
  | .root n => n
  | .hub n _ _ _ _ _ => n

/-- `hub_master_link_enable`: the link's bit goes to `MSENP0` of the hub's control block;
the `mdelay` that follows has no counterpart here. -/
def hub_master_link_enable (E : Env) (hub : fsi_master_hub) (linkno : Nat) (w : World) :
    Resp × World :=
  let menp := u32 (E.regs.L_MSB_MASK linkno)
  fsi_slave_write E hub.slave (hub.control_regs + E.regs.FSI_MSENP0) menp 4 w

/-- `fsi_master_link_enable`: the master's `link_enable` callback if it has one, else 0.
A hub master's callback is `hub_master_link_enable`. -/
def fsi_master_link_enable (E : Env) (master : fsi_master) (link : Nat) (w : World) :
    Int × World :=
  match master with
  | .root _ =>
    if E.has_link_enable then ((call E (.link_enable link) w).1.rc, (call E (.link_enable link) w).2)
    else (0, w)
  | .hub n sm sl si c b =>
    ((hub_master_link_enable E ⟨n, ⟨sm, sl, si⟩, c, b⟩ link w).1.rc,
      (hub_master_link_enable E ⟨n, ⟨sm, sl, si⟩, c, b⟩ link w).2)

/-- `fsi_master_break`: the master's `send_break` callback if it has one, else 0.
A hub master's callback is `hub_master_break`. -/
def fsi_master_break (E : Env) (master : fsi_master) (link : Nat) (w : World) :
    Int × World :=
  match master with
  | .root _ =>
    if E.has_send_break then ((call E (.send_break link) w).1.rc, (call E (.send_break link) w).2)
    else (0, w)
  | .hub n sm sl si c b =>
    ((hub_master_break E ⟨n, ⟨sm, sl, si⟩, c, b⟩ link w).1.rc,
      (hub_master_break E ⟨n, ⟨sm, sl, si⟩, c, b⟩ link w).2)

/-- The loop `for (slave_id = 0; slave_id < FSI_N_SLAVES; slave_id++)` of
`fsi_master_scan` over the ids still to try; the code of `fsi_slave_init` is dropped, the
slave it registered goes to the head of `master->my_slaves`. -/
def fsi_master_scan_slaves (E : Env) (reg : fsi_master → World → World)
    (master : fsi_master) (link : Nat) :
    List Nat → List SlaveRec → World → List SlaveRec × World
  | [], l, w => (l, w)
  | slave_id :: ids, l, w =>
    let r := fsi_slave_init E reg master link slave_id w
    let l := match r.1.slave with
      | some s => s :: l
      | none => l
    fsi_master_scan_slaves E reg master link ids l r.2

/-- The body of the loop over the links in `fsi_master_scan`: enable the link, send a
break, probe the mode register at the default id 3; any failure is a `continue`. -/
def fsi_master_scan_link (E : Env) (reg : fsi_master → World → World)
    (master : fsi_master) (link : Nat) (l : List SlaveRec) (w : World) :
    List SlaveRec × World :=
  let e := fsi_master_link_enable E master link w
  if e.1 ≠ 0 then (l, e.2) else
  let b := fsi_master_break E master link e.2
  if b.1 ≠ 0 then (l, b.2) else
  let p := master_read E master link 3 (FSI_SLAVE_BASE + FSI_SMODE) 4 b.2
  if p.1.rc ≠ 0 then (l, p.2) else
  fsi_master_scan_slaves E reg master link (List.range FSI_N_SLAVES) l p.2

/-- The loop `for (link = 0; link < master->n_links; link++)` from `link` on, with `n`
passes left. -/
def fsi_master_scan_loop (E : Env) (reg : fsi_master → World → World)
    (master : fsi_master) : Nat → Nat → List SlaveRec → World → List SlaveRec × World
  | _, 0, l, w => (l, w)
  | link, n + 1, l, w =>
    fsi_master_scan_loop E reg master (link + 1) n
      (fsi_master_scan_link E reg master link l w).1
      (fsi_master_scan_link E reg master link l w).2

/-- The part of a `struct fsi_master` that a scan changes: the flag `slave_list` and the
list `my_slaves`. -/
structure MasterLists where
  slave_list : Bool
  my_slaves : List SlaveRec
  deriving DecidableEq

/-- `fsi_master_scan`: the list is initialised unless `slave_list` says it already is, the
links are walked in order, and the result is 0 whatever happened on them. -/
def fsi_master_scan (E : Env) (reg : fsi_master → World → World) (master : fsi_master)
    (ms : MasterLists) (w : World) : Int × MasterLists × World :=
  let l := if ms.slave_list then ms.my_slaves else []
  let r := fsi_master_scan_loop E reg master 0 master.n_links l w
  (0, { slave_list := true, my_slaves := r.1 }, r.2)

/-- `fsi_master_register` for a master whose `dev` is set (the `-EINVAL` exit is for a
NULL master or device): an index is drawn, `slave_list` is cleared and the links are
scanned; a failure of `device_create_file` is not looked at.  Hubs found by the scan are
registered by the same function; `fuel` bounds how deep hubs may nest, and a hub found
with no fuel left is not entered. -/
def fsi_master_register (E : Env) : Nat → fsi_master → World → World
  | 0, _, w => w
  | fuel + 1, master, w =>
    let a := call E .ida_simple_get w
    (fsi_master_scan E (fsi_master_register E fuel) master
      { slave_list := false, my_slaves := [] } a.2).2.2

/-! ## Error recovery -/

/-- `atomic_inc` on the 32-bit counter of an `atomic_t`. -/
def atomic_inc (v : Int) : Int := if v = 2 ^ 31 - 1 then -(2 ^ 31) else v + 1

/-- `fsi_master_handle_error`; `in_err_cleanup` is the static latch (free at -1) before
the call, and the first component of the result is the latch after it.  The return codes
of the steps are not looked at; the `udelay(200)` has no counterpart here. -/
def fsi_master_handle_error (E : Env) (master : fsi_master) (addr : Nat)
    (in_err_cleanup : Int) (w : World) : Int × World :=
  let smode := FSI_SLAVE_SMODE_DFLT
  let v := atomic_inc in_err_cleanup
  if v ≠ 0 then (v, w) else
  let b := fsi_master_break E master 0 w
  let r := master_write E master 0 0 (FSI_SLAVE_BASE + FSI_SMODE) smode 4 b.2
  let smode := u32 (E.regs.FSI_MRESB_RST_GEN ||| E.regs.FSI_MRESB_RST_ERR)
  let r := master_write E master 0 0 (u32 (FSI_HUB_CONTROL + E.regs.FSI_MRESB0)) smode 4 r.2
  if addr > FSI_HUB_LINK_OFFSET then
    let smode := FSI_BREAK
    let r := master_write E master 0 0 0x100004 smode 4 r.2
    let smode := FSI_SLAVE_SMODE_DFLT
    let r := master_write E master 0 0 0x100800 smode 4 r.2
    (-1, r.2)
  else
    (-1, r.2)

/-! ## The raw window and the poll period -/

/-- `fsi_slave_sysfs_raw_read`: `off` is a signed 64-bit file offset (`off & 0x3` is its
remainder modulo 4), `count` the length asked for; the result is the return value and the
word read. -/
def fsi_slave_sysfs_raw_read (E : Env) (slave : fsi_slave) (off : Int) (count : Nat)
    (w : World) : Resp × World :=
  if count ≠ 4 ∨ off % 4 ≠ 0 then (⟨-EINVAL, 0⟩, w) else
  if off > 0xfffffffc ∨ off < 0 then (⟨-EINVAL, 0⟩, w) else
  let r := fsi_slave_read E slave off.toNat 4 w
  (⟨if r.1.rc ≠ 0 then r.1.rc else count, r.1.data⟩, r.2)

/-- `fsi_slave_sysfs_raw_write`; `buf` is the word in the caller's buffer. -/
def fsi_slave_sysfs_raw_write (E : Env) (slave : fsi_slave) (buf : Nat) (off : Int)
    (count : Nat) (w : World) : Int × World :=
  if count ≠ 4 ∨ off % 4 ≠ 0 then (-EINVAL, w) else
  if off > 0xfffffffc ∨ off < 0 then (-EINVAL, w) else
  let r := fsi_slave_write E slave off.toNat buf 4 w
  (if r.1.rc ≠ 0 then r.1.rc else count, r.2)

/-- `fsi_ipoll_period_store`: `parsed` is what `kstrtoul` made of the buffer (`none` when
it fails, and then `val` keeps its initial 0); the result is the return value and
`fsi_ipoll_period_ms` after the call. -/
def fsi_ipoll_period_store (fsi_ipoll_period_ms : Nat) (parsed : Option Nat) (count : Nat) :
    Nat × Nat :=
  let val := parsed.getD 0
  if val > 1 ∧ val < 10000 then (count, val) else (count, fsi_ipoll_period_ms)

/-- The period after a sequence of stores, each a parse result and a count. -/
def ipoll_period_after (fsi_ipoll_period_ms : Nat) (stores : List (Option Nat × Nat)) : Nat :=
  stores.foldl (fun p s => (fsi_ipoll_period_store p s.1 s.2).2) fsi_ipoll_period_ms

/-- The initial value of the static `fsi_ipoll_period_ms`. -/
def fsi_ipoll_period_ms_init : Nat := 100

/-- A link on which bring-up fails in world `w`: `link_enable`, the break or the probe
read of the mode register at id 3 returns an error. -/
def link_fails (E : Env) (master : fsi_master) (link : Nat) (w : World) : Prop :=
  (fsi_master_link_enable E master link w).1 ≠ 0
    ∨ (fsi_master_break E master link (fsi_master_link_enable E master link w).2).1 ≠ 0
    ∨ (master_read E master link 3 (FSI_SLAVE_BASE + FSI_SMODE) 4
        (fsi_master_break E master link (fsi_master_link_enable E master link w).2).2).1.rc ≠ 0

/-- A transport on which every read addressed to slave id 3 fails with `-EIO` and every
other call succeeds: the probe of every link fails. -/
def env_probe_fail : Env :=
  { respond := fun _ op =>
      match op with
      | .read _ 3 _ _ => ⟨- EIO, 0⟩
      | _ => ⟨0, 0⟩
    regs := regs_zero }

/-- The hub that the entries `js` of a table leave in the local `hub` of the scan of
`slave`, starting from `h`: each HUB_MASTER entry (type 0x1C) replaces it by a hub whose
control registers are at that entry's engine address and whose links start at 0x80000. -/
def table_hub (tbl : Nat → Nat) (slave : fsi_slave) :
    List Nat → Option fsi_master_hub → Option fsi_master_hub
  | [], h => h
  | j :: js, h =>
    table_hub tbl slave js
      (if conf_type (tbl j) = 0x1c then
        some { n_links := 0, slave := slave,
               control_regs := 3 * 0x400 + 0x400 * slots_before tbl j, base := 0x80000 }
      else h)

/-- The number of HUB_LINK entries (type 0x1D) among the entries `js` of a table. -/
def table_link_count (tbl : Nat → Nat) (js : List Nat) : Nat :=
  (js.filter (fun j => conf_type (tbl j) = 0x1d)).length

/-- The table of the hub cascade: a HUB_MASTER entry at index 2, six HUB_LINK entries at
the indices 3..8, the last with NEXT clear, each of one slot and with its CRC nibble;
every other word is 0 (an unused entry that ends a table, and a valid chip ID). -/
def table_hub6 (i : Nat) : Nat :=
  if i = 2 then 0x800101c4 else if 3 ≤ i ∧ i < 8 then 0x800101d3
  else if i = 8 then 0x000101db else 0

/-- Sample values for the constants of the missing header, for concrete runs in which
the registers of a hub must be told apart. -/
def regs_sample : MasterRegs :=
  { FSI_MMODE := 0x0, FSI_MDLYR := 0x4, FSI_MSENP0 := 0x18, FSI_MCENP0 := 0x20,
    FSI_MLEVP0 := 0x18, FSI_MAEB := 0x70, FSI_MVER := 0x74, FSI_MRESP0 := 0xd0,
    FSI_MRESB0 := 0x1d0, FSI_MECTRL := 0x2e0, FSI_MSIEP0 := 0x30,
    FSI_MRESP_RST_ALL_MASTER := 0x20000000, FSI_MRESP_RST_ALL_LINK := 0x10000000,
    FSI_MRESP_RST_MCR := 0x08000000, FSI_MRESP_RST_PYE := 0x04000000,
    FSI_MECTRL_EOAE := 0x8000, FSI_MECTRL_P8_AUTO_TERM := 0x4000,
    FSI_MMODE_EIP := 0x80000000, FSI_MMODE_ECRC := 0x20000000,
    FSI_MMODE_EPC := 0x10000000, FSI_MMODE_P8_TO_LSB := 0x00000010,
    fsi_mmode_crs0 := fun x => (x &&& 0x3ff) <<< 18,
    fsi_mmode_crs1 := fun x => (x &&& 0x3ff) <<< 8,
    FSI_MRESB_RST_GEN := 0x80000000, FSI_MRESB_RST_ERR := 0x40000000,
    FSI_MSIEP_BITS_PER_LINK := 4, L_MSB_MASK := fun x => 0x80000000 >>> x }

/-- The transport of `env_table` for `table_hub6` with the sample constants: every access
succeeds, also on the links of the hub, where every word reads 0. -/
def env_hub6 : Env :=
  { respond := fun _ op =>
      match op with
      | .read _ _ addr _ => ⟨0, table_hub6 (addr / 4 - 1)⟩
      | _ => ⟨0, 0⟩
    regs := regs_sample }

/-- The transport of `env_table` for `table_hub6` with the sample constants, except that
the read at slave address `0xC00 + 0x74`, the first access of `hub_master_init` for the
hub of that table, fails. -/
def env_hub_init_fail : Env :=
  { respond := fun _ op =>
      match op with
      | .read _ _ addr _ => if addr = 0xC74 then ⟨- EIO, 0⟩ else ⟨0, table_hub6 (addr / 4 - 1)⟩
      | _ => ⟨0, 0⟩
    regs := regs_sample }


/-! ## Interrupt masks -/

def FSI_SRSIX_IRQ1_MASK : Nat := 0x00aaaaaa
def FSI_SRSIX_BITS_PER_LINK : Nat := 8

/-- The complement `~x` of a `uint32_t`. -/
def not32 (x : Nat) : Nat := u32 x ^^^ 0xffffffff

/-- `link_to_srsim_mask`. -/
def link_to_srsim_mask (E : Env) (link : Nat) : Nat :=
  shr32 E (0x80000000 >>> 6) (FSI_SRSIX_BITS_PER_LINK * link : Nat)

/-- `link_to_msiep_mask`. -/
def link_to_msiep_mask (E : Env) (link : Nat) : Nat :=
  shr32 E 0xf0000000 (E.regs.FSI_MSIEP_BITS_PER_LINK * link : Nat)

/-- `set_si1m`: read-modify-write of the slave's `SI1M`. -/
def set_si1m (E : Env) (slave : fsi_slave) (mask : Nat) (on_ : Bool) (w : World) :
    Int × World :=
  let r := fsi_slave_read E slave (FSI_SLAVE_BASE + FSI_SI1M) 4 w
  if r.1.rc ≠ 0 then (r.1.rc, r.2) else
  let si1m := u32 r.1.data
  let si1m := if on_ then si1m ||| mask else si1m &&& not32 mask
  let q := fsi_slave_write E slave (FSI_SLAVE_BASE + FSI_SI1M) si1m 4 r.2
  (q.1.rc, q.2)

/-- `set_upstream_irq_masks`.  `idx` gives `master->idx` and `ipoll` the `ipoll` word of
every master; the result is the return code, the `ipoll` words and the world.  The slave
above a hub master is the slave that carries the hub; a root master has none, and there
the model takes the `!upstream_slave` exit. -/
def set_upstream_irq_masks (E : Env) (idx : fsi_master → Int) (master : fsi_master)
    (slave : fsi_slave) (on_ : Bool) (ipoll : fsi_master → Nat) (w : World) :
    Int × (fsi_master → Nat) × World :=
  if idx master ≤ 0 then (0, ipoll, w) else
  match slave.master with
  | .root _ => (-ENODEV, ipoll, w)
  | .hub _ sm sl si _ _ =>
    let upstream_slave : fsi_slave := ⟨sm, sl, si⟩
    let r := fsi_slave_read E upstream_slave (FSI_SLAVE_BASE + FSI_SRSIM0) 4 w
    if r.1.rc ≠ 0 then (r.1.rc, ipoll, r.2) else
    let si1m := u32 r.1.data
    let mask := link_to_srsim_mask E slave.link
    let si1m := if on_ then si1m ||| mask else si1m &&& not32 mask
    let r := fsi_slave_write E upstream_slave (FSI_SLAVE_BASE + FSI_SRSIM0) si1m 4 r.2
    if r.1.rc ≠ 0 then (r.1.rc, ipoll, r.2) else
    let upstream_master := upstream_slave.master
    let r := master_read E upstream_master 0 0 (u32 (FSI_HUB_CONTROL + E.regs.FSI_MSIEP0)) 4 r.2
    if r.1.rc ≠ 0 then (r.1.rc, ipoll, r.2) else
    let si1m := u32 r.1.data
    let mask := link_to_msiep_mask E slave.link
    let ipoll := Function.update ipoll upstream_master
      (if on_ then ipoll upstream_master ||| FSI_SI1_HUB_SRC
       else ipoll upstream_master &&& not32 FSI_SI1_HUB_SRC)
    let si1m := if on_ then si1m ||| mask else si1m &&& not32 mask
    let r := master_write E upstream_master 0 0 (u32 (FSI_HUB_CONTROL + E.regs.FSI_MSIEP0))
      si1m 4 r.2
    if r.1.rc ≠ 0 then (r.1.rc, ipoll, r.2) else
    let r := master_write E upstream_master 0 0 (u32 (FSI_HUB_CONTROL + E.regs.FSI_MMODE))
      0xd0040410 4 r.2
    let r := master_write E upstream_master 0 0 (FSI_SLAVE_BASE + FSI_SI1M)
      FSI_SI1_HUB_SRC 4 r.2
    let s := set_si1m E upstream_slave FSI_SI1_HUB_SRC on_ r.2
    (s.1, ipoll, s.2)

/-- `fsi_enable_irq`. -/
def fsi_enable_irq (E : Env) (idx : fsi_master → Int) (dev : fsi_device)
    (ipoll : fsi_master → Nat) (w : World) : Int × (fsi_master → Nat) × World :=
  let bit := si1s_mask E dev
  let master := dev.slave.master
  let slave := dev.slave
  let link := slave.link
  if dev.irq_handler = false then (-EINVAL, ipoll, w) else
  let r := master_read E master link 0 (FSI_SLAVE_BASE + FSI_SI1M) 4 w
  if r.1.rc ≠ 0 then (r.1.rc, ipoll, r.2) else
  let si1m := u32 r.1.data ||| bit
  let r := master_write E master link 0 (FSI_SLAVE_BASE + FSI_SI1M) si1m 4 r.2
  if r.1.rc ≠ 0 then (r.1.rc, ipoll, r.2) else
  let ipoll := Function.update ipoll master (ipoll master ||| bit)
  set_upstream_irq_masks E idx master slave true ipoll r.2

/-- `fsi_disable_irq`; it returns nothing, the result is the `ipoll` words and the
world. -/
def fsi_disable_irq (E : Env) (idx : fsi_master → Int) (dev : fsi_device)
    (ipoll : fsi_master → Nat) (w : World) : (fsi_master → Nat) × World :=
  let bits := not32 (si1s_mask E dev)
  let master := dev.slave.master
  let slave := dev.slave
  let link := dev.slave.link
  let ipoll := Function.update ipoll master (ipoll master &&& bits)
  let r := master_read E master link 0 (FSI_SLAVE_BASE + FSI_SI1M) 4 w
  if r.1.rc ≠ 0 then (ipoll, r.2) else
  let si1m := u32 r.1.data &&& bits
  let r := master_write E master link 0 (FSI_SLAVE_BASE + FSI_SI1M) si1m 4 r.2
  if r.1.rc ≠ 0 then (ipoll, r.2) else
  if ipoll master = 0 then
    ((set_upstream_irq_masks E idx master slave false ipoll r.2).2.1,
      (set_upstream_irq_masks E idx master slave false ipoll r.2).2.2)
  else (ipoll, r.2)

/-- The word at `(link, id, addr)` of a register memory that held `init` before the calls
of `log` (most recent first): the value of the last write there. -/
def mem_at (init : Nat → Nat → Nat → Nat) : List Op → Nat → Nat → Nat → Nat
  | [], l, i, a => init l i a
  | op :: rest, l, i, a =>
    match op with
    | .write l' i' a' v _ => if l' = l ∧ i' = i ∧ a' = a then v else mem_at init rest l i a
    | _ => mem_at init rest l i a

/-- A transport that behaves as register memory and never fails: a read returns the word
last written at its address, `init` before any write. -/
def env_mem (init : Nat → Nat → Nat → Nat) (regs : MasterRegs) : Env :=
  { respond := fun log op =>
      match op with
      | .read l i a _ => ⟨0, mem_at init log l i a⟩
      | _ => ⟨0, 0⟩
    regs := regs }

/-- The register `(link, id, addr)` of the root master at which an access
`master->read(master, link, id, addr, ...)` or `master->write(...)` ends: a hub master
hands the access to the slave that carries it, at the address `hub_master_read` and
`hub_master_write` compute. -/
def root_cell : fsi_master → Nat → Nat → Nat → Nat × Nat × Nat
  | .root _, link, id, addr => (link, id, addr)
  | .hub _ sm sl si _ base, linkno, _, addr =>
      root_cell sm sl si (u32 (addr + u32 (linkno * FSI_MASTER_HUB_LINK_SIZE + base)))

/-- The word of the register `c` after the calls of `log`. -/
def mem_cell (init : Nat → Nat → Nat → Nat) (log : List Op) (c : Nat × Nat × Nat) : Nat :=
  mem_at init log c.1 c.2.1 c.2.2

/-- The engine `engine2` with an interrupt handler bound. -/
def engine2_irq : fsi_device := { engine2 with irq_handler := true }

/-- Registers that are all 0 except `SI1M` (0x818) of every slave, where the bit of
interrupt number 1 is already set. -/
def mem_si1m_set (_ _ a : Nat) : Nat := if a = 0x818 then 0x40000000 else 0


/-! ## Interrupt dispatch -/

/-- `__clz`: the number of leading zero bits of a 32-bit word, counted from bit `n - 1`
down (`n = 32` for the whole word). -/
def clz_from : Nat → Nat → Nat
  | 0, _ => 0
  | n + 1, x => if x.testBit n then 0 else 1 + clz_from n x

def clz (x : Nat) : Nat := clz_from 32 x

/-- `next_hublink_source` for a non-NULL slave. -/
def next_hublink_source (srsis : Nat) : Int :=
  if srsis &&& FSI_SRSIX_IRQ1_MASK = 0 then -EINVAL
  else ((clz srsis : Nat) : Int) / (FSI_SRSIX_BITS_PER_LINK : Int)

/-- The word `0xff000000 >> (hublink * FSI_SRSIX_BITS_PER_LINK)` that `__fsi_dev_irq`
writes to `SRSIC0`. -/
def srsic_clear_mask (E : Env) (hublink : Int) : Nat :=
  shr32 E 0xff000000 (hublink * FSI_SRSIX_BITS_PER_LINK)

/-- A device below a slave, as `__fsi_dev_irq` sees it: the `si1s_bit` and `irq_handler`
it finds through `to_fsi_dev` (a bound handler carries a number that names it), whether
`dev_get_drvdata` is non-NULL (it is for the device of a hub, where it points to the
hub), whether that hub's `master.dev` is set, and the child devices: the slaves on the
hub's links, each with the devices below it. -/
inductive irq_device where
  | mk (si1s_bit : Nat) (irq_handler : Option Nat) (drvdata : Bool) (master_dev : Bool)
      (children : List (fsi_slave × List irq_device))

/-- `device_for_each_child(dev, data, fn)`: call `fn` on the children in turn, stop at the
first result that is not 0 and return it. -/
def device_for_each_child {α : Type} (fn : α → World → Int × World) :
    List α → World → Int × World
  | [], w => (0, w)
  | c :: cs, w =>
    if (fn c w).1 ≠ 0 then fn c w else device_for_each_child fn cs (fn c w).2

/-- `__fsi_hub_slave_irq` on a slave of a hub link, given the dispatch `dev_irq` to the
devices below a slave. -/
def fsi_hub_slave_irq (E : Env)
    (dev_irq : fsi_slave → Nat → irq_device → World → Int × World)
    (hub_slave : fsi_slave × List irq_device) (w : World) : Int × World :=
  let r := fsi_slave_read E hub_slave.1 (FSI_SLAVE_BASE + FSI_SI1S) 4 w
  if r.1.rc ≠ 0 then (r.1.rc, r.2) else
  let si1s := u32 r.1.data
  if si1s = 0 then (0, r.2) else
  device_for_each_child (dev_irq hub_slave.1 si1s) hub_slave.2 r.2

/-- `__fsi_dev_irq` on a device below `slave` with the status word `si1s`.  The first
argument bounds the depth of the hub cascade that is followed; at depth 0 nothing is
done. -/
def fsi_dev_irq (E : Env) : Nat → fsi_slave → Nat → irq_device → World → Int × World
  | 0, _, _, _, w => (0, w)
  | fuel + 1, slave, si1s, .mk si1s_bit irq_handler drvdata master_dev children, w =>
    match (if si1s &&& shr32 E 0x80000000 si1s_bit ≠ 0 then irq_handler else none) with
    | some h => (1, (call E (.irq_handler h) w).2)
    | none =>
      if si1s &&& FSI_SI1_HUB_SRC = 0 then (0, w) else
      if drvdata = false then (0, w) else
      let r := fsi_slave_read E slave (FSI_SLAVE_BASE + FSI_SRSIS0) 4 w
      if r.1.rc ≠ 0 then (r.1.rc, r.2) else
      let srsis := u32 r.1.data
      if srsis ≠ 0 then
        let hublink := next_hublink_source srsis
        if master_dev = false then (0, r.2) else
        let c := device_for_each_child (fsi_hub_slave_irq E (fsi_dev_irq E fuel)) children r.2
        let q := fsi_slave_write E slave (FSI_SLAVE_BASE + FSI_SRSIC0)
          (srsic_clear_mask E hublink) 4 c.2
        if q.1.rc ≠ 0 then (q.1.rc, q.2) else (1, q.2)
      else (-EINVAL, r.2)

/-- `__fsi_slave_irq` on a slave of the master. -/
def fsi_slave_irq (E : Env) (fuel : Nat) (si1s : Nat) (slave : fsi_slave × List irq_device)
    (w : World) : Int × World :=
  device_for_each_child (fsi_dev_irq E fuel slave.1 si1s) slave.2 w

/-- `fsi_master_irq(master, link, si1s)` on a master whose device has the children
`slaves`; `link` is not used. -/
def fsi_master_irq (E : Env) (fuel : Nat) (slaves : List (fsi_slave × List irq_device))
    (si1s : Nat) (w : World) : World :=
  (device_for_each_child (fsi_slave_irq E fuel si1s) slaves w).2

/-- The slave on link `L` of the hub `hub0`. -/
def cascade_grandchild (L : Nat) : fsi_slave := ⟨hub0.master, L, 0⟩

/-- An engine with interrupt number 1 and the handler 7 bound. -/
def cascade_engine : irq_device := .mk 1 (some 7) false false []

/-- The hub-cascade topology: the slave `slave0` of the root master carries the hub `hub0`
(no handler of its own); the slave on link `L` of the hub has the one engine
`cascade_engine`. -/
def cascade (L : Nat) : List (fsi_slave × List irq_device) :=
  [(slave0, [.mk 0 none true true [(cascade_grandchild L, [cascade_engine])]])]

/-- Register memory for the cascade: `SRSIS0` of `slave0` holds 0x00800000 and `SI1S` of
the slave on hub link 1 (at 0x10081c through the hub) holds the engine's bit 0x40000000. -/
def mem_cascade (l i a : Nat) : Nat :=
  if l = 0 ∧ i = 0 ∧ a = 0x878 then 0x00800000
  else if l = 0 ∧ i = 0 ∧ a = 0x10081c then 0x40000000 else 0


/-! ## The poll loop -/

/-- One pass of the loop of `fsi_master_ipoll`, up to the label `done`: nothing is done
while `master->ipoll` is 0; else `SI1S` of slave 0 on link 0 is read through the master
and, when the read succeeds and the word has a bit of `ipoll`, `fsi_master_irq` runs on
it.  `slaves` are the children of the master's device. -/
def fsi_master_ipoll_pass (E : Env) (fuel : Nat) (master : fsi_master)
    (slaves : List (fsi_slave × List irq_device)) (ipoll : Nat) (w : World) : World :=
  if ipoll = 0 then w else
  let r := master_read E master 0 0 (FSI_SLAVE_BASE + FSI_SI1S) 4 w
  if r.1.rc ≠ 0 then r.2 else
  let si1s := u32 r.1.data
  if si1s &&& ipoll ≠ 0 then fsi_master_irq E fuel slaves si1s r.2 else r.2

/-- The handlers called in a log, most recent first. -/
def handler_calls : List Op → List Nat
  | [] => []
  | .irq_handler h :: rest => h :: handler_calls rest
  | _ :: rest => handler_calls rest

/-- A hub on `slave0` with slaves on its links 0 and 1, each with one engine of interrupt
number 1: the engine on link 0 has the handler 5 bound, the one on link 1 the handler 7. -/
def cascade2 : List (fsi_slave × List irq_device) :=
  [(slave0, [.mk 0 none true true
    [(cascade_grandchild 0, [.mk 1 (some 5) false false []]),
     (cascade_grandchild 1, [.mk 1 (some 7) false false []])]])]

/-- Register memory for `cascade2`: `SRSIS0` of `slave0` holds 0x00800000 (a bit of hub
link 1) and `SI1S` of the slave on hub link 0 (at 0x8081c through the hub) holds the bit
0x40000000 of its engine. -/
def mem_cascade2 (l i a : Nat) : Nat :=
  if l = 0 ∧ i = 0 ∧ a = 0x878 then 0x00800000
  else if l = 0 ∧ i = 0 ∧ a = 0x8081c then 0x40000000 else 0

/-- Register memory in which `SRSIS0` of `slave0` holds 0x01000000, a bit that is not
among the sources of `FSI_SRSIX_IRQ1_MASK`. -/
def mem_srsis_odd (l i a : Nat) : Nat :=
  if l = 0 ∧ i = 0 ∧ a = 0x878 then 0x01000000 else 0

/-- The devices of `slave0` in table order: an engine with interrupt number 1 and the
handler 8 bound, then the hub `hub0` with the engine `cascade_engine` below its link 0. -/
def engine_and_hub : List (fsi_slave × List irq_device) :=
  [(slave0, [.mk 1 (some 8) false false [],
             .mk 2 none true true [(cascade_grandchild 0, [cascade_engine])]])]

/-- Register memory in which `SI1S` of `slave0` shows the hub source and the bit of
interrupt number 1. -/
def mem_si1s_both (l i a : Nat) : Nat :=
  if l = 0 ∧ i = 0 ∧ a = 0x81c then 0x40100000 else 0

/-- The result `r` of a dispatch step that started in `w`: the log has only grown, by at
most one handler call, and by none when the step returned 0. -/
def one_handler_step (w : World) (r : Int × World) : Prop :=
  ∃ pre, r.2.log = pre ++ w.log ∧ (handler_calls pre).length ≤ 1
    ∧ (r.1 = 0 → handler_calls pre = [])


/-! ## Sequences of interrupt enables and disables -/

/-- A sequence of calls, in order: `(true, dev)` is `fsi_enable_irq(dev)` and
`(false, dev)` is `fsi_disable_irq(dev)`; the result is the `ipoll` words and the world
after the last call. -/
def irq_calls (E : Env) (idx : fsi_master → Int) :
    List (Bool × fsi_device) → (fsi_master → Nat) → World → (fsi_master → Nat) × World
  | [], ipoll, w => (ipoll, w)
  | (true, dev) :: cs, ipoll, w =>
    irq_calls E idx cs (fsi_enable_irq E idx dev ipoll w).2.1 (fsi_enable_irq E idx dev ipoll w).2.2
  | (false, dev) :: cs, ipoll, w =>
    irq_calls E idx cs (fsi_disable_irq E idx dev ipoll w).1 (fsi_disable_irq E idx dev ipoll w).2

/-- The `ipoll` word of a master after a sequence of calls on its engines, as its bits go:
an enable sets the engine's bit, a disable clears it. -/
def ipoll_bits (E : Env) (cs : List (Bool × fsi_device)) (x : Nat) : Nat :=
  cs.foldl (fun x c => if c.1 then x ||| si1s_mask E c.2 else x &&& not32 (si1s_mask E c.2)) x

/-- Two hub masters below one root master with two links: `hub_a` on the slave of link 0,
`hub_b` on the slave of link 1. -/
def hub_a : fsi_master := .hub 1 (.root 2) 0 0 0xC00 FSI_HUB_LINK_OFFSET

def hub_b : fsi_master := .hub 1 (.root 2) 1 0 0xC00 FSI_HUB_LINK_OFFSET

/-- An engine with interrupt number 1 and a bound handler on slave 0 of link 0 of `hub_a`. -/
def engine_a : fsi_device :=
  { slave := ⟨hub_a, 0, 0⟩, engine_type := 5, version := 1, unit := 2, addr := 0xC00,
    size := 0x400, si1s_bit := 1, irq_handler := true }

/-- The same engine below `hub_b`. -/
def engine_b : fsi_device :=
  { slave := ⟨hub_b, 0, 0⟩, engine_type := 5, version := 1, unit := 2, addr := 0xC00,
    size := 0x400, si1s_bit := 1, irq_handler := true }

/-- Registers that are all 0 except `SRSIM0` (0x870) of every slave, where the bit of hub
link 0 is already set. -/
def mem_srsim_set (_ _ a : Nat) : Nat := if a = 0x870 then 0x02000000 else 0

/-- A second engine below `hub_a`, with interrupt number 2 and a bound handler. -/
def engine_a2 : fsi_device := { engine_a with unit := 3, addr := 0x1000, si1s_bit := 2 }

/-- The indices of the three masters in the order of their registration: 0 for the root,
1 for `hub_a`, 2 for `hub_b`. -/
def idx_two_hubs (m : fsi_master) : Int :=
  if m = .root 2 then 0 else if m = hub_a then 1 else 2


/-! ## Unregistration -/

/-- A registered master as `fsi_master_unregister`, `fsi_master_unscan` and
`fsi_unregister_hubs` find it: `master->idx`, `master->slave_list` and, for each slave on
`master->my_slaves`, the hubs among the child devices of the slave (the devices whose
`dev_get_drvdata` is set), each with its embedded master. -/
inductive reg_master where
  | mk (idx : Int) (slave_list : Bool) (my_slaves : List (fsi_slave × List reg_master))

/-- `fsi_unregister_hubs` on the device of a hub: the index of the hub's master is given
back and the master is unscanned (`unscan` stands for `fsi_master_unscan`); removing the
attribute file and the device has no counterpart here. -/
def fsi_unregister_hubs (E : Env) (unscan : reg_master → World → World) (hub : reg_master)
    (w : World) : World :=
  match hub with
  | .mk idx _ _ => unscan hub (call E (.ida_simple_remove idx) w).2

/-- `fsi_master_unscan`: nothing without `slave_list`; else every slave of `my_slaves` has
its engines removed (not modelled) and `fsi_unregister_hubs` run on its child devices.
The first argument bounds the depth of the hub cascade that is followed. -/
def fsi_master_unscan (E : Env) : Nat → reg_master → World → World
  | 0, _, w => w
  | fuel + 1, .mk _ slave_list my_slaves, w =>
    if slave_list = false then w else
    my_slaves.foldl (fun w slave =>
      slave.2.foldl (fun w hub => fsi_unregister_hubs E (fsi_master_unscan E fuel) hub w) w) w

/-- `fsi_master_unregister` for a master whose `dev` is set: nothing for a negative index;
else the index is given back and the master unscanned.  Stopping the poll thread has no
counterpart here. -/
def fsi_master_unregister (E : Env) (fuel : Nat) (master : reg_master) (w : World) : World :=
  match master with
  | .mk idx _ _ =>
    if idx < 0 then w else fsi_master_unscan E fuel master (call E (.ida_simple_remove idx) w).2

/-- Modelled from the spec: the process-wide pool of master indices behind `master_ida`
(the allocator itself is not among the sources).  The indices allocated after the calls
of `log`: `ida_simple_get` allocates the index it returns, unless that is an error, and
`ida_simple_remove` frees its argument. -/
def ida_allocated (E : Env) : List Op → List Int
  | [] => []
  | .ida_simple_get :: rest =>
    if (E.respond rest .ida_simple_get).rc < 0 then ida_allocated E rest
    else (E.respond rest .ida_simple_get).rc :: ida_allocated E rest
  | .ida_simple_remove id :: rest => (ida_allocated E rest).filter (fun i => i ≠ id)
  | _ :: rest => ida_allocated E rest

/-- A table with two HUB_MASTER entries of one slot each, at the indices 2 and 3, each with
its CRC nibble; every other word is 0. -/
def table_two_hubs (i : Nat) : Nat :=
  if i = 2 then 0x800101c4 else if i = 3 then 0x000101cc else 0

/-- The transport of `env_table` for `table_two_hubs`, with an allocator that hands out
the master indices 0, 1, 2, ... in this order. -/
def env_two_hubs : Env :=
  { respond := fun log op =>
      match op with
      | .read _ _ addr _ => ⟨0, table_two_hubs (addr / 4 - 1)⟩
      | .ida_simple_get => ⟨(log.filter (fun o => o = .ida_simple_get)).length, 0⟩
      | _ => ⟨0, 0⟩
    regs := regs_sample }

/-- A world in which one master, not the one under study, has drawn its index. -/
def world_one_master : World := ⟨[.ida_simple_get]⟩

/-- The structures that `fsi_master_register` leaves for the root master `.root 1` over
`env_two_hubs` from `world_one_master`: the master has the index 1 and one slave; below
that slave are the device of the hub of table entry 2, which was allocated and added but
never registered (its `idx` and `slave_list` are as `kzalloc` left them, 0 and false),
and the device of the hub of entry 3, registered with the index 2 and no slave. -/
def tree_two_hubs : reg_master :=
  .mk 1 true [(slave0, [.mk 0 false [], .mk 2 true []])]

/-- The engine of `cascade_engine` as a `struct fsi_device`: interrupt number 1 and a bound
handler, on the slave of link 0 of the hub `hub0`. -/
def cascade_engine_dev : fsi_device :=
  { slave := cascade_grandchild 0, engine_type := 5, version := 1, unit := 2, addr := 0xC00,
    size := 0x400, si1s_bit := 1, irq_handler := true }

/-- The indices of the cascade: 0 for the root master, 1 for the hub master. -/
def idx_cascade (m : fsi_master) : Int := if m = .root 1 then 0 else 1

/-! ## Properties -/

theorem u32_idem (x : Nat) : u32 (u32 x) = u32 x := by
  unfold u32; omega

theorem u32_of_lt {x : Nat} (h : x < 2 ^ 32) : u32 x = x := by
  unfold u32; omega

theorem u32_lt (x : Nat) : u32 x < 2 ^ 32 := by
  unfold u32; omega

/-- A shift by a count in 0..31 does not depend on the environment. -/
theorem shr32_of_lt (E : Env) (x k : Nat) (h : k < 32) :
    shr32 E x (k : Int) = u32 x >>> k := by
  unfold shr32
  rw [if_pos ⟨by omega, by omega⟩, Int.toNat_ofNat]

theorem shr32_lt (E : Env) (x : Nat) (n : Int) : shr32 E x n < 2 ^ 32 := by
  unfold shr32
  split
  · have h1 : u32 x >>> n.toNat ≤ u32 x := by
      rw [Nat.shiftRight_eq_div_pow]; exact Nat.div_le_self _ _
    have h2 := u32_lt x
    omega
  · exact u32_lt _

/-- For an interrupt number up to 31 the interrupt bit is bit `31 - si1s_bit`, counted
from the least significant bit. -/
theorem si1s_mask_of_le (E : Env) (dev : fsi_device) (h : dev.si1s_bit ≤ 31) :
    si1s_mask E dev = 2 ^ (31 - dev.si1s_bit) := by
  unfold si1s_mask
  rw [shr32_of_lt E _ _ (by omega), Nat.shiftRight_eq_div_pow]
  have e : u32 0x80000000 = 2 ^ 31 := by decide
  rw [e, Nat.pow_div h (by decide)]

theorem si1s_mask_lt (E : Env) (dev : fsi_device) : si1s_mask E dev < 2 ^ 32 :=
  shr32_lt E _ _

theorem si1s_mask_ne_zero (E : Env) (dev : fsi_device) (h : dev.si1s_bit ≤ 31) :
    si1s_mask E dev ≠ 0 := by
  rw [si1s_mask_of_le E dev h]
  exact Nat.pos_iff_ne_zero.1 (Nat.two_pow_pos _)

/-- A read through any chain of masters ends in exactly one `read` call of the root
master, of the size asked for, and hands back that call's answer. -/
theorem master_read_one_call (E : Env) (m : fsi_master) (link id addr size : Nat)
    (w : World) :
    ∃ l i a, master_read E m link id addr size w = call E (.read l i a size) w := by
  induction m generalizing link id addr with
  | root n => exact ⟨link, id, addr, rfl⟩
  | hub n sm sl si c b ih =>
    simp only [master_read]
    exact ih _ _ _

theorem master_write_one_call (E : Env) (m : fsi_master) (link id addr val size : Nat)
    (w : World) :
    ∃ l i a, master_write E m link id addr val size w = call E (.write l i a val size) w := by
  induction m generalizing link id addr with
  | root n => exact ⟨link, id, addr, rfl⟩
  | hub n sm sl si c b ih =>
    simp only [master_write]
    exact ih _ _ _

theorem fsi_slave_read_one_call (E : Env) (s : fsi_slave) (addr size : Nat) (w : World) :
    ∃ l i a, fsi_slave_read E s addr size w = call E (.read l i a size) w :=
  master_read_one_call E s.master s.link s.id (u32 addr) size w

theorem fsi_slave_write_one_call (E : Env) (s : fsi_slave) (addr val size : Nat)
    (w : World) :
    ∃ l i a, fsi_slave_write E s addr val size w = call E (.write l i a val size) w :=
  master_write_one_call E s.master s.link s.id (u32 addr) val size w

theorem call_log_ne (E : Env) (op : Op) (w : World) : (call E op w).2 ≠ w := by
  intro h
  have h2 : (call E op w).2.log = w.log := by rw [h]
  simp only [call] at h2
  have := congrArg List.length h2
  simp at this

/-- C1: `fsi_device_read` and `fsi_device_write` fail with `-EINVAL` and leave the world
untouched (no call reaches the slave or the transport) exactly when `addr > dev.size`,
`len > dev.size` or `addr > dev.size - len`.  In every other case each is one
`fsi_slave_read` / `fsi_slave_write` of `len` bytes on `dev.slave` at the slave address
`dev.addr + addr` (a `uint32_t` sum, equal to the plain sum whenever that fits 32 bits),
which is exactly one read / write call of the root transport, and its result is handed
back. -/
theorem fsi_device_access_bounds (E : Env) (dev : fsi_device) (addr val len : Nat)
    (w : World) :
    ((((fsi_device_read E dev addr val len w).1.rc = -EINVAL
          ∧ (fsi_device_read E dev addr val len w).2 = w)
        ↔ (addr > dev.size ∨ len > dev.size ∨ addr > dev.size - len))
      ∧ (((fsi_device_write E dev addr val len w).1.rc = -EINVAL
          ∧ (fsi_device_write E dev addr val len w).2 = w)
        ↔ (addr > dev.size ∨ len > dev.size ∨ addr > dev.size - len)))
    ∧ (¬ (addr > dev.size ∨ len > dev.size ∨ addr > dev.size - len) →
        (fsi_device_read E dev addr val len w
            = fsi_slave_read E dev.slave (u32 (dev.addr + addr)) len w
          ∧ ∃ l i a, fsi_device_read E dev addr val len w = call E (.read l i a len) w)
        ∧ (fsi_device_write E dev addr val len w
            = fsi_slave_write E dev.slave (u32 (dev.addr + addr)) val len w
          ∧ ∃ l i a, fsi_device_write E dev addr val len w
              = call E (.write l i a val len) w)
        ∧ (dev.addr + addr < 2 ^ 32 →
            fsi_device_read E dev addr val len w
              = fsi_slave_read E dev.slave (dev.addr + addr) len w
            ∧ fsi_device_write E dev addr val len w
              = fsi_slave_write E dev.slave (dev.addr + addr) val len w)) := by
  by_cases hb : addr > dev.size ∨ len > dev.size ∨ addr > dev.size - len
  · simp only [fsi_device_read, fsi_device_write, if_pos hb]
    simp [hb]
  · simp only [fsi_device_read, fsi_device_write, if_neg hb]
    obtain ⟨l, i, a, hr⟩ := fsi_slave_read_one_call E dev.slave (u32 (dev.addr + addr)) len w
    obtain ⟨l', i', a', hw⟩ :=
      fsi_slave_write_one_call E dev.slave (u32 (dev.addr + addr)) val len w
    refine ⟨⟨⟨fun h => absurd h.2 ?_, fun h => absurd h hb⟩,
      ⟨fun h => absurd h.2 ?_, fun h => absurd h hb⟩⟩, fun _ => ⟨⟨trivial, l, i, a, hr⟩,
      ⟨trivial, l', i', a', hw⟩, fun hlt => ?_⟩⟩
    · rw [hr]; exact call_log_ne E _ w
    · rw [hw]; exact call_log_ne E _ w
    · rw [u32_of_lt hlt]; exact ⟨rfl, rfl⟩

theorem hub_addr (base link addr : Nat) :
    u32 (addr + u32 (link * FSI_MASTER_HUB_LINK_SIZE + base))
      = u32 (base + link * 0x80000 + addr) := by
  unfold u32 FSI_MASTER_HUB_LINK_SIZE; omega

/-- C2: for a hub master with owning slave `s` and base `b`, `hub_master_read(link, id,
addr)` and `hub_master_write(link, id, addr)` are exactly `s`'s read / write at the slave
address `b + link * 0x80000 + addr` taken modulo `2^32`, whatever the slave-id argument,
and return its result; the `read` / `write` callbacks of the hub's master are these two
functions. -/
theorem hub_master_rw_offset (E : Env) (hub : fsi_master_hub) (link id addr val len : Nat)
    (w : World) :
    hub_master_read E hub link id addr len w
        = fsi_slave_read E hub.slave (u32 (hub.base + link * 0x80000 + addr)) len w
      ∧ hub_master_write E hub link id addr val len w
        = fsi_slave_write E hub.slave (u32 (hub.base + link * 0x80000 + addr)) val len w
      ∧ master_read E hub.master link id addr len w = hub_master_read E hub link id addr len w
      ∧ master_write E hub.master link id addr val len w
        = hub_master_write E hub link id addr val len w := by
  refine ⟨?_, ?_, ?_, ?_⟩
  · simp only [hub_master_read, hub_addr]
  · simp only [hub_master_write, hub_addr]
  · simp only [hub_master_read, fsi_master_hub.master, master_read, fsi_slave_read, u32_idem]
  · simp only [hub_master_write, fsi_master_hub.master, master_write, fsi_slave_write,
      u32_idem]


/-! ### The scan loop keeps its invariant -/

theorem scanInv_init (E : Env) (w : World) : ScanInv 2 (scan_init E w) := by
  constructor <;> simp [scan_init, engine_page_size]

theorem u8_lt (x : Nat) : u8 x < 256 := by
  unfold u8; omega

theorem scanInv_advance {i : Nat} {st : ScanState} (conf slots : Nat) (w : World)
    (hi : 2 ≤ i) (hi2 : i < 256) (hs : slots < 256) (h : ScanInv i st) :
    ScanInv (i + 1) (scan_advance conf slots st w).st := by
  have hst : (scan_advance conf slots st w).st
      = { st with engine_addr := u32 (st.engine_addr + slots * engine_page_size) } := by
    unfold scan_advance; dsimp only; split <;> rfl
  rw [hst]
  have ha := h.addr_hi
  have hl := h.addr_lo
  have hu : u32 (st.engine_addr + slots * engine_page_size)
      = st.engine_addr + slots * engine_page_size := by
    apply u32_of_lt; unfold engine_page_size; omega
  constructor
  · simp only [hu]; omega
  · simp only [hu]; unfold engine_page_size; omega
  · exact h.bit_lo
  · have := h.bit_hi; simp only; omega
  · intro e he
    have := h.eng e he
    simp only [hu]; omega
  · exact h.pw

theorem scanInv_congr {i : Nat} (st st' : ScanState)
    (h1 : st'.engine_addr = st.engine_addr) (h2 : st'.si1s_bit = st.si1s_bit)
    (h3 : st'.my_engines = st.my_engines) (h : ScanInv i st) : ScanInv i st' := by
  refine ⟨?_, ?_, ?_, ?_, ?_, ?_⟩
  · rw [h1]; exact h.addr_lo
  · rw [h1]; exact h.addr_hi
  · rw [h2]; exact h.bit_lo
  · rw [h2]; exact h.bit_hi
  · rw [h1, h2, h3]; exact h.eng
  · rw [h3]; exact h.pw

theorem scanInv_engine {i : Nat} {st : ScanState} (hi : 2 ≤ i) (hi2 : i < 256)
    (h : ScanInv i st) (slave : fsi_slave) (type version slots : Nat)
    (hs0 : slots ≠ 0) (hs : slots < 256) :
    ScanInv (i + 1) { st with
      engine_addr := u32 (st.engine_addr + slots * engine_page_size)
      si1s_bit := u8 (st.si1s_bit + 1)
      my_engines :=
        { slave := slave, engine_type := type, version := version, unit := u8 i,
          addr := st.engine_addr, size := u32 (slots * engine_page_size),
          si1s_bit := st.si1s_bit, irq_handler := false } :: st.my_engines } := by
  have ha := h.addr_hi
  have hl := h.addr_lo
  have hb := h.bit_hi
  have hb0 := h.bit_lo
  have hu : u32 (st.engine_addr + slots * engine_page_size)
      = st.engine_addr + slots * engine_page_size := by
    apply u32_of_lt; unfold engine_page_size; omega
  have hsz : u32 (slots * engine_page_size) = slots * engine_page_size := by
    apply u32_of_lt; unfold engine_page_size; omega
  have hbit : u8 (st.si1s_bit + 1) = st.si1s_bit + 1 := by unfold u8; omega
  have hunit : u8 i = i := by unfold u8; omega
  have hpos : 0 < slots * engine_page_size := by unfold engine_page_size; omega
  have hle : slots * engine_page_size ≤ 0x3FC00 := by unfold engine_page_size; omega
  refine ⟨?_, ?_, ?_, ?_, ?_, ?_⟩
  · simp only [hu]; omega
  · simp only [hu]; omega
  · simp only [hbit]; omega
  · simp only [hbit]; omega
  · intro e he
    simp only [List.mem_cons] at he
    rcases he with rfl | he
    · simp only [hu, hsz, hbit, hunit]; omega
    · have := h.eng e he
      simp only [hu, hbit]; omega
  · simp only [List.pairwise_cons]
    refine ⟨fun e he => ?_, h.pw⟩
    have := h.eng e he
    simp only [hunit]; omega

theorem scanInv_body (E : Env) (slave : fsi_slave) {i : Nat} {st : ScanState} (w : World)
    (hi : 2 ≤ i) (hi2 : i < 256) (h : ScanInv i st) :
    ScanInv (i + 1) (fsi_slave_scan_body E slave i st w).st := by
  have hmono : ScanInv (i + 1) st := by
    refine ⟨h.addr_lo, ?_, h.bit_lo, ?_, ?_, h.pw⟩
    · have := h.addr_hi; omega
    · have := h.bit_hi; omega
    · intro e he; have := h.eng e he; omega
  have hadv : ∀ (conf slots : Nat) (st' : ScanState) (w' : World),
      (scan_advance conf slots st' w').st
        = { st' with engine_addr := u32 (st'.engine_addr + slots * engine_page_size) } := by
    intro conf slots st' w'
    unfold scan_advance; dsimp only; split <;> rfl
  unfold fsi_slave_scan_body
  dsimp only
  generalize fsi_slave_read E slave ((i + 1) * 4) 4 w = r
  generalize u32 r.1.data = conf
  generalize call E Op.kzalloc r.2 = a
  generalize call E Op.device_add a.2 = d
  generalize hub_master_init E ⟨0, slave, st.engine_addr, FSI_HUB_LINK_OFFSET⟩ d.2 = hm
  generalize fsi_crc4 0 (conf >>> FSI_SLAVE_CONF_CRC_SHIFT) FSI_SLAVE_CONF_DATA_BITS = crc
  split_ifs with h1 h2 h3 h4 h5 h6 h7 h8 h9 h10
  all_goals first
    | exact hmono
    | exact scanInv_advance _ _ _ hi hi2 (u8_lt _) h
    | skip
  · exact scanInv_advance _ _ _ hi hi2 (u8_lt _) (scanInv_congr st _ rfl rfl rfl h)
  · exact scanInv_advance _ _ _ hi hi2 (u8_lt _) (scanInv_congr st _ rfl rfl rfl h)
  · have hb := h.bit_hi
    have hb0 := h.bit_lo
    have hbit : u8 (st.si1s_bit + 1) = st.si1s_bit + 1 := by unfold u8; omega
    refine ⟨hmono.addr_lo, hmono.addr_hi, ?_, ?_, ?_, hmono.pw⟩
    · simp only [Flow.st, hbit]; omega
    · simp only [Flow.st, hbit]; omega
    · intro e he
      have := hmono.eng e he
      simp only [Flow.st, hbit]; omega
  · rw [hadv]
    exact scanInv_engine hi hi2 h slave _ _ _ h8 (u8_lt _)

/-- Induction over the passes of the scan loop: a property of the loop index and the
scan state that every pass carries from `i` to `i + 1` holds, for some index reached,
of the state the loop ends in. -/
theorem scan_loop_induct (E : Env) (slave : fsi_slave) (P : Nat → ScanState → Prop)
    (hstep : ∀ i st w, 2 ≤ i → i < 256 → P i st →
      P (i + 1) (fsi_slave_scan_body E slave i st w).st) :
    ∀ (n i : Nat) (st : ScanState) (w : World), 2 ≤ i → i + n ≤ 256 → P i st →
      ∃ j, j ≤ i + n ∧ P j (fsi_slave_scan_loop E slave i n st w).st := by
  intro n
  induction n with
  | zero =>
    intro i st w _ hn h
    exact ⟨i, by omega, h⟩
  | succ n ih =>
    intro i st w hi hn h
    have hb := hstep i st w hi (by omega) h
    unfold fsi_slave_scan_loop
    cases hf : fsi_slave_scan_body E slave i st w with
    | next st' w' =>
      rw [hf] at hb
      obtain ⟨j, hj, hp⟩ := ih (i + 1) st' w' (by omega) (by omega) hb
      exact ⟨j, by omega, hp⟩
    | brk st' w' =>
      rw [hf] at hb
      exact ⟨i + 1, by omega, hb⟩
    | ret rc st' w' =>
      rw [hf] at hb
      exact ⟨i + 1, by omega, hb⟩

theorem scanInv_loop (E : Env) (slave : fsi_slave) (n i : Nat) (st : ScanState) (w : World)
    (hi : 2 ≤ i) (hn : i + n ≤ 256) (h : ScanInv i st) :
    ∃ j, j ≤ i + n ∧ ScanInv j (fsi_slave_scan_loop E slave i n st w).st :=
  scan_loop_induct E slave ScanInv (fun _ _ w hi hi2 h => scanInv_body E slave w hi hi2 h)
    n i st w hi hn h

theorem fsi_slave_scan_engines (E : Env) (reg : fsi_master → World → World)
    (slave : fsi_slave) (w : World) :
    (fsi_slave_scan E reg slave w).1.my_engines
      = (fsi_slave_scan_loop E slave 2 (engine_page_size / 4 - 2) (scan_init E w) w).st.my_engines := by
  unfold fsi_slave_scan
  cases hf : fsi_slave_scan_loop E slave 2 (engine_page_size / 4 - 2) (scan_init E w) w with
  | next st' w' => cases hh : st'.hub <;> simp [Flow.st, hh]
  | brk st' w' => cases hh : st'.hub <;> simp [Flow.st, hh]
  | ret rc st' w' => simp [Flow.st]

theorem fsi_slave_scan_inv (E : Env) (reg : fsi_master → World → World)
    (slave : fsi_slave) (w : World) :
    ∃ j st, j ≤ 256 ∧ ScanInv j st ∧ (fsi_slave_scan E reg slave w).1.my_engines = st.my_engines := by
  obtain ⟨j, hj, h⟩ := scanInv_loop E slave (engine_page_size / 4 - 2) 2 (scan_init E w) w
    (by omega) (by unfold engine_page_size; omega) (scanInv_init _ _)
  exact ⟨j, _, by unfold engine_page_size at hj; omega, h, fsi_slave_scan_engines E reg slave w⟩
theorem and_mask_shift (x s k : Nat) : (x &&& ((2 ^ k - 1) <<< s)) >>> s = x / 2 ^ s % 2 ^ k := by
  rw [← Nat.shiftRight_eq_div_pow]
  apply Nat.eq_of_testBit_eq
  intro j
  simp only [Nat.testBit_shiftRight, Nat.testBit_and, Nat.testBit_shiftLeft,
    Nat.testBit_two_pow_sub_one, Nat.testBit_mod_two_pow]
  by_cases hj : j < k <;> simp [hj]

theorem slots_field (conf : Nat) :
    u8 ((conf &&& FSI_SLAVE_CONF_SLOTS_MASK) >>> FSI_SLAVE_CONF_SLOTS_SHIFT) = conf_slots conf := by
  have h := and_mask_shift conf 16 8
  have hm : (2 ^ 8 - 1) <<< 16 = 0x00ff0000 := by decide
  rw [hm] at h
  unfold FSI_SLAVE_CONF_SLOTS_MASK FSI_SLAVE_CONF_SLOTS_SHIFT conf_slots u8
  rw [h]; omega

theorem version_field (conf : Nat) :
    u8 ((conf &&& FSI_SLAVE_CONF_VERSION_MASK) >>> FSI_SLAVE_CONF_VERSION_SHIFT)
      = conf_version conf := by
  have h := and_mask_shift conf 12 4
  have hm : (2 ^ 4 - 1) <<< 12 = 0x0000f000 := by decide
  rw [hm] at h
  unfold FSI_SLAVE_CONF_VERSION_MASK FSI_SLAVE_CONF_VERSION_SHIFT conf_version u8
  rw [h]; omega

theorem type_field (conf : Nat) :
    u8 ((conf &&& FSI_SLAVE_CONF_TYPE_MASK) >>> FSI_SLAVE_CONF_TYPE_SHIFT) = conf_type conf := by
  have h := and_mask_shift conf 4 8
  have hm : (2 ^ 8 - 1) <<< 4 = 0x00000ff0 := by decide
  rw [hm] at h
  unfold FSI_SLAVE_CONF_TYPE_MASK FSI_SLAVE_CONF_TYPE_SHIFT conf_type u8
  rw [h]; omega

theorem next_field (conf : Nat) :
    (conf &&& FSI_SLAVE_CONF_NEXT_MASK = 0) ↔ conf_next conf = false := by
  have h := Nat.and_two_pow conf 31
  have hm : (2 : Nat) ^ 31 = 0x80000000 := by decide
  rw [hm] at h
  unfold FSI_SLAVE_CONF_NEXT_MASK conf_next
  rw [h, Nat.testBit_to_div_mod]
  by_cases hb : conf / 2 ^ 31 % 2 = 1 <;> simp [hb]

theorem crc_field (conf : Nat) :
    (fsi_crc4 0 (conf >>> FSI_SLAVE_CONF_CRC_SHIFT) FSI_SLAVE_CONF_DATA_BITS
      = conf &&& FSI_SLAVE_CONF_CRC_MASK) ↔ crc_ok conf = true := by
  unfold crc_ok FSI_SLAVE_CONF_CRC_SHIFT FSI_SLAVE_CONF_DATA_BITS FSI_SLAVE_CONF_CRC_MASK
  simp

theorem scan_advance_eq (conf slots : Nat) (st : ScanState) (w : World) :
    scan_advance conf slots st w
      = if conf_next conf then
          Flow.next { st with engine_addr := u32 (st.engine_addr + slots * engine_page_size) } w
        else
          Flow.brk { st with engine_addr := u32 (st.engine_addr + slots * engine_page_size) } w := by
  unfold scan_advance
  dsimp only
  by_cases h : conf_next conf = true
  · have h' : ¬ (conf &&& FSI_SLAVE_CONF_NEXT_MASK = 0) := by
      rw [next_field]; simp [h]
    rw [if_neg h', if_pos h]
  · have h' : conf &&& FSI_SLAVE_CONF_NEXT_MASK = 0 := by
      rw [next_field]; simpa using h
    rw [if_pos h', if_neg h]

/-- The loop body, with the fields of the word read named by the table layout. -/
theorem fsi_slave_scan_body_eq (E : Env) (slave : fsi_slave) (i : Nat) (st : ScanState)
    (w : World) :
    fsi_slave_scan_body E slave i st w =
      (let r := fsi_slave_read E slave ((i + 1) * 4) 4 w
       let conf := u32 r.1.data
       if r.1.rc ≠ 0 then Flow.ret (-1) st r.2
       else if crc_ok conf = false then Flow.ret (-1) st r.2
       else if conf_type conf = 0 then scan_advance conf (conf_slots conf) st r.2
       else if conf_type conf = 0x1c then
         (let a := call E .kzalloc r.2
          if a.1.rc ≠ 0 then Flow.ret (-ENOMEM) st a.2 else
          let d := call E .device_add a.2
          if d.1.rc ≠ 0 then Flow.ret d.1.rc st d.2 else
          let hub : fsi_master_hub :=
            { n_links := 0, slave := slave, control_regs := st.engine_addr,
              base := FSI_HUB_LINK_OFFSET }
          scan_advance conf (conf_slots conf) { st with hub := some hub }
            (hub_master_init E hub d.2).2)
       else if conf_type conf = 0x1d then
         scan_advance conf (conf_slots conf)
           { st with conf_link_count := u8 (st.conf_link_count + 1) } r.2
       else if conf_slots conf = 0 then scan_advance conf (conf_slots conf) st r.2
       else
         (let a := call E .kzalloc r.2
          if a.1.rc ≠ 0 then Flow.ret (-ENOMEM) st a.2 else
          let dev : fsi_device :=
            { slave := slave, engine_type := conf_type conf, version := conf_version conf,
              unit := u8 i, addr := st.engine_addr,
              size := u32 (conf_slots conf * engine_page_size),
              si1s_bit := st.si1s_bit, irq_handler := false }
          let d := call E .device_add a.2
          if d.1.rc ≠ 0 then Flow.next { st with si1s_bit := u8 (st.si1s_bit + 1) } d.2 else
          scan_advance conf (conf_slots conf)
            { st with si1s_bit := u8 (st.si1s_bit + 1), my_engines := dev :: st.my_engines }
            d.2)) := by
  unfold fsi_slave_scan_body
  simp only [slots_field, version_field, type_field, crc_field, FSI_ENGID_HUB_MASTER,
    FSI_ENGID_HUB_LINK, ne_eq, Bool.not_eq_true]

theorem slots_before_succ (tbl : Nat → Nat) {i : Nat} (hi : 2 ≤ i) :
    slots_before tbl (i + 1) = slots_before tbl i + conf_slots (tbl i) := by
  unfold slots_before
  have h : i + 1 - 2 = (i - 2) + 1 := by omega
  rw [h, List.range'_concat]
  simp only [List.map_append, List.sum_append, List.map_cons, List.map_nil, List.sum_cons,
    List.sum_nil, Nat.add_zero, Nat.one_mul]
  have h2 : 2 + (i - 2) = i := by omega
  rw [h2]

theorem conf_slots_lt (w : Nat) : conf_slots w < 256 := by
  unfold conf_slots; omega

theorem slots_before_le (tbl : Nat → Nat) (i : Nat) : slots_before tbl i ≤ 255 * (i - 2) := by
  induction i with
  | zero => simp [slots_before]
  | succ i ih =>
    by_cases hi : 2 ≤ i
    · rw [slots_before_succ tbl hi]
      have := conf_slots_lt (tbl i)
      omega
    · have h : i + 1 - 2 = 0 := by omega
      simp [slots_before, h]

theorem body_table (E : Env) (slave : fsi_slave) (tbl : Nat → Nat) (i : Nat)
    (st : ScanState) (w : World) (hi : 2 ≤ i) (hi2 : i < 256)
    (hok : ∀ log, (E.respond log .kzalloc).rc = 0 ∧ (E.respond log .device_add).rc = 0)
    (hr : (fsi_slave_read E slave ((i + 1) * 4) 4 w).1.rc = 0
      ∧ u32 (fsi_slave_read E slave ((i + 1) * 4) 4 w).1.data = tbl i)
    (hc : crc_ok (tbl i) = true)
    (ha : st.engine_addr = 3 * 0x400 + 0x400 * slots_before tbl i) :
    ∃ st' w', fsi_slave_scan_body E slave i st w
        = (if conf_next (tbl i) then Flow.next st' w' else Flow.brk st' w')
      ∧ st'.engine_addr = 3 * 0x400 + 0x400 * slots_before tbl (i + 1)
      ∧ st'.my_engines.reverse.map fsi_device.desc
        = st.my_engines.reverse.map fsi_device.desc
          ++ (if is_engine_entry tbl i then [spec_engine tbl i] else []) := by
  obtain ⟨hr1, hr2⟩ := hr
  have hk : ∀ w', (call E .kzalloc w').1.rc = 0 := fun w' => (hok _).1
  have hd : ∀ w', (call E .device_add w').1.rc = 0 := fun w' => (hok _).2
  have hsl := conf_slots_lt (tbl i)
  have hsb := slots_before_le tbl i
  have hadd : u32 (st.engine_addr + conf_slots (tbl i) * engine_page_size)
      = 3 * 0x400 + 0x400 * slots_before tbl (i + 1) := by
    rw [slots_before_succ tbl hi, ha]
    unfold engine_page_size
    rw [u32_of_lt (by omega)]
    omega
  rw [fsi_slave_scan_body_eq]
  simp only [hr1, hr2, hc, hk, hd, scan_advance_eq, hadd, ne_eq, not_true_eq_false,
    if_false, Bool.true_eq_false]
  by_cases h0 : conf_type (tbl i) = 0
  · refine ⟨_, _, by rw [if_pos h0], rfl, ?_⟩
    simp [is_engine_entry, h0]
  by_cases h1 : conf_type (tbl i) = 0x1c
  · refine ⟨_, _, by rw [if_neg h0, if_pos h1], rfl, ?_⟩
    simp [is_engine_entry, h1]
  by_cases h2 : conf_type (tbl i) = 0x1d
  · refine ⟨_, _, by rw [if_neg h0, if_neg h1, if_pos h2], rfl, ?_⟩
    simp [is_engine_entry, h2]
  by_cases h3 : conf_slots (tbl i) = 0
  · refine ⟨_, _, by rw [if_neg h0, if_neg h1, if_neg h2, if_pos h3], rfl, ?_⟩
    simp [is_engine_entry, h3]
  · refine ⟨_, _, by rw [if_neg h0, if_neg h1, if_neg h2, if_neg h3], rfl, ?_⟩
    have he : is_engine_entry tbl i = true := by
      simp [is_engine_entry, h0, h1, h2]; omega
    have hu : u8 i = i := by unfold u8; omega
    have hsz : u32 (conf_slots (tbl i) * engine_page_size) = conf_slots (tbl i) * 0x400 := by
      unfold engine_page_size; rw [u32_of_lt (by omega)]
    simp only [he, if_true, List.reverse_cons, List.map_append, List.map_cons, List.map_nil,
      fsi_device.desc, spec_engine, hu, hsz, ha]

theorem table_entries_head (tbl : Nat → Nat) (i : Nat) (is : List Nat) :
    i ∈ table_entries tbl (i :: is) := by
  unfold table_entries; split <;> simp

/-- With a readable, CRC-valid table and registrations that succeed, the passes from
index `i` on add exactly the engines that the entries from `i` on describe. -/
theorem loop_table (E : Env) (slave : fsi_slave) (tbl : Nat → Nat)
    (hok : ∀ log, (E.respond log .kzalloc).rc = 0 ∧ (E.respond log .device_add).rc = 0) :
    ∀ (n i : Nat) (st : ScanState) (w : World), 2 ≤ i → i + n ≤ 256 →
      (∀ j ∈ table_entries tbl (List.range' i n), ∀ w',
        (fsi_slave_read E slave ((j + 1) * 4) 4 w').1.rc = 0
          ∧ u32 (fsi_slave_read E slave ((j + 1) * 4) 4 w').1.data = tbl j) →
      (∀ j ∈ table_entries tbl (List.range' i n), crc_ok (tbl j) = true) →
      st.engine_addr = 3 * 0x400 + 0x400 * slots_before tbl i →
      (∀ rc st' w', fsi_slave_scan_loop E slave i n st w ≠ Flow.ret rc st' w')
        ∧ (fsi_slave_scan_loop E slave i n st w).st.my_engines.reverse.map fsi_device.desc
          = st.my_engines.reverse.map fsi_device.desc
            ++ ((table_entries tbl (List.range' i n)).filter (is_engine_entry tbl)).map
                (spec_engine tbl) := by
  intro n
  induction n with
  | zero =>
    intro i st w _ _ _ _ _
    simp [fsi_slave_scan_loop, table_entries, Flow.st]
  | succ n ih =>
    intro i st w hi hn hread hcrc ha
    have hmem : i ∈ table_entries tbl (List.range' i (n + 1)) := by
      rw [List.range'_succ]; exact table_entries_head tbl i _
    obtain ⟨st', w', hb, ha', he⟩ :=
      body_table E slave tbl i st w hi (by omega) hok (hread i hmem w) (hcrc i hmem) ha
    unfold fsi_slave_scan_loop
    rw [hb]
    by_cases hnx : conf_next (tbl i) = true
    · have hte : table_entries tbl (List.range' i (n + 1))
          = i :: table_entries tbl (List.range' (i + 1) n) := by
        rw [List.range'_succ]; simp [table_entries, hnx]
      rw [if_pos hnx]
      dsimp only
      have hsub : ∀ j ∈ table_entries tbl (List.range' (i + 1) n),
          j ∈ table_entries tbl (List.range' i (n + 1)) := by
        intro j hj; rw [hte]; exact List.mem_cons_of_mem _ hj
      obtain ⟨h1, h2⟩ := ih (i + 1) st' w' (by omega) (by omega)
        (fun j hj => hread j (hsub j hj)) (fun j hj => hcrc j (hsub j hj)) ha'
      refine ⟨h1, ?_⟩
      rw [h2, he, hte]
      by_cases hee : is_engine_entry tbl i = true <;> simp [List.filter_cons, hee]
    · have hte : table_entries tbl (List.range' i (n + 1)) = [i] := by
        rw [List.range'_succ]; simp [table_entries, hnx]
      rw [if_neg hnx]
      dsimp only
      refine ⟨fun rc st'' w'' h => (by cases h), ?_⟩
      rw [hte]
      simp only [Flow.st, he]
      by_cases hee : is_engine_entry tbl i = true <;> simp [List.filter_cons, hee]

theorem fsi_slave_scan_rc (E : Env) (reg : fsi_master → World → World) (slave : fsi_slave)
    (w : World)
    (h : ∀ rc st' w', fsi_slave_scan_loop E slave 2 (engine_page_size / 4 - 2) (scan_init E w) w
      ≠ Flow.ret rc st' w') :
    (fsi_slave_scan E reg slave w).1.rc = 0 := by
  unfold fsi_slave_scan
  cases hf : fsi_slave_scan_loop E slave 2 (engine_page_size / 4 - 2) (scan_init E w) w with
  | next st' w' => cases hh : st'.hub <;> simp [hh]
  | brk st' w' => cases hh : st'.hub <;> simp [hh]
  | ret rc st' w' => exact absurd hf (h rc st' w')

theorem table_entries_sub (tbl : Nat → Nat) :
    ∀ (l : List Nat) (j : Nat), j ∈ table_entries tbl l → j ∈ l := by
  intro l
  induction l with
  | nil => intro j hj; simp [table_entries] at hj
  | cons a l ih =>
    intro j hj
    unfold table_entries at hj
    split at hj
    · rcases List.mem_cons.mp hj with h | h
      · exact h ▸ List.mem_cons_self _ _
      · exact List.mem_cons_of_mem _ (ih j h)
    · simp only [List.mem_singleton] at hj
      exact hj ▸ List.mem_cons_self _ _

theorem env_table_read (tbl : Nat → Nat) (j : Nat) (w : World) (hj : j < 256)
    (ht : tbl j < 2 ^ 32) :
    (fsi_slave_read (env_table tbl) slave0 ((j + 1) * 4) 4 w).1.rc = 0
      ∧ u32 (fsi_slave_read (env_table tbl) slave0 ((j + 1) * 4) 4 w).1.data = tbl j := by
  have h0 : (j + 1) * 4 < 2 ^ 32 := by omega
  have h1 : u32 ((j + 1) * 4) / 4 - 1 = j := by
    rw [u32_of_lt h0]; omega
  simp only [fsi_slave_read, slave0, master_read, call, env_table, h1, u32_of_lt ht, and_self]

/-- C5: when the words of the table, up to and including the first with NEXT clear, are
readable at slave offset `(i+1)*4` and CRC-valid, and allocation and device registration
succeed, `fsi_slave_scan` returns 0 and its engines, in table order, are exactly those the
table describes: one for each such entry whose type is not 0, 0x1C or 0x1D and whose slots
are not 0, with `unit = i`, type and version from the word, `size = slots_i * 0x400` and
`addr = 3 * 0x400 + 0x400 *` (the slots of all entries in `[2, i)`). -/
theorem fsi_slave_scan_table (E : Env) (reg : fsi_master → World → World)
    (slave : fsi_slave) (w : World) (tbl : Nat → Nat)
    (hok : ∀ log, (E.respond log .kzalloc).rc = 0 ∧ (E.respond log .device_add).rc = 0)
    (hread : ∀ j ∈ table_entries tbl (List.range' 2 254), ∀ w',
      (fsi_slave_read E slave ((j + 1) * 4) 4 w').1.rc = 0
        ∧ u32 (fsi_slave_read E slave ((j + 1) * 4) 4 w').1.data = tbl j)
    (hcrc : ∀ j ∈ table_entries tbl (List.range' 2 254), crc_ok (tbl j) = true) :
    (fsi_slave_scan E reg slave w).1.rc = 0
      ∧ (fsi_slave_scan E reg slave w).1.my_engines.reverse.map fsi_device.desc
        = spec_engines tbl := by
  have hn : engine_page_size / 4 - 2 = 254 := by decide
  have h0 : (scan_init E w).engine_addr = 3 * 0x400 + 0x400 * slots_before tbl 2 := by
    simp [scan_init, slots_before, engine_page_size]
  obtain ⟨h1, h2⟩ := loop_table E slave tbl hok 254 2 (scan_init E w) w (by omega) (by omega)
    hread hcrc h0
  refine ⟨fsi_slave_scan_rc E reg slave w (by rw [hn]; exact h1), ?_⟩
  rw [fsi_slave_scan_engines, hn, h2]
  simp [scan_init, spec_engines]

theorem table2_lt (j : Nat) : table2 j < 2 ^ 32 := by
  unfold table2; split <;> decide

theorem fsi_slave_scan_table_witness :
    (fsi_slave_scan (env_table table2) reg_none slave0 ⟨[]⟩).1.rc = 0
      ∧ (fsi_slave_scan (env_table table2) reg_none slave0 ⟨[]⟩).1.my_engines.reverse.map
          fsi_device.desc
        = [⟨2, 5, 1, 0xC00, 0x400⟩, ⟨3, 9, 2, 0x1000, 0x800⟩] := by
  have h := fsi_slave_scan_table (env_table table2) reg_none slave0 ⟨[]⟩ table2
    (fun _ => ⟨rfl, rfl⟩)
    (fun j hj w' => env_table_read table2 j w'
      (by have := table_entries_sub table2 _ j hj; simp [List.mem_range'] at this; omega)
      (table2_lt j))
    (fun j _ => by unfold table2; split <;> decide)
  exact ⟨h.1, h.2.trans (by decide)⟩

/-- Any two distinct engines of a scan state are ordered the same way by table index,
by address range and by interrupt bit. -/
theorem scanInv_pair {j : Nat} {st : ScanState} (h : ScanInv j st) :
    ∀ a ∈ st.my_engines, ∀ b ∈ st.my_engines, a ≠ b →
      (b.unit < a.unit ∧ b.addr + b.size ≤ a.addr ∧ b.si1s_bit < a.si1s_bit)
        ∨ (a.unit < b.unit ∧ a.addr + a.size ≤ b.addr ∧ a.si1s_bit < b.si1s_bit) := by
  have hp : st.my_engines.Pairwise (fun a b =>
      (b.unit < a.unit ∧ b.addr + b.size ≤ a.addr ∧ b.si1s_bit < a.si1s_bit)
        ∨ (a.unit < b.unit ∧ a.addr + a.size ≤ b.addr ∧ a.si1s_bit < b.si1s_bit)) :=
    h.pw.imp (fun hab => Or.inl hab)
  exact hp.forall (fun a b hab => hab.symm)

/-- C6: whatever the environment answers, every engine `e` that `fsi_slave_scan` creates
has `e.addr >= 3 * 0x400` and `e.addr + e.size <= 2^32`. -/
theorem fsi_slave_scan_addr_bounds (E : Env) (reg : fsi_master → World → World)
    (slave : fsi_slave) (w : World) :
    ∀ e ∈ (fsi_slave_scan E reg slave w).1.my_engines,
      3 * 0x400 ≤ e.addr ∧ e.addr + e.size ≤ 2 ^ 32 := by
  obtain ⟨j, st, hj, h, heq⟩ := fsi_slave_scan_inv E reg slave w
  intro e he
  rw [heq] at he
  have := h.eng e he
  have := h.addr_hi
  omega

theorem fsi_slave_scan_addr_bounds_witness :
    (⟨slave0, 9, 2, 3, 0x1000, 0x800, 2, false⟩ : fsi_device)
        ∈ (fsi_slave_scan (env_table table2) reg_none slave0 ⟨[]⟩).1.my_engines
      ∧ 3 * 0x400 ≤ 0x1000 ∧ 0x1000 + 0x800 ≤ 2 ^ 32 :=
  ⟨by decide, fsi_slave_scan_addr_bounds (env_table table2) reg_none slave0 ⟨[]⟩
    ⟨slave0, 9, 2, 3, 0x1000, 0x800, 2, false⟩ (by decide)⟩

/-- C7: whatever the environment answers, two distinct engines created by one
`fsi_slave_scan` have disjoint, non-empty address ranges `[addr, addr + size)` and
different table indices, and the one with the smaller index has the strictly smaller
address (its whole range lies below the other's). -/
theorem fsi_slave_scan_disjoint (E : Env) (reg : fsi_master → World → World)
    (slave : fsi_slave) (w : World) :
    ∀ e1 ∈ (fsi_slave_scan E reg slave w).1.my_engines,
      ∀ e2 ∈ (fsi_slave_scan E reg slave w).1.my_engines, e1 ≠ e2 →
        (e1.addr + e1.size ≤ e2.addr ∨ e2.addr + e2.size ≤ e1.addr)
          ∧ 0 < e1.size ∧ 0 < e2.size
          ∧ e1.unit ≠ e2.unit
          ∧ (e1.unit < e2.unit → e1.addr < e2.addr ∧ e1.addr + e1.size ≤ e2.addr) := by
  obtain ⟨j, st, hj, h, heq⟩ := fsi_slave_scan_inv E reg slave w
  intro e1 he1 e2 he2 hne
  rw [heq] at he1 he2
  have h1 := h.eng e1 he1
  have h2 := h.eng e2 he2
  have hp := scanInv_pair h e1 he1 e2 he2 hne
  omega

theorem fsi_slave_scan_disjoint_witness :
    (⟨slave0, 5, 1, 2, 0xC00, 0x400, 1, false⟩ : fsi_device)
        ∈ (fsi_slave_scan (env_table table2) reg_none slave0 ⟨[]⟩).1.my_engines
      ∧ (⟨slave0, 9, 2, 3, 0x1000, 0x800, 2, false⟩ : fsi_device)
        ∈ (fsi_slave_scan (env_table table2) reg_none slave0 ⟨[]⟩).1.my_engines
      ∧ (0xC00 + 0x400 ≤ 0x1000 ∨ 0x1000 + 0x800 ≤ 0xC00)
      ∧ (2 < 3 → 0xC00 < 0x1000 ∧ 0xC00 + 0x400 ≤ 0x1000) := by
  have h := fsi_slave_scan_disjoint (env_table table2) reg_none slave0 ⟨[]⟩
    ⟨slave0, 5, 1, 2, 0xC00, 0x400, 1, false⟩ (by decide)
    ⟨slave0, 9, 2, 3, 0x1000, 0x800, 2, false⟩ (by decide) (by decide)
  exact ⟨by decide, by decide, h.1, h.2.2.2.2⟩

/-- When every device registration succeeds the interrupt bits of the engines are
1, 2, 3, ... in the order of discovery. -/
theorem scan_bits_body (E : Env) (slave : fsi_slave)
    (hadd : ∀ log, (E.respond log .device_add).rc = 0) (i : Nat) (st : ScanState) (w : World)
    (hi : 2 ≤ i) (hi2 : i < 256)
    (h : ScanInv i st ∧ st.si1s_bit = st.my_engines.length + 1
      ∧ st.my_engines.reverse.map fsi_device.si1s_bit
        = List.range' 1 st.my_engines.length) :
    ScanInv (i + 1) (fsi_slave_scan_body E slave i st w).st
      ∧ (fsi_slave_scan_body E slave i st w).st.si1s_bit
        = (fsi_slave_scan_body E slave i st w).st.my_engines.length + 1
      ∧ (fsi_slave_scan_body E slave i st w).st.my_engines.reverse.map fsi_device.si1s_bit
        = List.range' 1 (fsi_slave_scan_body E slave i st w).st.my_engines.length := by
  obtain ⟨hinv, hb, hl⟩ := h
  refine ⟨scanInv_body E slave w hi hi2 hinv, ?_⟩
  have hd : ∀ w', (call E .device_add w').1.rc = 0 := fun w' => hadd _
  have hbh := hinv.bit_hi
  have hbit : u8 (st.si1s_bit + 1) = st.si1s_bit + 1 := by
    unfold u8; omega
  rw [fsi_slave_scan_body_eq]
  simp only [scan_advance_eq, hd, ne_eq, not_true_eq_false, if_false]
  split_ifs <;> simp only [Flow.st, hb, hl, and_self]
  all_goals
    simp only [hbit, hb, List.length_cons, List.reverse_cons, List.map_append, List.map_cons,
      List.map_nil, hl, List.range'_concat, Nat.one_mul, true_and]
  all_goals (try simp [Nat.add_comm])
  all_goals (unfold u8; omega)

/-- C8: whatever the environment answers, the `si1s_bit` of every engine of a scan lies in
1..254 (the 8-bit counter does not wrap), no two engines share one, and the bits grow with
the table index; when every device registration succeeds the engines carry, in table
order, the bits 1, 2, 3, ... -/
theorem fsi_slave_scan_si1s_bits (E : Env) (reg : fsi_master → World → World)
    (slave : fsi_slave) (w : World) :
    (∀ e ∈ (fsi_slave_scan E reg slave w).1.my_engines, 1 ≤ e.si1s_bit ∧ e.si1s_bit ≤ 254)
      ∧ (∀ e1 ∈ (fsi_slave_scan E reg slave w).1.my_engines,
          ∀ e2 ∈ (fsi_slave_scan E reg slave w).1.my_engines, e1 ≠ e2 →
            e1.si1s_bit ≠ e2.si1s_bit ∧ (e1.unit < e2.unit ↔ e1.si1s_bit < e2.si1s_bit))
      ∧ ((∀ log, (E.respond log .device_add).rc = 0) →
          (fsi_slave_scan E reg slave w).1.my_engines.reverse.map fsi_device.si1s_bit
            = List.range' 1 (fsi_slave_scan E reg slave w).1.my_engines.length) := by
  obtain ⟨j, st, hj, h, heq⟩ := fsi_slave_scan_inv E reg slave w
  refine ⟨?_, ?_, ?_⟩
  · intro e he
    rw [heq] at he
    have := h.eng e he
    omega
  · intro e1 he1 e2 he2 hne
    rw [heq] at he1 he2
    have hp := scanInv_pair h e1 he1 e2 he2 hne
    omega
  · intro hadd
    obtain ⟨j, _, hp⟩ := scan_loop_induct E slave
      (fun i st => ScanInv i st ∧ st.si1s_bit = st.my_engines.length + 1
        ∧ st.my_engines.reverse.map fsi_device.si1s_bit
          = List.range' 1 st.my_engines.length)
      (fun i st w hi hi2 hP => scan_bits_body E slave hadd i st w hi hi2 hP)
      (engine_page_size / 4 - 2) 2 (scan_init E w) w (by omega) (by unfold engine_page_size; omega)
      ⟨scanInv_init E w, by simp [scan_init], by simp [scan_init]⟩
    rw [fsi_slave_scan_engines]
    exact hp.2.2

theorem fsi_slave_scan_si1s_bits_witness :
    (⟨slave0, 9, 2, 3, 0x1000, 0x800, 2, false⟩ : fsi_device)
        ∈ (fsi_slave_scan (env_table table2) reg_none slave0 ⟨[]⟩).1.my_engines
      ∧ (1 ≤ 2 ∧ 2 ≤ 254)
      ∧ (fsi_slave_scan (env_table table2) reg_none slave0 ⟨[]⟩).1.my_engines.reverse.map
          fsi_device.si1s_bit = [1, 2] := by
  have h := fsi_slave_scan_si1s_bits (env_table table2) reg_none slave0 ⟨[]⟩
  exact ⟨by decide, h.1 ⟨slave0, 9, 2, 3, 0x1000, 0x800, 2, false⟩ (by decide),
    (h.2.2 (fun _ => rfl)).trans (by decide)⟩

set_option maxRecDepth 100000 in
/-- C9 fails as stated: the table of 32 engine entries gives the 32nd engine the interrupt
number 32, outside 1..31. -/
theorem si1s_bit_range_counterexample :
    ∃ e ∈ (fsi_slave_scan (env_table table32) reg_none slave0 ⟨[]⟩).1.my_engines,
      e.si1s_bit = 32 ∧ ¬ (1 ≤ e.si1s_bit ∧ e.si1s_bit ≤ 31) :=
  ⟨⟨slave0, 5, 1, 33, 0xC00 + 31 * 0x400, 0x400, 32, false⟩, by decide, by decide, by decide⟩

/-- C9, as amended: every engine `e` created by `fsi_slave_scan` has
`1 <= e.si1s_bit <= e.unit - 1 <= 254`; so an engine at a table index up to 32 has its
interrupt number in 1..31; and for an engine with `si1s_bit <= 31` the interrupt bit
`0x80000000 >> si1s_bit` is bit `31 - si1s_bit` of the 32-bit word, not zero, whatever
the environment makes of undefined shifts.  Of the bit of an engine with a larger
interrupt number nothing is said. -/
theorem fsi_slave_scan_si1s_range (E : Env) (reg : fsi_master → World → World)
    (slave : fsi_slave) (w : World) :
    ∀ e ∈ (fsi_slave_scan E reg slave w).1.my_engines,
      1 ≤ e.si1s_bit ∧ e.si1s_bit + 1 ≤ e.unit ∧ e.unit ≤ 255
        ∧ (e.unit ≤ 32 → e.si1s_bit ≤ 31)
        ∧ (e.si1s_bit ≤ 31 →
            si1s_mask E e = 2 ^ (31 - e.si1s_bit) ∧ si1s_mask E e ≠ 0
              ∧ si1s_mask E e < 2 ^ 32) := by
  obtain ⟨j, st, hj, h, heq⟩ := fsi_slave_scan_inv E reg slave w
  intro e he
  rw [heq] at he
  have h1 := h.eng e he
  exact ⟨by omega, by omega, by omega, fun _ => by omega,
    fun hle => ⟨si1s_mask_of_le E e hle, si1s_mask_ne_zero E e hle, si1s_mask_lt E e⟩⟩

/-- Running `n + m` passes is running `n` passes and, unless they left the loop, `m`
more. -/
theorem fsi_slave_scan_loop_append (E : Env) (slave : fsi_slave) (m : Nat) :
    ∀ (n i : Nat) (st : ScanState) (w : World),
      fsi_slave_scan_loop E slave i (n + m) st w
        = match fsi_slave_scan_loop E slave i n st w with
          | .next st' w' => fsi_slave_scan_loop E slave (i + n) m st' w'
          | .brk st' w' => .brk st' w'
          | .ret rc st' w' => .ret rc st' w' := by
  intro n
  induction n with
  | zero =>
    intro i st w
    simp [fsi_slave_scan_loop]
  | succ n ih =>
    intro i st w
    have h : n + 1 + m = (n + m) + 1 := by omega
    rw [h]
    simp only [fsi_slave_scan_loop]
    cases hf : fsi_slave_scan_body E slave i st w with
    | next st' w' =>
      simp only []
      rw [ih (i + 1) st' w']
      have h2 : i + 1 + n = i + (n + 1) := by omega
      rw [h2]
    | brk st' w' => rfl
    | ret rc st' w' => rfl

theorem call_rc (E : Env) (op : Op) (w : World) :
    (call E op w).1.rc = (E.respond w.log op).rc := rfl

/-- The ways a pass can end: it returns a non-zero code with the scan state untouched,
or it goes on to the next index, or it breaks out on a word without the NEXT bit; in the
last two cases the read succeeded and the word passed the CRC check. -/
theorem body_cases (E : Env) (slave : fsi_slave) (i : Nat) (st : ScanState) (w : World) :
    (∃ rc w', rc ≠ 0 ∧ fsi_slave_scan_body E slave i st w = .ret rc st w')
      ∨ ((fsi_slave_read E slave ((i + 1) * 4) 4 w).1.rc = 0
          ∧ crc_ok (u32 (fsi_slave_read E slave ((i + 1) * 4) 4 w).1.data) = true
          ∧ ((∃ st' w', fsi_slave_scan_body E slave i st w = .next st' w')
            ∨ (conf_next (u32 (fsi_slave_read E slave ((i + 1) * 4) 4 w).1.data) = false
              ∧ ∃ st' w', fsi_slave_scan_body E slave i st w = .brk st' w'))) := by
  rw [fsi_slave_scan_body_eq]
  dsimp only
  by_cases h1 : (fsi_slave_read E slave ((i + 1) * 4) 4 w).1.rc ≠ 0
  · exact Or.inl ⟨-1, _, by decide, by rw [if_pos h1]⟩
  rw [if_neg h1]
  have h1' : (fsi_slave_read E slave ((i + 1) * 4) 4 w).1.rc = 0 := by
    simpa using h1
  by_cases h2 : crc_ok (u32 (fsi_slave_read E slave ((i + 1) * 4) 4 w).1.data) = false
  · exact Or.inl ⟨-1, _, by decide, by rw [if_pos h2]⟩
  rw [if_neg h2]
  have h2' : crc_ok (u32 (fsi_slave_read E slave ((i + 1) * 4) 4 w).1.data) = true := by
    simpa using h2
  have hadv : ∀ (st' : ScanState) (w' : World) (f : Flow),
      f = scan_advance (u32 (fsi_slave_read E slave ((i + 1) * 4) 4 w).1.data)
        (conf_slots (u32 (fsi_slave_read E slave ((i + 1) * 4) 4 w).1.data)) st' w' →
      (∃ st' w', f = .next st' w')
        ∨ (conf_next (u32 (fsi_slave_read E slave ((i + 1) * 4) 4 w).1.data) = false
          ∧ ∃ st' w', f = .brk st' w') := by
    intro st' w' f hf
    rw [scan_advance_eq] at hf
    by_cases hn : conf_next (u32 (fsi_slave_read E slave ((i + 1) * 4) 4 w).1.data) = true
    · rw [if_pos hn] at hf; exact Or.inl ⟨_, _, hf⟩
    · rw [if_neg hn] at hf; exact Or.inr ⟨by simpa using hn, _, _, hf⟩
  by_cases h3 : conf_type (u32 (fsi_slave_read E slave ((i + 1) * 4) 4 w).1.data) = 0
  · rw [if_pos h3]; exact Or.inr ⟨h1', h2', hadv _ _ _ rfl⟩
  rw [if_neg h3]
  by_cases h4 : conf_type (u32 (fsi_slave_read E slave ((i + 1) * 4) 4 w).1.data) = 0x1c
  · rw [if_pos h4]
    by_cases h5 : (call E Op.kzalloc (fsi_slave_read E slave ((i + 1) * 4) 4 w).2).1.rc ≠ 0
    · exact Or.inl ⟨- ENOMEM, _, by decide, by rw [if_pos h5]⟩
    rw [if_neg h5]
    by_cases h6 : (call E Op.device_add
        (call E Op.kzalloc (fsi_slave_read E slave ((i + 1) * 4) 4 w).2).2).1.rc ≠ 0
    · exact Or.inl ⟨_, _, h6, by rw [if_pos h6]⟩
    rw [if_neg h6]
    exact Or.inr ⟨h1', h2', hadv _ _ _ rfl⟩
  rw [if_neg h4]
  by_cases h7 : conf_type (u32 (fsi_slave_read E slave ((i + 1) * 4) 4 w).1.data) = 0x1d
  · rw [if_pos h7]; exact Or.inr ⟨h1', h2', hadv _ _ _ rfl⟩
  rw [if_neg h7]
  by_cases h8 : conf_slots (u32 (fsi_slave_read E slave ((i + 1) * 4) 4 w).1.data) = 0
  · rw [if_pos h8]; exact Or.inr ⟨h1', h2', hadv _ _ _ rfl⟩
  rw [if_neg h8]
  by_cases h9 : (call E Op.kzalloc (fsi_slave_read E slave ((i + 1) * 4) 4 w).2).1.rc ≠ 0
  · exact Or.inl ⟨- ENOMEM, _, by decide, by rw [if_pos h9]⟩
  rw [if_neg h9]
  by_cases h10 : (call E Op.device_add
      (call E Op.kzalloc (fsi_slave_read E slave ((i + 1) * 4) 4 w).2).2).1.rc ≠ 0
  · rw [if_pos h10]; exact Or.inr ⟨h1', h2', Or.inl ⟨_, _, rfl⟩⟩
  rw [if_neg h10]
  exact Or.inr ⟨h1', h2', hadv _ _ _ rfl⟩

/-- A pass that returns does so with a non-zero code and leaves the engine list as it
found it. -/
theorem body_ret (E : Env) (slave : fsi_slave) (i : Nat) (st : ScanState) (w : World)
    (rc : Int) (st' : ScanState) (w' : World)
    (h : fsi_slave_scan_body E slave i st w = .ret rc st' w') : rc ≠ 0 ∧ st' = st := by
  rcases body_cases E slave i st w with ⟨rc0, w0, hrc, he⟩ | ⟨_, _, ⟨_, _, he⟩ | ⟨_, _, _, he⟩⟩
  · rw [he] at h; cases h; exact ⟨hrc, rfl⟩
  · rw [he] at h; cases h
  · rw [he] at h; cases h

theorem loop_ret (E : Env) (slave : fsi_slave) :
    ∀ (n i : Nat) (st : ScanState) (w : World) (rc : Int) (st' : ScanState) (w' : World),
      fsi_slave_scan_loop E slave i n st w = .ret rc st' w' → rc ≠ 0 := by
  intro n
  induction n with
  | zero => intro i st w rc st' w' h; simp [fsi_slave_scan_loop] at h
  | succ n ih =>
    intro i st w rc st' w' h
    simp only [fsi_slave_scan_loop] at h
    cases hf : fsi_slave_scan_body E slave i st w with
    | next st1 w1 => rw [hf] at h; exact ih _ _ _ _ _ _ h
    | brk st1 w1 => rw [hf] at h; cases h
    | ret rc1 st1 w1 =>
      rw [hf] at h
      cases h
      exact (body_ret E slave i st w _ _ _ hf).1

/-- A pass whose read fails returns -1 at once. -/
theorem body_read_fail (E : Env) (slave : fsi_slave) (i : Nat) (st : ScanState) (w : World)
    (h : (fsi_slave_read E slave ((i + 1) * 4) 4 w).1.rc ≠ 0) :
    fsi_slave_scan_body E slave i st w
      = .ret (-1) st (fsi_slave_read E slave ((i + 1) * 4) 4 w).2 := by
  rw [fsi_slave_scan_body_eq]
  simp only [h, ne_eq, not_false_eq_true, if_true]

/-- A pass whose word fails the CRC check returns -1 right after the read. -/
theorem body_crc_bad (E : Env) (slave : fsi_slave) (i : Nat) (st : ScanState) (w : World)
    (h : crc_ok (u32 (fsi_slave_read E slave ((i + 1) * 4) 4 w).1.data) = false) :
    fsi_slave_scan_body E slave i st w
      = .ret (-1) st (fsi_slave_read E slave ((i + 1) * 4) 4 w).2 := by
  rw [fsi_slave_scan_body_eq]
  simp only [h, if_true, ite_self]

/-- A pass that does not return has read a word that passes the CRC check. -/
theorem body_accept (E : Env) (slave : fsi_slave) (i : Nat) (st : ScanState) (w : World)
    (h : ∀ rc st' w', fsi_slave_scan_body E slave i st w ≠ .ret rc st' w') :
    (fsi_slave_read E slave ((i + 1) * 4) 4 w).1.rc = 0
      ∧ crc_ok (u32 (fsi_slave_read E slave ((i + 1) * 4) 4 w).1.data) = true := by
  constructor
  · by_contra hrc
    exact h _ _ _ (body_read_fail E slave i st w hrc)
  · by_contra hc
    exact h _ _ _ (body_crc_bad E slave i st w (by simpa using hc))

/-- A pass leaves the loop by `break` only on a word with the NEXT bit clear. -/
theorem body_brk (E : Env) (slave : fsi_slave) (i : Nat) (st : ScanState) (w : World)
    (st' : ScanState) (w' : World) (h : fsi_slave_scan_body E slave i st w = .brk st' w') :
    conf_next (u32 (fsi_slave_read E slave ((i + 1) * 4) 4 w).1.data) = false := by
  rcases body_cases E slave i st w with ⟨rc0, w0, hrc, he⟩ | ⟨_, _, ⟨_, _, he⟩ | ⟨hn, _, _, he⟩⟩
  · rw [he] at h; cases h
  · rw [he] at h; cases h
  · exact hn

theorem loop_no_brk (E : Env) (slave : fsi_slave) (tbl : Nat → Nat) :
    ∀ (n i : Nat) (st : ScanState) (w : World),
      (∀ j w', i ≤ j → j < i + n →
        u32 (fsi_slave_read E slave ((j + 1) * 4) 4 w').1.data = tbl j) →
      (∀ j, i ≤ j → j < i + n → conf_next (tbl j) = true) →
      ∀ st' w', fsi_slave_scan_loop E slave i n st w ≠ .brk st' w' := by
  intro n
  induction n with
  | zero => intro i st w _ _ st' w' h; simp [fsi_slave_scan_loop] at h
  | succ n ih =>
    intro i st w hread hnext st' w' h
    simp only [fsi_slave_scan_loop] at h
    cases hf : fsi_slave_scan_body E slave i st w with
    | next st1 w1 =>
      rw [hf] at h
      exact ih (i + 1) st1 w1 (fun j w' h1 h2 => hread j w' (by omega) (by omega))
        (fun j h1 h2 => hnext j (by omega) (by omega)) st' w' h
    | brk st1 w1 =>
      have hb := body_brk E slave i st w st1 w1 hf
      rw [hread i w (by omega) (by omega), hnext i (by omega) (by omega)] at hb
      cases hb
    | ret rc1 st1 w1 => rw [hf] at h; cases h

theorem table_entries_all_next (tbl : Nat → Nat) :
    ∀ (n i : Nat), (∀ j, i ≤ j → j < i + n → conf_next (tbl j) = true) →
      table_entries tbl (List.range' i n) = List.range' i n := by
  intro n
  induction n with
  | zero => intro i _; simp [table_entries]
  | succ n ih =>
    intro i h
    rw [List.range'_succ]
    simp only [table_entries, h i (by omega) (by omega), if_true]
    rw [ih (i + 1) (fun j h1 h2 => h j (by omega) (by omega))]

/-- The scan of a table whose word `i` fails the CRC check, all earlier words being
readable and having the NEXT bit: what the passes below `i` left, then the read of word
`i`, then `return -1`. -/
theorem scan_abort_at (E : Env) (reg : fsi_master → World → World) (slave : fsi_slave)
    (w : World) (tbl : Nat → Nat) (i : Nat) (hi : 2 ≤ i) (hi2 : i < 256)
    (hread : ∀ j w', 2 ≤ j → j ≤ i →
      (fsi_slave_read E slave ((j + 1) * 4) 4 w').1.rc = 0
        ∧ u32 (fsi_slave_read E slave ((j + 1) * 4) 4 w').1.data = tbl j)
    (hnext : ∀ j, 2 ≤ j → j < i → conf_next (tbl j) = true)
    (hbad : crc_ok (tbl i) = false) :
    (∃ st1 w1, fsi_slave_scan_loop E slave 2 (i - 2) (scan_init E w) w = .next st1 w1
        ∧ fsi_slave_scan E reg slave w
          = ({ rc := -1, my_engines := st1.my_engines, hub := none },
              (fsi_slave_read E slave ((i + 1) * 4) 4 w1).2))
      ∨ (∃ rc st1 w1, fsi_slave_scan_loop E slave 2 (i - 2) (scan_init E w) w = .ret rc st1 w1
        ∧ rc ≠ 0
        ∧ fsi_slave_scan E reg slave w
          = ({ rc := rc, my_engines := st1.my_engines, hub := none }, w1)) := by
  have hsplit : engine_page_size / 4 - 2 = (i - 2) + ((255 - i) + 1) := by
    unfold engine_page_size; omega
  unfold fsi_slave_scan
  rw [hsplit, fsi_slave_scan_loop_append]
  cases hpre : fsi_slave_scan_loop E slave 2 (i - 2) (scan_init E w) w with
  | next st1 w1 =>
    left
    refine ⟨st1, w1, rfl, ?_⟩
    have h2 : 2 + (i - 2) = i := by omega
    have hb : fsi_slave_scan_body E slave i st1 w1
        = .ret (-1) st1 (fsi_slave_read E slave ((i + 1) * 4) 4 w1).2 := by
      apply body_crc_bad
      rw [(hread i w1 hi (le_refl i)).2]; exact hbad
    simp only [h2, fsi_slave_scan_loop, hb]
  | brk st1 w1 =>
    exact absurd hpre (loop_no_brk E slave tbl (i - 2) 2 (scan_init E w) w
      (fun j w' h1 h2 => (hread j w' h1 (by omega)).2)
      (fun j h1 h2 => hnext j h1 (by omega)) st1 w1)
  | ret rc st1 w1 =>
    right
    exact ⟨rc, st1, w1, rfl, loop_ret E slave _ _ _ _ _ _ _ hpre, rfl⟩

/-- The ways `fsi_slave_init` can end: without a slave on the list, or with the slave
registered after a chip-ID word that passed the CRC check, returning either the error of
the scan at once or the result of clearing the interrupt latches. -/
theorem fsi_slave_init_cases (E : Env) (reg : fsi_master → World → World)
    (master : fsi_master) (link slave_id : Nat) (w : World) :
    (fsi_slave_init E reg master link slave_id w).1.slave = none
      ∨ (slave_id = 0
        ∧ (fsi_slave_set_smode E master link slave_id w).1.rc = 0
        ∧ (master_read E master link slave_id 0 4
            (fsi_slave_set_smode E master link slave_id w).2).1.rc = 0
        ∧ crc_ok (u32 (master_read E master link slave_id 0 4
            (fsi_slave_set_smode E master link slave_id w).2).1.data) = true
        ∧ ∃ w1,
          ((fsi_slave_scan E reg ⟨master, link, slave_id⟩ w1).1.rc ≠ 0
            ∧ fsi_slave_init E reg master link slave_id w
              = ({ rc := (fsi_slave_scan E reg ⟨master, link, slave_id⟩ w1).1.rc,
                   slave := some ⟨⟨master, link, slave_id⟩,
                     (fsi_slave_scan E reg ⟨master, link, slave_id⟩ w1).1.my_engines⟩ },
                 (fsi_slave_scan E reg ⟨master, link, slave_id⟩ w1).2))
          ∨ ((fsi_slave_scan E reg ⟨master, link, slave_id⟩ w1).1.rc = 0
            ∧ fsi_slave_init E reg master link slave_id w
              = ({ rc := (fsi_slave_irq_clear E ⟨master, link, slave_id⟩
                     (fsi_slave_scan E reg ⟨master, link, slave_id⟩ w1).2).1.rc,
                   slave := some ⟨⟨master, link, slave_id⟩,
                     (fsi_slave_scan E reg ⟨master, link, slave_id⟩ w1).1.my_engines⟩ },
                 (fsi_slave_irq_clear E ⟨master, link, slave_id⟩
                     (fsi_slave_scan E reg ⟨master, link, slave_id⟩ w1).2).2))) := by
  unfold fsi_slave_init
  dsimp only
  by_cases h0 : slave_id > 0
  · left; rw [if_pos h0]
  rw [if_neg h0]
  by_cases h1 : (fsi_slave_set_smode E master link slave_id w).1.rc ≠ 0
  · left; rw [if_pos h1]
  rw [if_neg h1]
  by_cases h2 : (master_read E master link slave_id 0 4
      (fsi_slave_set_smode E master link slave_id w).2).1.rc ≠ 0
  · left; rw [if_pos h2]
  rw [if_neg h2]
  by_cases h3 : fsi_crc4 0 (u32 (master_read E master link slave_id 0 4
      (fsi_slave_set_smode E master link slave_id w).2).1.data >>> FSI_SLAVE_CONF_CRC_SHIFT)
      FSI_SLAVE_CONF_DATA_BITS ≠ u32 (master_read E master link slave_id 0 4
      (fsi_slave_set_smode E master link slave_id w).2).1.data &&& FSI_SLAVE_CONF_CRC_MASK
  · left; rw [if_pos h3]
  rw [if_neg h3]
  by_cases h4 : (call E Op.kzalloc (master_read E master link slave_id 0 4
      (fsi_slave_set_smode E master link slave_id w).2).2).1.rc ≠ 0
  · left; rw [if_pos h4]
  rw [if_neg h4]
  by_cases h5 : (call E Op.device_add (call E Op.kzalloc (master_read E master link slave_id
      0 4 (fsi_slave_set_smode E master link slave_id w).2).2).2).1.rc < 0
  · left; rw [if_pos h5]
  rw [if_neg h5]
  right
  refine ⟨by omega, by simpa using h1, by simpa using h2, ?_,
    (call E Op.device_add (call E Op.kzalloc (master_read E master link slave_id
      0 4 (fsi_slave_set_smode E master link slave_id w).2).2).2).2, ?_⟩
  · rw [← crc_field]; simpa using h3
  · by_cases h6 : (fsi_slave_scan E reg ⟨master, link, slave_id⟩
        (call E Op.device_add (call E Op.kzalloc (master_read E master link slave_id
          0 4 (fsi_slave_set_smode E master link slave_id w).2).2).2).2).1.rc ≠ 0
    · left; exact ⟨h6, by rw [if_pos h6]⟩
    · right; exact ⟨by simpa using h6, by rw [if_neg h6]⟩

theorem fsi_slave_scan_ret (E : Env) (reg : fsi_master → World → World) (slave : fsi_slave)
    (w : World) (rc : Int) (st' : ScanState) (w' : World)
    (h : fsi_slave_scan_loop E slave 2 (engine_page_size / 4 - 2) (scan_init E w) w
      = .ret rc st' w') :
    fsi_slave_scan E reg slave w = ({ rc := rc, my_engines := st'.my_engines, hub := none }, w') := by
  unfold fsi_slave_scan
  rw [h]

/-- A loop that does not return has checked every entry of the table it walked. -/
theorem loop_accept_crc (E : Env) (slave : fsi_slave) (tbl : Nat → Nat) :
    ∀ (n i : Nat) (st : ScanState) (w : World),
      (∀ j w', i ≤ j → j < i + n →
        u32 (fsi_slave_read E slave ((j + 1) * 4) 4 w').1.data = tbl j) →
      (∀ rc st' w', fsi_slave_scan_loop E slave i n st w ≠ .ret rc st' w') →
      ∀ j ∈ table_entries tbl (List.range' i n), crc_ok (tbl j) = true := by
  intro n
  induction n with
  | zero => intro i st w _ _ j hj; simp [table_entries] at hj
  | succ n ih =>
    intro i st w hdata hnr j hj
    rw [List.range'_succ] at hj
    have hd := hdata i w (le_refl i) (by omega)
    rcases body_cases E slave i st w with ⟨rc0, w0, _, he⟩ | ⟨_, hc, ⟨st', w', he⟩ | ⟨hn, st', w', he⟩⟩
    · exact absurd (by simp only [fsi_slave_scan_loop, he]) (hnr rc0 st w0)
    · rw [hd] at hc
      unfold table_entries at hj
      split at hj
      · rcases List.mem_cons.mp hj with h | h
        · rw [h]; exact hc
        · refine ih (i + 1) st' w' (fun j w' h1 h2 => hdata j w' (by omega) (by omega)) ?_ j h
          intro rc st'' w'' hl
          exact hnr rc st'' w'' (by simp only [fsi_slave_scan_loop, he]; exact hl)
      · rw [List.mem_singleton.mp hj]; exact hc
    · rw [hd] at hc hn
      unfold table_entries at hj
      rw [if_neg (by simp [hn])] at hj
      rw [List.mem_singleton.mp hj]; exact hc

/-- C4: a pass of `fsi_slave_scan` that does not return has read a word `w` with
`fsi_crc4(0, w >> 4, 28) = w & 0xF`, and a word violating the equation makes the pass
return -1 right after the read, with the engine list, the hub and the hub-link count as
they were; a scan that returns 0 has found the equation to hold of every entry of the
table up to its end; `fsi_slave_init` registers a slave only after a chip-ID word that
satisfies the equation, and on a chip-ID word violating it returns `-EIO` with no slave,
right after the read. -/
theorem crc_gate (E : Env) (reg : fsi_master → World → World) (slave : fsi_slave) (i : Nat)
    (st : ScanState) (w : World) (master : fsi_master) (link slave_id : Nat) (w0 : World) :
    ((∀ rc st' w', fsi_slave_scan_body E slave i st w ≠ .ret rc st' w') →
        (fsi_slave_read E slave ((i + 1) * 4) 4 w).1.rc = 0
          ∧ fsi_crc4 0 (u32 (fsi_slave_read E slave ((i + 1) * 4) 4 w).1.data >>> 4) 28
            = u32 (fsi_slave_read E slave ((i + 1) * 4) 4 w).1.data &&& 0xF)
      ∧ (fsi_crc4 0 (u32 (fsi_slave_read E slave ((i + 1) * 4) 4 w).1.data >>> 4) 28
            ≠ u32 (fsi_slave_read E slave ((i + 1) * 4) 4 w).1.data &&& 0xF →
          fsi_slave_scan_body E slave i st w
            = .ret (-1) st (fsi_slave_read E slave ((i + 1) * 4) 4 w).2)
      ∧ (∀ tbl : Nat → Nat,
          (∀ j w', 2 ≤ j → j < 256 →
            u32 (fsi_slave_read E slave ((j + 1) * 4) 4 w').1.data = tbl j) →
          (fsi_slave_scan E reg slave w).1.rc = 0 →
          ∀ j ∈ table_entries tbl (List.range' 2 254),
            fsi_crc4 0 (tbl j >>> 4) 28 = tbl j &&& 0xF)
      ∧ (∀ rec, (fsi_slave_init E reg master link slave_id w0).1.slave = some rec →
          fsi_crc4 0 (u32 (master_read E master link slave_id 0 4
              (fsi_slave_set_smode E master link slave_id w0).2).1.data >>> 4) 28
            = u32 (master_read E master link slave_id 0 4
              (fsi_slave_set_smode E master link slave_id w0).2).1.data &&& 0xF)
      ∧ (slave_id = 0 → (fsi_slave_set_smode E master link slave_id w0).1.rc = 0 →
          (master_read E master link slave_id 0 4
            (fsi_slave_set_smode E master link slave_id w0).2).1.rc = 0 →
          fsi_crc4 0 (u32 (master_read E master link slave_id 0 4
              (fsi_slave_set_smode E master link slave_id w0).2).1.data >>> 4) 28
            ≠ u32 (master_read E master link slave_id 0 4
              (fsi_slave_set_smode E master link slave_id w0).2).1.data &&& 0xF →
          fsi_slave_init E reg master link slave_id w0
            = ({ rc := - EIO, slave := none }, (master_read E master link slave_id 0 4
                (fsi_slave_set_smode E master link slave_id w0).2).2)) := by
  have hcrc : ∀ x : Nat, (fsi_crc4 0 (x >>> 4) 28 = x &&& 0xF) ↔ crc_ok x = true := by
    intro x; simp [crc_ok]
  refine ⟨?_, ?_, ?_, ?_, ?_⟩
  · intro h
    have := body_accept E slave i st w h
    exact ⟨this.1, (hcrc _).2 this.2⟩
  · intro h
    apply body_crc_bad
    have h' := mt (hcrc _).2 h
    simpa using h'
  · intro tbl hdata hrc j hj
    rw [hcrc]
    refine loop_accept_crc E slave tbl 254 2 (scan_init E w) w
      (fun j w' h1 h2 => hdata j w' h1 (by omega)) ?_ j hj
    intro rc st' w' hl
    have hn : engine_page_size / 4 - 2 = 254 := by decide
    have hs := fsi_slave_scan_ret E reg slave w rc st' w' (by rw [hn]; exact hl)
    rw [hs] at hrc
    exact loop_ret E slave _ _ _ _ _ _ _ hl hrc
  · intro rec hrec
    rcases fsi_slave_init_cases E reg master link slave_id w0 with h | ⟨_, _, _, h, _⟩
    · rw [h] at hrec; cases hrec
    · exact (hcrc _).2 h
  · intro h0 h1 h2 h3
    unfold fsi_slave_init
    dsimp only
    rw [if_neg (by omega), if_neg (by simpa using h1), if_neg (by simpa using h2)]
    rw [if_pos]
    simpa [FSI_SLAVE_CONF_CRC_SHIFT, FSI_SLAVE_CONF_DATA_BITS, FSI_SLAVE_CONF_CRC_MASK] using h3

/-- C10: let the words `2 .. i` of the table of a slave be readable, those below `i`
CRC-valid with NEXT set, and word `i` fail the CRC check.  Then `fsi_slave_scan` returns a
non-zero code and registers no hub; every engine it leaves has a table index below `i`;
its outcome is what the passes for the indices below `i` produced, followed by nothing but
the read of word `i` and `return -1` (or, if one of those passes already returned, that
return); with allocation and registration succeeding the code is -1 and the engines are
exactly those the entries below `i` describe; and `fsi_slave_init` hands the scan's error
on with the slave still on the list, with exactly those engines. -/
theorem fsi_slave_scan_crc_abort (E : Env) (reg : fsi_master → World → World)
    (master : fsi_master) (link : Nat) (w : World) (tbl : Nat → Nat) (i : Nat)
    (hi : 2 ≤ i) (hi2 : i < 256)
    (hread : ∀ j w', 2 ≤ j → j ≤ i →
      (fsi_slave_read E ⟨master, link, 0⟩ ((j + 1) * 4) 4 w').1.rc = 0
        ∧ u32 (fsi_slave_read E ⟨master, link, 0⟩ ((j + 1) * 4) 4 w').1.data = tbl j)
    (hgood : ∀ j, 2 ≤ j → j < i → crc_ok (tbl j) = true ∧ conf_next (tbl j) = true)
    (hbad : crc_ok (tbl i) = false) :
    ((fsi_slave_scan E reg ⟨master, link, 0⟩ w).1.rc ≠ 0
        ∧ (fsi_slave_scan E reg ⟨master, link, 0⟩ w).1.hub = none)
      ∧ (∀ e ∈ (fsi_slave_scan E reg ⟨master, link, 0⟩ w).1.my_engines, e.unit < i)
      ∧ ((∃ st1 w1,
            fsi_slave_scan_loop E ⟨master, link, 0⟩ 2 (i - 2) (scan_init E w) w = .next st1 w1
            ∧ fsi_slave_scan E reg ⟨master, link, 0⟩ w
              = ({ rc := -1, my_engines := st1.my_engines, hub := none },
                  (fsi_slave_read E ⟨master, link, 0⟩ ((i + 1) * 4) 4 w1).2))
          ∨ (∃ rc st1 w1,
            fsi_slave_scan_loop E ⟨master, link, 0⟩ 2 (i - 2) (scan_init E w) w = .ret rc st1 w1
            ∧ rc ≠ 0
            ∧ fsi_slave_scan E reg ⟨master, link, 0⟩ w
              = ({ rc := rc, my_engines := st1.my_engines, hub := none }, w1)))
      ∧ ((∀ log, (E.respond log .kzalloc).rc = 0 ∧ (E.respond log .device_add).rc = 0) →
          (fsi_slave_scan E reg ⟨master, link, 0⟩ w).1.rc = -1
            ∧ (fsi_slave_scan E reg ⟨master, link, 0⟩ w).1.my_engines.reverse.map
                fsi_device.desc
              = ((List.range' 2 (i - 2)).filter (is_engine_entry tbl)).map (spec_engine tbl)
            ∧ ∃ w1, (fsi_slave_scan E reg ⟨master, link, 0⟩ w).2
              = (fsi_slave_read E ⟨master, link, 0⟩ ((i + 1) * 4) 4 w1).2)
      ∧ (∀ w0 rec, (fsi_slave_init E reg master link 0 w0).1.slave = some rec →
          (fsi_slave_init E reg master link 0 w0).1.rc ≠ 0
            ∧ rec.slave = ⟨master, link, 0⟩
            ∧ (∀ e ∈ rec.my_engines, e.unit < i)
            ∧ ∃ w1, fsi_slave_init E reg master link 0 w0
              = ({ rc := (fsi_slave_scan E reg ⟨master, link, 0⟩ w1).1.rc,
                   slave := some ⟨⟨master, link, 0⟩,
                     (fsi_slave_scan E reg ⟨master, link, 0⟩ w1).1.my_engines⟩ },
                 (fsi_slave_scan E reg ⟨master, link, 0⟩ w1).2)) := by
  have hnext : ∀ j, 2 ≤ j → j < i → conf_next (tbl j) = true := fun j h1 h2 => (hgood j h1 h2).2
  -- what holds of the scan from any starting world
  have key : ∀ w : World,
      ((fsi_slave_scan E reg ⟨master, link, 0⟩ w).1.rc ≠ 0
        ∧ (fsi_slave_scan E reg ⟨master, link, 0⟩ w).1.hub = none)
      ∧ (∀ e ∈ (fsi_slave_scan E reg ⟨master, link, 0⟩ w).1.my_engines, e.unit < i) := by
    intro w
    obtain ⟨j, hj, hinv⟩ := scanInv_loop E ⟨master, link, 0⟩ (i - 2) 2 (scan_init E w) w
      (le_refl 2) (by omega) (scanInv_init _ _)
    rcases scan_abort_at E reg ⟨master, link, 0⟩ w tbl i hi hi2 hread hnext hbad with
      ⟨st1, w1, hl, hs⟩ | ⟨rc, st1, w1, hl, hrc, hs⟩
    · rw [hs]
      refine ⟨⟨by show (-1 : Int) ≠ 0; decide, rfl⟩, fun e he => ?_⟩
      rw [hl] at hinv
      have := hinv.eng e he
      omega
    · rw [hs]
      refine ⟨⟨hrc, rfl⟩, fun e he => ?_⟩
      rw [hl] at hinv
      have := hinv.eng e he
      omega
  refine ⟨(key w).1, (key w).2,
    scan_abort_at E reg ⟨master, link, 0⟩ w tbl i hi hi2 hread hnext hbad, ?_, ?_⟩
  · intro hok
    have hent := table_entries_all_next tbl (i - 2) 2 (fun j h1 h2 => hnext j h1 (by omega))
    have h0 : (scan_init E w).engine_addr = 3 * 0x400 + 0x400 * slots_before tbl 2 := by
      simp [scan_init, slots_before, engine_page_size]
    obtain ⟨hnr, heng⟩ := loop_table E ⟨master, link, 0⟩ tbl hok (i - 2) 2 (scan_init E w) w
      (le_refl 2) (by omega)
      (fun j hj w' => by
        rw [hent] at hj
        have := List.mem_range'_1.mp hj
        exact hread j w' (by omega) (by omega))
      (fun j hj => by
        rw [hent] at hj
        have := List.mem_range'_1.mp hj
        exact (hgood j (by omega) (by omega)).1)
      h0
    rcases scan_abort_at E reg ⟨master, link, 0⟩ w tbl i hi hi2 hread hnext hbad with
      ⟨st1, w1, hl, hs⟩ | ⟨rc, st1, w1, hl, hrc, hs⟩
    · rw [hl, hent] at heng
      rw [hs]
      refine ⟨rfl, ?_, w1, rfl⟩
      simpa [Flow.st, scan_init] using heng
    · exact absurd hl (hnr rc st1 w1)
  · intro w0 rec hrec
    rcases fsi_slave_init_cases E reg master link 0 w0 with h | ⟨_, _, _, _, w1, h | h⟩
    · rw [h] at hrec; cases hrec
    · obtain ⟨hrc, hinit⟩ := h
      rw [hinit] at hrec ⊢
      simp only [Option.some.injEq] at hrec
      subst hrec
      exact ⟨hrc, rfl, (key w1).2, w1, rfl⟩
    · exact absurd h.1 (key w1).1.1

theorem table2_bad_lt (j : Nat) : table2_bad j < 2 ^ 32 := by
  unfold table2_bad; split
  · decide
  · exact table2_lt j

theorem fsi_slave_scan_crc_abort_witness :
    crc_ok (table2_bad 3) = false
      ∧ (fsi_slave_init (env_table table2_bad) reg_none (.root 1) 0 0 ⟨[]⟩).1.slave
        = some ⟨slave0, [engine2]⟩
      ∧ (fsi_slave_init (env_table table2_bad) reg_none (.root 1) 0 0 ⟨[]⟩).1.rc ≠ 0
      ∧ (∀ e ∈ [engine2], e.unit < 3) := by
  have h := fsi_slave_scan_crc_abort (env_table table2_bad) reg_none (.root 1) 0 ⟨[]⟩
    table2_bad 3 (by decide) (by decide)
    (fun j w' _ h2 => env_table_read table2_bad j w' (by omega) (table2_bad_lt j))
    (fun j h1 h2 => by
      have : j = 2 := by omega
      subst this; decide)
    (by decide)
  have hs : (fsi_slave_init (env_table table2_bad) reg_none (.root 1) 0 0 ⟨[]⟩).1.slave
      = some ⟨slave0, [engine2]⟩ := by decide
  have h2 := h.2.2.2.2 ⟨[]⟩ ⟨slave0, [engine2]⟩ hs
  exact ⟨by decide, hs, h2.1, h2.2.2.1⟩

theorem crc_gate_witness :
    (∀ rc st' w',
        fsi_slave_scan_body (env_table table2) slave0 2 (scan_init (env_table table2) ⟨[]⟩) ⟨[]⟩ ≠ .ret rc st' w')
      ∧ (fsi_slave_read (env_table table2) slave0 ((2 + 1) * 4) 4 ⟨[]⟩).1.rc = 0
      ∧ fsi_crc4 0 (u32 (fsi_slave_read (env_table table2) slave0 ((2 + 1) * 4) 4
          ⟨[]⟩).1.data >>> 4) 28
        = u32 (fsi_slave_read (env_table table2) slave0 ((2 + 1) * 4) 4 ⟨[]⟩).1.data &&& 0xF := by
  have hb : fsi_slave_scan_body (env_table table2) slave0 2 (scan_init (env_table table2) ⟨[]⟩) ⟨[]⟩
      = .next { scan_init (env_table table2) ⟨[]⟩ with engine_addr := 0x1000, si1s_bit := 2, my_engines := [engine2] }
          ⟨[.device_add, .kzalloc, .read 0 0 12 4]⟩ := by decide
  have h : ∀ rc st' w',
      fsi_slave_scan_body (env_table table2) slave0 2 (scan_init (env_table table2) ⟨[]⟩) ⟨[]⟩ ≠ .ret rc st' w' := by
    intro rc st' w' he
    rw [hb] at he
    cases he
  exact ⟨h, (crc_gate (env_table table2) reg_none slave0 2 (scan_init (env_table table2) ⟨[]⟩) ⟨[]⟩ (.root 1) 0 0
    ⟨[]⟩).1 h⟩

/-- C3: `hub_master_break(link)` is exactly one write on the owning slave, of the 32-bit
word `0xC0DE0000`, at the slave address `base + link * 0x80000 + 4` (modulo `2^32`, the
plain sum when it fits): it is the hub-link write at offset 4, a different address from
offset 0 of that link, and its result is handed back. -/
theorem hub_master_break_write (E : Env) (hub : fsi_master_hub) (link : Nat) (w : World) :
    hub_master_break E hub link w
        = fsi_slave_write E hub.slave (u32 (hub.base + link * 0x80000 + 4)) 0xC0DE0000 4 w
      ∧ (∃ l i a, hub_master_break E hub link w = call E (.write l i a 0xC0DE0000 4) w)
      ∧ (∀ id, hub_master_break E hub link w = hub_master_write E hub link id 4 0xC0DE0000 4 w)
      ∧ u32 (hub.base + link * 0x80000 + 4) ≠ u32 (hub.base + link * 0x80000)
      ∧ (hub.base + link * 0x80000 + 4 < 2 ^ 32 →
          hub_master_break E hub link w
            = fsi_slave_write E hub.slave (hub.base + link * 0x80000 + 4) 0xC0DE0000 4 w) := by
  have ha : u32 (u32 (link * FSI_MASTER_HUB_LINK_SIZE + hub.base) + 4)
      = u32 (hub.base + link * 0x80000 + 4) := by
    unfold u32 FSI_MASTER_HUB_LINK_SIZE; omega
  have h1 : hub_master_break E hub link w
      = fsi_slave_write E hub.slave (u32 (hub.base + link * 0x80000 + 4)) 0xC0DE0000 4 w := by
    simp only [hub_master_break, ha, FSI_BREAK]
  refine ⟨h1, ?_, ?_, ?_, ?_⟩
  · rw [h1]; exact fsi_slave_write_one_call E hub.slave _ _ _ w
  · intro id
    rw [h1]
    simp only [hub_master_write, hub_addr]
  · unfold u32; omega
  · intro hlt
    rw [h1, u32_of_lt hlt]

theorem hub_master_break_write_witness :
    hub0.base + 1 * 0x80000 + 4 < 2 ^ 32
      ∧ hub_master_break (env_table table2) hub0 1 ⟨[]⟩
        = fsi_slave_write (env_table table2) hub0.slave (hub0.base + 1 * 0x80000 + 4)
            0xC0DE0000 4 ⟨[]⟩ :=
  ⟨by decide, (hub_master_break_write (env_table table2) hub0 1 ⟨[]⟩).2.2.2.2 (by decide)⟩

theorem fsi_device_access_bounds_witness :
    ¬ (0x10 > engine2.size ∨ 4 > engine2.size ∨ 0x10 > engine2.size - 4)
      ∧ engine2.addr + 0x10 < 2 ^ 32
      ∧ fsi_device_read (env_table table2) engine2 0x10 0 4 ⟨[]⟩
        = fsi_slave_read (env_table table2) engine2.slave (engine2.addr + 0x10) 4 ⟨[]⟩
      ∧ fsi_device_write (env_table table2) engine2 0x10 7 4 ⟨[]⟩
        = fsi_slave_write (env_table table2) engine2.slave (engine2.addr + 0x10) 7 4 ⟨[]⟩ := by
  have h := (fsi_device_access_bounds (env_table table2) engine2 0x10 0 4 ⟨[]⟩).2 (by decide)
  have h' := (fsi_device_access_bounds (env_table table2) engine2 0x10 7 4 ⟨[]⟩).2 (by decide)
  exact ⟨by decide, by decide, (h.2.2 (by decide)).1, (h'.2.2 (by decide)).2⟩

theorem fsi_slave_scan_si1s_range_witness :
    engine2 ∈ (fsi_slave_scan (env_table table2) reg_none slave0 ⟨[]⟩).1.my_engines
      ∧ 1 ≤ engine2.si1s_bit ∧ engine2.si1s_bit + 1 ≤ engine2.unit ∧ engine2.unit ≤ 255
      ∧ (engine2.unit ≤ 32 → engine2.si1s_bit ≤ 31)
      ∧ (engine2.si1s_bit ≤ 31 →
          si1s_mask (env_table table2) engine2 = 2 ^ (31 - engine2.si1s_bit)
            ∧ si1s_mask (env_table table2) engine2 ≠ 0
            ∧ si1s_mask (env_table table2) engine2 < 2 ^ 32) :=
  ⟨by decide, fsi_slave_scan_si1s_range (env_table table2) reg_none slave0 ⟨[]⟩ engine2
    (by decide)⟩

theorem smode_word (k : Nat) (hk : k < 4) :
    (0xA0FF0100 ||| (k <<< 24)) >>> 24 &&& 3 = k
      ∧ (0xA0FF0100 ||| (k <<< 24)) &&& 0xFCFFFFFF = 0xA0FF0100 := by
  interval_cases k <;> decide

theorem fsi_smode_sid_eq (id : Nat) : fsi_smode_sid id = (id % 4) <<< 24 := by
  have h : id &&& 3 = id % 4 := Nat.and_pow_two_sub_one_eq_mod id 2
  have hlt : id % 4 < 4 := Nat.mod_lt _ (by decide)
  unfold fsi_smode_sid FSI_SMODE_SID_MASK FSI_SMODE_SID_SHIFT
  rw [h]
  apply u32_of_lt
  rw [Nat.shiftLeft_eq]
  omega

/-- C18: `set_smode_defaults` is `0xA0FF0100`, the constant `FSI_SLAVE_SMODE_DFLT`;
`fsi_slave_set_smode(master, link, id)` is exactly one write, through the master, of the
4-byte word `0xA0FF0100 | ((id & 3) << 24)` at `SLAVE_BASE + SMODE = 0x800` of slave id 3
on that link (for a root master the transport write `(link, 3, 0x800)`); bits 24..25 of
the word are `id & 3`, which is `id` for an id in 0..3, and the rest of the word is
`0xA0FF0100`. -/
theorem fsi_slave_set_smode_word (E : Env) (master : fsi_master) (link id n : Nat)
    (w : World) :
    set_smode_defaults = 0xA0FF0100
      ∧ set_smode_defaults = FSI_SLAVE_SMODE_DFLT
      ∧ fsi_slave_set_smode E master link id w
        = master_write E master link 3 0x800 (0xA0FF0100 ||| ((id &&& 3) <<< 24)) 4 w
      ∧ (∃ l i a, fsi_slave_set_smode E master link id w
          = call E (.write l i a (0xA0FF0100 ||| ((id &&& 3) <<< 24)) 4) w)
      ∧ fsi_slave_set_smode E (.root n) link id w
        = call E (.write link 3 0x800 (0xA0FF0100 ||| ((id &&& 3) <<< 24)) 4) w
      ∧ (0xA0FF0100 ||| ((id &&& 3) <<< 24)) >>> 24 &&& 3 = id % 4
      ∧ (0xA0FF0100 ||| ((id &&& 3) <<< 24)) &&& 0xFCFFFFFF = 0xA0FF0100
      ∧ (id < 4 → (0xA0FF0100 ||| ((id &&& 3) <<< 24)) >>> 24 &&& 3 = id) := by
  have hd : set_smode_defaults = 0xA0FF0100 := by decide
  have h3 : id &&& 3 = id % 4 := Nat.and_pow_two_sub_one_eq_mod id 2
  have hlt : id % 4 < 4 := Nat.mod_lt _ (by decide)
  have hs : fsi_slave_set_smode E master link id w
      = master_write E master link 3 0x800 (0xA0FF0100 ||| ((id &&& 3) <<< 24)) 4 w := by
    simp only [fsi_slave_set_smode, hd, fsi_smode_sid_eq, h3, FSI_SLAVE_BASE, FSI_SMODE]
  refine ⟨hd, by decide, hs, ?_, ?_, ?_, ?_, ?_⟩
  · rw [hs]; exact master_write_one_call E master link 3 0x800 _ 4 w
  · simp only [fsi_slave_set_smode, hd, fsi_smode_sid_eq, h3, FSI_SLAVE_BASE, FSI_SMODE,
      master_write]
  · rw [h3]; exact (smode_word _ hlt).1
  · rw [h3]; exact (smode_word _ hlt).2
  · intro hid
    rw [h3, Nat.mod_eq_of_lt hid]
    exact (smode_word _ hid).1

theorem fsi_slave_set_smode_word_witness :
    (2 : Nat) < 4 ∧ (0xA0FF0100 ||| (((2 : Nat) &&& 3) <<< 24)) >>> 24 &&& 3 = 2 :=
  ⟨by decide, (fsi_slave_set_smode_word (env_table table2) (.root 1) 0 2 1 ⟨[]⟩).2.2.2.2.2.2.2
    (by decide)⟩

/-- C19: `fsi_slave_sysfs_raw_read` and `fsi_slave_sysfs_raw_write` return `-EINVAL` with
the world untouched exactly when `count != 4`, or `off` is not a multiple of 4, or `off`
lies outside `[0, 0xFFFFFFFC]`; otherwise each is exactly one 4-byte read / write on the
slave at address `off` (one call of the root transport) and returns 4 when that call
returns 0 and its return code otherwise. -/
theorem fsi_slave_sysfs_raw_access (E : Env) (slave : fsi_slave) (buf : Nat) (off : Int)
    (count : Nat) (w : World) :
    ((((fsi_slave_sysfs_raw_read E slave off count w).1.rc = -EINVAL
          ∧ (fsi_slave_sysfs_raw_read E slave off count w).2 = w)
        ↔ (count ≠ 4 ∨ off % 4 ≠ 0 ∨ off < 0 ∨ off > 0xFFFFFFFC))
      ∧ (((fsi_slave_sysfs_raw_write E slave buf off count w).1 = -EINVAL
          ∧ (fsi_slave_sysfs_raw_write E slave buf off count w).2 = w)
        ↔ (count ≠ 4 ∨ off % 4 ≠ 0 ∨ off < 0 ∨ off > 0xFFFFFFFC)))
    ∧ (¬ (count ≠ 4 ∨ off % 4 ≠ 0 ∨ off < 0 ∨ off > 0xFFFFFFFC) →
        ((fsi_slave_sysfs_raw_read E slave off count w).2
            = (fsi_slave_read E slave off.toNat 4 w).2
          ∧ (fsi_slave_sysfs_raw_read E slave off count w).1.data
            = (fsi_slave_read E slave off.toNat 4 w).1.data
          ∧ ((fsi_slave_read E slave off.toNat 4 w).1.rc = 0 →
              (fsi_slave_sysfs_raw_read E slave off count w).1.rc = 4)
          ∧ ((fsi_slave_read E slave off.toNat 4 w).1.rc ≠ 0 →
              (fsi_slave_sysfs_raw_read E slave off count w).1.rc
                = (fsi_slave_read E slave off.toNat 4 w).1.rc)
          ∧ ∃ l i a, fsi_slave_read E slave off.toNat 4 w = call E (.read l i a 4) w)
        ∧ ((fsi_slave_sysfs_raw_write E slave buf off count w).2
            = (fsi_slave_write E slave off.toNat buf 4 w).2
          ∧ ((fsi_slave_write E slave off.toNat buf 4 w).1.rc = 0 →
              (fsi_slave_sysfs_raw_write E slave buf off count w).1 = 4)
          ∧ ((fsi_slave_write E slave off.toNat buf 4 w).1.rc ≠ 0 →
              (fsi_slave_sysfs_raw_write E slave buf off count w).1
                = (fsi_slave_write E slave off.toNat buf 4 w).1.rc)
          ∧ ∃ l i a, fsi_slave_write E slave off.toNat buf 4 w
              = call E (.write l i a buf 4) w)
        ∧ (off.toNat : Int) = off ∧ off.toNat < 2 ^ 32) := by
  by_cases hb : count ≠ 4 ∨ off % 4 ≠ 0 ∨ off < 0 ∨ off > 0xFFFFFFFC
  · have hr : fsi_slave_sysfs_raw_read E slave off count w = (⟨-EINVAL, 0⟩, w) := by
      unfold fsi_slave_sysfs_raw_read
      by_cases h1 : count ≠ 4 ∨ off % 4 ≠ 0
      · rw [if_pos h1]
      · rw [if_neg h1, if_pos]
        rcases hb with h | h | h | h
        · exact absurd (Or.inl h) h1
        · exact absurd (Or.inr h) h1
        · exact Or.inr h
        · exact Or.inl h
    have hw : fsi_slave_sysfs_raw_write E slave buf off count w = (-EINVAL, w) := by
      unfold fsi_slave_sysfs_raw_write
      by_cases h1 : count ≠ 4 ∨ off % 4 ≠ 0
      · rw [if_pos h1]
      · rw [if_neg h1, if_pos]
        rcases hb with h | h | h | h
        · exact absurd (Or.inl h) h1
        · exact absurd (Or.inr h) h1
        · exact Or.inr h
        · exact Or.inl h
    rw [hr, hw]
    exact ⟨⟨⟨fun _ => hb, fun _ => ⟨rfl, rfl⟩⟩, ⟨fun _ => hb, fun _ => ⟨rfl, rfl⟩⟩⟩,
      fun h => absurd hb h⟩
  · have h1 : ¬ (count ≠ 4 ∨ off % 4 ≠ 0) := fun h => hb (by tauto)
    have h2 : ¬ (off > 0xfffffffc ∨ off < 0) := fun h => hb (by tauto)
    have hc : count = 4 := by
      by_contra hc; exact h1 (Or.inl hc)
    have hr : fsi_slave_sysfs_raw_read E slave off count w
        = (⟨if (fsi_slave_read E slave off.toNat 4 w).1.rc ≠ 0
            then (fsi_slave_read E slave off.toNat 4 w).1.rc else (count : Int),
            (fsi_slave_read E slave off.toNat 4 w).1.data⟩,
          (fsi_slave_read E slave off.toNat 4 w).2) := by
      unfold fsi_slave_sysfs_raw_read
      rw [if_neg h1, if_neg h2]
    have hw : fsi_slave_sysfs_raw_write E slave buf off count w
        = (if (fsi_slave_write E slave off.toNat buf 4 w).1.rc ≠ 0
            then (fsi_slave_write E slave off.toNat buf 4 w).1.rc else (count : Int),
          (fsi_slave_write E slave off.toNat buf 4 w).2) := by
      unfold fsi_slave_sysfs_raw_write
      rw [if_neg h1, if_neg h2]
    obtain ⟨l, i, a, hrd⟩ := fsi_slave_read_one_call E slave off.toNat 4 w
    obtain ⟨l', i', a', hwr⟩ := fsi_slave_write_one_call E slave off.toNat buf 4 w
    have hoff : (off.toNat : Int) = off := Int.toNat_of_nonneg (by omega)
    refine ⟨⟨⟨fun h => absurd h.2 ?_, fun h => absurd h hb⟩,
      ⟨fun h => absurd h.2 ?_, fun h => absurd h hb⟩⟩, fun _ => ⟨⟨?_, ?_, ?_, ?_, l, i, a, hrd⟩,
      ⟨?_, ?_, ?_, l', i', a', hwr⟩, hoff, by omega⟩⟩
    · rw [hr, hrd]; exact call_log_ne E _ w
    · rw [hw, hwr]; exact call_log_ne E _ w
    · rw [hr]
    · rw [hr]
    · intro h0; rw [hr]; simp [h0, hc]
    · intro h0; rw [hr]; simp [h0]
    · rw [hw]
    · intro h0; rw [hw]; simp [h0, hc]
    · intro h0; rw [hw]; simp [h0]

theorem fsi_slave_sysfs_raw_access_witness :
    ¬ ((4 : Nat) ≠ 4 ∨ (0x818 : Int) % 4 ≠ 0 ∨ (0x818 : Int) < 0 ∨ (0x818 : Int) > 0xFFFFFFFC)
      ∧ (fsi_slave_sysfs_raw_read (env_table table2) slave0 0x818 4 ⟨[]⟩).2
        = (fsi_slave_read (env_table table2) slave0 (0x818 : Int).toNat 4 ⟨[]⟩).2 :=
  ⟨by decide, ((fsi_slave_sysfs_raw_access (env_table table2) slave0 0 0x818 4 ⟨[]⟩).2
    (by decide)).1.1⟩

/-- C20: `fsi_ipoll_period_store` returns `count` in every case; it sets the period to the
parsed value `val` when `1 < val < 10000` and leaves it as it was for every other value
and when parsing fails; so after any sequence of stores from the initial 100 the period
is strictly between 1 and 10000. -/
theorem fsi_ipoll_period_store_range (period : Nat) (parsed : Option Nat) (count : Nat)
    (stores : List (Option Nat × Nat)) :
    (fsi_ipoll_period_store period parsed count).1 = count
      ∧ (∀ val, parsed = some val → (1 < val ∧ val < 10000) →
          (fsi_ipoll_period_store period parsed count).2 = val)
      ∧ (∀ val, parsed = some val → ¬ (1 < val ∧ val < 10000) →
          (fsi_ipoll_period_store period parsed count).2 = period)
      ∧ (parsed = none → (fsi_ipoll_period_store period parsed count).2 = period)
      ∧ (1 < ipoll_period_after fsi_ipoll_period_ms_init stores
          ∧ ipoll_period_after fsi_ipoll_period_ms_init stores < 10000) := by
  refine ⟨?_, ?_, ?_, ?_, ?_⟩
  · unfold fsi_ipoll_period_store; dsimp only; split <;> rfl
  · intro val hp hv
    subst hp
    unfold fsi_ipoll_period_store
    simp only [Option.getD_some, gt_iff_lt]
    rw [if_pos hv]
  · intro val hp hv
    subst hp
    unfold fsi_ipoll_period_store
    simp only [Option.getD_some, gt_iff_lt]
    rw [if_neg hv]
  · intro hp
    subst hp
    unfold fsi_ipoll_period_store
    simp
  · have key : ∀ (l : List (Option Nat × Nat)) (p : Nat), (1 < p ∧ p < 10000) →
        (1 < ipoll_period_after p l ∧ ipoll_period_after p l < 10000) := by
      intro l
      induction l with
      | nil => intro p hp; simpa [ipoll_period_after] using hp
      | cons s l ih =>
        intro p hp
        have hstep : 1 < (fsi_ipoll_period_store p s.1 s.2).2
            ∧ (fsi_ipoll_period_store p s.1 s.2).2 < 10000 := by
          unfold fsi_ipoll_period_store
          dsimp only
          split
          · assumption
          · exact hp
        have := ih _ hstep
        simpa [ipoll_period_after] using this
    exact key stores fsi_ipoll_period_ms_init (by decide)

theorem fsi_ipoll_period_store_range_witness :
    (some 500 : Option Nat) = some 500 ∧ (1 < 500 ∧ 500 < 10000)
      ∧ (fsi_ipoll_period_store 100 (some 500) 4).2 = 500
      ∧ (fsi_ipoll_period_store 100 (some 10000) 6).2 = 100
      ∧ (fsi_ipoll_period_store 100 none 3).2 = 100 :=
  ⟨rfl, by decide,
    (fsi_ipoll_period_store_range 100 (some 500) 4 []).2.1 500 rfl (by decide),
    (fsi_ipoll_period_store_range 100 (some 10000) 6 []).2.2.1 10000 rfl (by decide),
    (fsi_ipoll_period_store_range 100 none 3 []).2.2.2.1 rfl⟩

theorem atomic_inc_eq_zero (v : Int) : atomic_inc v = 0 ↔ v = -1 := by
  unfold atomic_inc
  split <;> omega

/-- C14: with the latch free (-1), `fsi_master_handle_error(master, addr)` performs, each
step whatever the steps before it returned: `fsi_master_break` on link 0 (the master's
`send_break`, when it has one); the write of `0xA0FF0100` at `(link 0, id 0, 0x800)`; the
write of `RST_GEN | RST_ERR` at `(link 0, id 0, 0x3400 + MRESB0)`; and, exactly when
`addr > 0x80000`, the write of `0xC0DE0000` at `0x100004` and then of `0xA0FF0100` at
`0x100800`; and it leaves the latch free.  On a root master with a `send_break`
callback these are the only calls made, five or three, in this order. -/
theorem fsi_master_handle_error_sequence (E : Env) (master : fsi_master) (addr n : Nat)
    (w : World) :
    (addr > 0x80000 →
        fsi_master_handle_error E master addr (-1) w
          = (-1, (master_write E master 0 0 0x100800 0xA0FF0100 4
              (master_write E master 0 0 0x100004 0xC0DE0000 4
                (master_write E master 0 0 (u32 (0x3400 + E.regs.FSI_MRESB0))
                  (u32 (E.regs.FSI_MRESB_RST_GEN ||| E.regs.FSI_MRESB_RST_ERR)) 4
                  (master_write E master 0 0 0x800 0xA0FF0100 4
                    (fsi_master_break E master 0 w).2).2).2).2).2))
      ∧ (¬ addr > 0x80000 →
        fsi_master_handle_error E master addr (-1) w
          = (-1, (master_write E master 0 0 (u32 (0x3400 + E.regs.FSI_MRESB0))
                  (u32 (E.regs.FSI_MRESB_RST_GEN ||| E.regs.FSI_MRESB_RST_ERR)) 4
                  (master_write E master 0 0 0x800 0xA0FF0100 4
                    (fsi_master_break E master 0 w).2).2).2))
      ∧ (E.has_send_break = true → addr > 0x80000 →
        (fsi_master_handle_error E (.root n) addr (-1) w).2.log
          = [.write 0 0 0x100800 0xA0FF0100 4, .write 0 0 0x100004 0xC0DE0000 4,
              .write 0 0 (u32 (0x3400 + E.regs.FSI_MRESB0))
                (u32 (E.regs.FSI_MRESB_RST_GEN ||| E.regs.FSI_MRESB_RST_ERR)) 4,
              .write 0 0 0x800 0xA0FF0100 4, .send_break 0] ++ w.log)
      ∧ (E.has_send_break = true → ¬ addr > 0x80000 →
        (fsi_master_handle_error E (.root n) addr (-1) w).2.log
          = [.write 0 0 (u32 (0x3400 + E.regs.FSI_MRESB0))
                (u32 (E.regs.FSI_MRESB_RST_GEN ||| E.regs.FSI_MRESB_RST_ERR)) 4,
              .write 0 0 0x800 0xA0FF0100 4, .send_break 0] ++ w.log) := by
  have h0 : ¬ (atomic_inc (-1) ≠ 0) := by decide
  have hgen : ∀ m : fsi_master,
      fsi_master_handle_error E m addr (-1) w
        = if addr > 0x80000 then
            (-1, (master_write E m 0 0 0x100800 0xA0FF0100 4
              (master_write E m 0 0 0x100004 0xC0DE0000 4
                (master_write E m 0 0 (u32 (0x3400 + E.regs.FSI_MRESB0))
                  (u32 (E.regs.FSI_MRESB_RST_GEN ||| E.regs.FSI_MRESB_RST_ERR)) 4
                  (master_write E m 0 0 0x800 0xA0FF0100 4
                    (fsi_master_break E m 0 w).2).2).2).2).2)
          else
            (-1, (master_write E m 0 0 (u32 (0x3400 + E.regs.FSI_MRESB0))
                  (u32 (E.regs.FSI_MRESB_RST_GEN ||| E.regs.FSI_MRESB_RST_ERR)) 4
                  (master_write E m 0 0 0x800 0xA0FF0100 4
                    (fsi_master_break E m 0 w).2).2).2) := by
    intro m
    unfold fsi_master_handle_error
    dsimp only
    rw [if_neg h0]
    simp only [FSI_SLAVE_BASE, FSI_SMODE, FSI_SLAVE_SMODE_DFLT, FSI_HUB_CONTROL,
      FSI_HUB_LINK_OFFSET, FSI_BREAK, Nat.add_zero]
  refine ⟨?_, ?_, ?_, ?_⟩
  · intro h; rw [hgen, if_pos h]
  · intro h; rw [hgen, if_neg h]
  · intro hs h
    rw [hgen, if_pos h]
    simp [master_write, fsi_master_break, hs, call]
  · intro hs h
    rw [hgen, if_neg h]
    simp [master_write, fsi_master_break, hs, call]

theorem fsi_master_handle_error_sequence_witness :
    (env_table table2).has_send_break = true ∧ 0x100400 > 0x80000
      ∧ (fsi_master_handle_error (env_table table2) (.root 1) 0x100400 (-1) ⟨[]⟩).2.log
        = [.write 0 0 0x100800 0xA0FF0100 4, .write 0 0 0x100004 0xC0DE0000 4,
            .write 0 0 0x3400 0 4, .write 0 0 0x800 0xA0FF0100 4, .send_break 0] :=
  ⟨rfl, by decide,
    ((fsi_master_handle_error_sequence (env_table table2) (.root 1) 0x100400 1 ⟨[]⟩).2.2.1
      rfl (by decide)).trans (by decide)⟩

/-- C15: a call of `fsi_master_handle_error` that finds the latch different from -1
returns at once: the world is as it was (no break, no write, no call at all), and the
only trace is the latch counted up by one; a call that finds the latch free leaves it
free (-1) when it returns. -/
theorem fsi_master_handle_error_latch (E : Env) (master : fsi_master) (addr : Nat)
    (in_err_cleanup : Int) (w : World) :
    (in_err_cleanup ≠ -1 →
        fsi_master_handle_error E master addr in_err_cleanup w = (atomic_inc in_err_cleanup, w)
          ∧ atomic_inc in_err_cleanup ≠ 0)
      ∧ (in_err_cleanup = -1 →
        (fsi_master_handle_error E master addr in_err_cleanup w).1 = -1) := by
  constructor
  · intro h
    have hv : atomic_inc in_err_cleanup ≠ 0 := fun h0 => h ((atomic_inc_eq_zero _).1 h0)
    refine ⟨?_, hv⟩
    unfold fsi_master_handle_error
    dsimp only
    rw [if_pos hv]
  · intro h
    subst h
    have h0 : ¬ (atomic_inc (-1) ≠ 0) := by decide
    unfold fsi_master_handle_error
    dsimp only
    rw [if_neg h0]
    split <;> rfl

theorem fsi_master_handle_error_latch_witness :
    (0 : Int) ≠ -1
      ∧ fsi_master_handle_error (env_table table2) (.root 1) 0x100400 0 ⟨[]⟩ = (1, ⟨[]⟩)
      ∧ (fsi_master_handle_error (env_table table2) (.root 1) 0x100400 (-1) ⟨[]⟩).1 = -1 :=
  ⟨by decide,
    ((fsi_master_handle_error_latch (env_table table2) (.root 1) 0x100400 0 ⟨[]⟩).1
      (by decide)).1.trans (by decide),
    (fsi_master_handle_error_latch (env_table table2) (.root 1) 0x100400 (-1) ⟨[]⟩).2 rfl⟩

theorem fsi_slave_init_slave (E : Env) (reg : fsi_master → World → World)
    (master : fsi_master) (link slave_id : Nat) (w : World) (rec : SlaveRec)
    (h : (fsi_slave_init E reg master link slave_id w).1.slave = some rec) :
    rec.slave = ⟨master, link, slave_id⟩ := by
  rcases fsi_slave_init_cases E reg master link slave_id w with h0 | ⟨_, _, _, _, w1, h1 | h1⟩
  · rw [h0] at h; cases h
  · rw [h1.2] at h
    simp only [Option.some.injEq] at h
    rw [← h]
  · rw [h1.2] at h
    simp only [Option.some.injEq] at h
    rw [← h]

/-- The slaves that the tries on one link add are slaves of that link. -/
theorem fsi_master_scan_slaves_mem (E : Env) (reg : fsi_master → World → World)
    (master : fsi_master) (link : Nat) :
    ∀ (ids : List Nat) (l : List SlaveRec) (w : World),
      ∀ s ∈ (fsi_master_scan_slaves E reg master link ids l w).1,
        s ∈ l ∨ (s.slave.master = master ∧ s.slave.link = link) := by
  intro ids
  induction ids with
  | nil => intro l w s hs; exact Or.inl hs
  | cons id ids ih =>
    intro l w s hs
    simp only [fsi_master_scan_slaves] at hs
    rcases ih _ _ s hs with h | h
    · cases hr : (fsi_slave_init E reg master link id w).1.slave with
      | none => rw [hr] at h; exact Or.inl h
      | some rec =>
        rw [hr] at h
        rcases List.mem_cons.mp h with h | h
        · right
          have := fsi_slave_init_slave E reg master link id w rec hr
          rw [h, this]
          exact ⟨rfl, rfl⟩
        · exact Or.inl h
    · exact Or.inr h

/-- A link on which bring-up fails adds no slave; any other link adds slaves of its own
only. -/
theorem fsi_master_scan_link_mem (E : Env) (reg : fsi_master → World → World)
    (master : fsi_master) (link : Nat) (l : List SlaveRec) (w : World) :
    (link_fails E master link w → (fsi_master_scan_link E reg master link l w).1 = l)
      ∧ ∀ s ∈ (fsi_master_scan_link E reg master link l w).1,
          s ∈ l ∨ (s.slave.master = master ∧ s.slave.link = link) := by
  unfold fsi_master_scan_link
  dsimp only
  by_cases h1 : (fsi_master_link_enable E master link w).1 ≠ 0
  · rw [if_pos h1]; exact ⟨fun _ => rfl, fun s hs => Or.inl hs⟩
  rw [if_neg h1]
  by_cases h2 : (fsi_master_break E master link (fsi_master_link_enable E master link w).2).1 ≠ 0
  · rw [if_pos h2]; exact ⟨fun _ => rfl, fun s hs => Or.inl hs⟩
  rw [if_neg h2]
  by_cases h3 : (master_read E master link 3 (FSI_SLAVE_BASE + FSI_SMODE) 4
      (fsi_master_break E master link (fsi_master_link_enable E master link w).2).2).1.rc ≠ 0
  · rw [if_pos h3]; exact ⟨fun _ => rfl, fun s hs => Or.inl hs⟩
  rw [if_neg h3]
  refine ⟨fun hf => ?_, fun s hs => fsi_master_scan_slaves_mem E reg master link _ _ _ s hs⟩
  rcases hf with h | h | h
  · exact absurd h h1
  · exact absurd h h2
  · exact absurd h h3

theorem fsi_master_scan_loop_skip (E : Env) (reg : fsi_master → World → World)
    (master : fsi_master) (k : Nat) (hk : ∀ w, link_fails E master k w) :
    ∀ (n link : Nat) (l : List SlaveRec) (w : World),
      (∀ s ∈ l, s.slave.link ≠ k) →
      ∀ s ∈ (fsi_master_scan_loop E reg master link n l w).1, s.slave.link ≠ k := by
  intro n
  induction n with
  | zero => intro link l w hl s hs; exact hl s hs
  | succ n ih =>
    intro link l w hl s hs
    simp only [fsi_master_scan_loop] at hs
    refine ih (link + 1) _ _ ?_ s hs
    intro s' hs'
    by_cases hlk : link = k
    · subst hlk
      rw [(fsi_master_scan_link_mem E reg master link l w).1 (hk w)] at hs'
      exact hl s' hs'
    · rcases (fsi_master_scan_link_mem E reg master link l w).2 s' hs' with h | h
      · exact hl s' h
      · rw [h.2]; exact hlk

/-- C11: if `link_enable`, the break or the probe read of `SLAVE_BASE + SMODE` at id 3
fails on a link, the pass of `fsi_master_scan` for that link ends right after the failing
call: the slave list is as before, the world is the world after that call (no SMODE
write, no chip-ID read, no configuration read), and the loop goes on with the next link
from there; `fsi_master_scan` returns 0; and a link that fails whenever it is tried has no
slave on the list when the scan is over.  On a root master with both callbacks a failed
probe leaves exactly the calls `link_enable`, `send_break` and the probe read. -/
theorem fsi_master_scan_link_failure (E : Env) (reg : fsi_master → World → World)
    (master : fsi_master) (link n r : Nat) (l : List SlaveRec) (ms : MasterLists)
    (w : World) :
    ((fsi_master_link_enable E master link w).1 ≠ 0 →
        fsi_master_scan_link E reg master link l w
          = (l, (fsi_master_link_enable E master link w).2))
      ∧ ((fsi_master_link_enable E master link w).1 = 0 →
          (fsi_master_break E master link (fsi_master_link_enable E master link w).2).1 ≠ 0 →
          fsi_master_scan_link E reg master link l w
            = (l, (fsi_master_break E master link
                (fsi_master_link_enable E master link w).2).2))
      ∧ ((fsi_master_link_enable E master link w).1 = 0 →
          (fsi_master_break E master link (fsi_master_link_enable E master link w).2).1 = 0 →
          (master_read E master link 3 0x800 4
            (fsi_master_break E master link
              (fsi_master_link_enable E master link w).2).2).1.rc ≠ 0 →
          fsi_master_scan_link E reg master link l w
            = (l, (master_read E master link 3 0x800 4
                (fsi_master_break E master link
                  (fsi_master_link_enable E master link w).2).2).2))
      ∧ (fsi_master_scan_loop E reg master link (n + 1) l w
          = fsi_master_scan_loop E reg master (link + 1) n
              (fsi_master_scan_link E reg master link l w).1
              (fsi_master_scan_link E reg master link l w).2)
      ∧ (fsi_master_scan E reg master ms w).1 = 0
      ∧ ((∀ w', link_fails E master link w') → ms.slave_list = false →
          ∀ s ∈ (fsi_master_scan E reg master ms w).2.1.my_slaves, s.slave.link ≠ link)
      ∧ (E.has_link_enable = true → E.has_send_break = true →
          (E.respond w.log (.link_enable link)).rc = 0 →
          (E.respond (.link_enable link :: w.log) (.send_break link)).rc = 0 →
          (E.respond (.send_break link :: .link_enable link :: w.log)
            (.read link 3 0x800 4)).rc ≠ 0 →
          fsi_master_scan_link E reg (.root r) link l w
            = (l, { w with log := .read link 3 0x800 4 :: .send_break link
                      :: .link_enable link :: w.log })) := by
  have hsm : FSI_SLAVE_BASE + FSI_SMODE = 0x800 := by decide
  refine ⟨?_, ?_, ?_, rfl, rfl, ?_, ?_⟩
  · intro h1
    unfold fsi_master_scan_link
    dsimp only
    rw [if_pos h1]
  · intro h1 h2
    unfold fsi_master_scan_link
    dsimp only
    rw [if_neg (by simpa using h1), if_pos h2]
  · intro h1 h2 h3
    unfold fsi_master_scan_link
    dsimp only
    rw [if_neg (by simpa using h1), if_neg (by simpa using h2), hsm, if_pos h3]
  · intro hk hsl s hs
    unfold fsi_master_scan at hs
    simp only [hsl] at hs
    exact fsi_master_scan_loop_skip E reg master link hk _ 0 [] w
      (fun s hs => by cases hs) s hs
  · intro he hb h1 h2 h3
    unfold fsi_master_scan_link
    simp only [fsi_master_link_enable, fsi_master_break, he, hb, master_read, call, hsm,
      if_true, h1, h2, ne_eq, not_true_eq_false, if_false, h3, not_false_eq_true]

theorem fsi_master_scan_link_failure_witness :
    (∀ w', link_fails env_probe_fail (.root 2) 1 w')
      ∧ (∀ s ∈ (fsi_master_scan env_probe_fail reg_none (.root 2) ⟨false, []⟩
          ⟨[]⟩).2.1.my_slaves, s.slave.link ≠ 1)
      ∧ (fsi_master_scan env_probe_fail reg_none (.root 2) ⟨false, []⟩ ⟨[]⟩).2.1.my_slaves = []
      ∧ (fsi_master_scan env_probe_fail reg_none (.root 2) ⟨false, []⟩ ⟨[]⟩).2.2.log
        = [.read 1 3 0x800 4, .send_break 1, .link_enable 1,
            .read 0 3 0x800 4, .send_break 0, .link_enable 0] := by
  have hf : ∀ w', link_fails env_probe_fail (.root 2) 1 w' := by
    intro w'
    right; right
    simp [master_read, call, env_probe_fail, EIO]
  exact ⟨hf, (fsi_master_scan_link_failure env_probe_fail reg_none (.root 2) 1 0 2 []
    ⟨false, []⟩ ⟨[]⟩).2.2.2.2.2.1 hf rfl, by decide, by decide⟩

/-- A pass over a readable, CRC-valid entry, with registrations succeeding: what it does
to the running address, the hub-link count and the hub. -/
theorem body_table_hub (E : Env) (slave : fsi_slave) (tbl : Nat → Nat) (i : Nat)
    (st : ScanState) (w : World) (hi : 2 ≤ i) (hi2 : i < 256)
    (hok : ∀ log, (E.respond log .kzalloc).rc = 0 ∧ (E.respond log .device_add).rc = 0)
    (hr : (fsi_slave_read E slave ((i + 1) * 4) 4 w).1.rc = 0
      ∧ u32 (fsi_slave_read E slave ((i + 1) * 4) 4 w).1.data = tbl i)
    (hc : crc_ok (tbl i) = true)
    (ha : st.engine_addr = 3 * 0x400 + 0x400 * slots_before tbl i)
    (hl : st.conf_link_count + 2 ≤ i) :
    ∃ st' w', fsi_slave_scan_body E slave i st w
        = (if conf_next (tbl i) then Flow.next st' w' else Flow.brk st' w')
      ∧ st'.engine_addr = 3 * 0x400 + 0x400 * slots_before tbl (i + 1)
      ∧ st'.conf_link_count
        = st.conf_link_count + (if conf_type (tbl i) = 0x1d then 1 else 0)
      ∧ st'.hub = (if conf_type (tbl i) = 0x1c then
          some { n_links := 0, slave := slave,
                 control_regs := 3 * 0x400 + 0x400 * slots_before tbl i, base := 0x80000 }
        else st.hub) := by
  obtain ⟨hr1, hr2⟩ := hr
  have hk : ∀ w', (call E .kzalloc w').1.rc = 0 := fun w' => (hok _).1
  have hd : ∀ w', (call E .device_add w').1.rc = 0 := fun w' => (hok _).2
  have hsl := conf_slots_lt (tbl i)
  have hsb := slots_before_le tbl i
  have hadd : u32 (st.engine_addr + conf_slots (tbl i) * engine_page_size)
      = 3 * 0x400 + 0x400 * slots_before tbl (i + 1) := by
    rw [slots_before_succ tbl hi, ha]
    unfold engine_page_size
    rw [u32_of_lt (by omega)]
    omega
  have hu8 : u8 (st.conf_link_count + 1) = st.conf_link_count + 1 := by
    unfold u8; omega
  rw [fsi_slave_scan_body_eq]
  simp only [hr1, hr2, hc, hk, hd, scan_advance_eq, hadd, ne_eq, not_true_eq_false,
    if_false, Bool.true_eq_false]
  by_cases h0 : conf_type (tbl i) = 0
  · refine ⟨_, _, by rw [if_pos h0], rfl, ?_, ?_⟩ <;> simp [h0]
  by_cases h1 : conf_type (tbl i) = 0x1c
  · refine ⟨_, _, by rw [if_neg h0, if_pos h1], rfl, ?_, ?_⟩
    · simp [h1]
    · simp [h1, ha, FSI_HUB_LINK_OFFSET]
  by_cases h2 : conf_type (tbl i) = 0x1d
  · refine ⟨_, _, by rw [if_neg h0, if_neg h1, if_pos h2], rfl, ?_, ?_⟩
    · simp [h2, hu8]
    · simp [h2]
  by_cases h3 : conf_slots (tbl i) = 0
  · refine ⟨_, _, by rw [if_neg h0, if_neg h1, if_neg h2, if_pos h3], rfl, ?_, ?_⟩
    · simp [h2]
    · simp [h1]
  · refine ⟨_, _, by rw [if_neg h0, if_neg h1, if_neg h2, if_neg h3], rfl, ?_, ?_⟩
    · simp [h2]
    · simp [h1]

/-- With a readable, CRC-valid table and registrations succeeding, the passes from index
`i` on count the HUB_LINK entries from `i` on and keep the last HUB_MASTER entry. -/
theorem loop_table_hub (E : Env) (slave : fsi_slave) (tbl : Nat → Nat)
    (hok : ∀ log, (E.respond log .kzalloc).rc = 0 ∧ (E.respond log .device_add).rc = 0) :
    ∀ (n i : Nat) (st : ScanState) (w : World), 2 ≤ i → i + n ≤ 256 →
      (∀ j ∈ table_entries tbl (List.range' i n), ∀ w',
        (fsi_slave_read E slave ((j + 1) * 4) 4 w').1.rc = 0
          ∧ u32 (fsi_slave_read E slave ((j + 1) * 4) 4 w').1.data = tbl j) →
      (∀ j ∈ table_entries tbl (List.range' i n), crc_ok (tbl j) = true) →
      st.engine_addr = 3 * 0x400 + 0x400 * slots_before tbl i →
      st.conf_link_count + 2 ≤ i →
      (fsi_slave_scan_loop E slave i n st w).st.conf_link_count
          = st.conf_link_count + table_link_count tbl (table_entries tbl (List.range' i n))
        ∧ (fsi_slave_scan_loop E slave i n st w).st.hub
          = table_hub tbl slave (table_entries tbl (List.range' i n)) st.hub := by
  intro n
  induction n with
  | zero =>
    intro i st w _ _ _ _ _ _
    simp [fsi_slave_scan_loop, table_entries, Flow.st, table_link_count, table_hub]
  | succ n ih =>
    intro i st w hi hn hread hcrc ha hl
    have hmem : i ∈ table_entries tbl (List.range' i (n + 1)) := by
      rw [List.range'_succ]; exact table_entries_head tbl i _
    obtain ⟨st', w', hb, ha', hc', hh'⟩ :=
      body_table_hub E slave tbl i st w hi (by omega) hok (hread i hmem w) (hcrc i hmem) ha hl
    unfold fsi_slave_scan_loop
    rw [hb]
    by_cases hnx : conf_next (tbl i) = true
    · have hte : table_entries tbl (List.range' i (n + 1))
          = i :: table_entries tbl (List.range' (i + 1) n) := by
        rw [List.range'_succ]; simp [table_entries, hnx]
      rw [if_pos hnx]
      dsimp only
      have hsub : ∀ j ∈ table_entries tbl (List.range' (i + 1) n),
          j ∈ table_entries tbl (List.range' i (n + 1)) := by
        intro j hj; rw [hte]; exact List.mem_cons_of_mem _ hj
      obtain ⟨h1, h2⟩ := ih (i + 1) st' w' (by omega) (by omega)
        (fun j hj => hread j (hsub j hj)) (fun j hj => hcrc j (hsub j hj)) ha'
        (by rw [hc']; split <;> omega)
      rw [h1, h2, hte, hc', hh']
      constructor
      · by_cases h2 : conf_type (tbl i) = 0x1d <;>
          (simp [table_link_count, List.filter_cons, h2]; try omega)
      · simp only [table_hub]
    · have hte : table_entries tbl (List.range' i (n + 1)) = [i] := by
        rw [List.range'_succ]; simp [table_entries, hnx]
      rw [if_neg hnx]
      dsimp only
      rw [hte]
      simp only [Flow.st, hc', hh', table_hub]
      constructor
      · by_cases h2 : conf_type (tbl i) = 0x1d <;>
          simp [table_link_count, List.filter_cons, h2]
      · trivial

theorem table_hub_some (tbl : Nat → Nat) (slave : fsi_slave) :
    ∀ (js : List Nat) (x : fsi_master_hub), ∃ y, table_hub tbl slave js (some x) = some y := by
  intro js
  induction js with
  | nil => intro x; exact ⟨x, rfl⟩
  | cons j js ih =>
    intro x
    unfold table_hub
    split
    · exact ih _
    · exact ih x

/-- A table with a HUB_MASTER entry decides the hub by itself: what the local held before
does not matter. -/
theorem table_hub_of_entry (tbl : Nat → Nat) (slave : fsi_slave) :
    ∀ (js : List Nat) (h : Option fsi_master_hub), (∃ j ∈ js, conf_type (tbl j) = 0x1c) →
      table_hub tbl slave js h = table_hub tbl slave js none
        ∧ ∃ y, table_hub tbl slave js none = some y := by
  intro js
  induction js with
  | nil => intro h hex; obtain ⟨j, hj, _⟩ := hex; simp at hj
  | cons j js ih =>
    intro h hex
    unfold table_hub
    by_cases hj : conf_type (tbl j) = 0x1c
    · rw [if_pos hj, if_pos hj]
      exact ⟨rfl, table_hub_some tbl slave js _⟩
    · rw [if_neg hj, if_neg hj]
      have hex' : ∃ j' ∈ js, conf_type (tbl j') = 0x1c := by
        obtain ⟨j', hj', ht⟩ := hex
        rcases List.mem_cons.1 hj' with e | e
        · subst e; exact absurd ht hj
        · exact ⟨j', e, ht⟩
      exact ih h hex'

/-- C12: with a readable, CRC-valid table and allocation and registration succeeding:
when the table has a HUB_MASTER entry, the hub that `fsi_slave_scan` hands to
`fsi_master_register` is the one of the last HUB_MASTER entry with `n_links = c / 2`
rounded down, `c` being the number of HUB_LINK entries of the whole table, whatever the
local `hub` held on entry, and the scan ends with `fsi_master_register` of that hub's
master in the world the loop ended in.  In general the hub comes from the entries of the
table applied to the value the local had on entry. -/
theorem fsi_slave_scan_hub_links (E : Env) (reg : fsi_master → World → World)
    (slave : fsi_slave) (w : World) (tbl : Nat → Nat)
    (hok : ∀ log, (E.respond log .kzalloc).rc = 0 ∧ (E.respond log .device_add).rc = 0)
    (hread : ∀ j ∈ table_entries tbl (List.range' 2 254), ∀ w',
      (fsi_slave_read E slave ((j + 1) * 4) 4 w').1.rc = 0
        ∧ u32 (fsi_slave_read E slave ((j + 1) * 4) 4 w').1.data = tbl j)
    (hcrc : ∀ j ∈ table_entries tbl (List.range' 2 254), crc_ok (tbl j) = true) :
    (fsi_slave_scan E reg slave w).1.hub
        = (table_hub tbl slave (table_entries tbl (List.range' 2 254))
            (E.hub_uninit w.log)).map
            (fun h => { h with
              n_links := table_link_count tbl (table_entries tbl (List.range' 2 254)) / 2 })
      ∧ ((∃ j ∈ table_entries tbl (List.range' 2 254), conf_type (tbl j) = 0x1c) →
          ∃ h0, table_hub tbl slave (table_entries tbl (List.range' 2 254)) none = some h0
            ∧ (fsi_slave_scan E reg slave w).1.hub
              = some { h0 with
                  n_links := table_link_count tbl (table_entries tbl (List.range' 2 254)) / 2 }
            ∧ (fsi_slave_scan E reg slave w).2
              = reg ({ h0 with
                  n_links := table_link_count tbl (table_entries tbl (List.range' 2 254)) / 2 }
                    : fsi_master_hub).master
                  (fsi_slave_scan_loop E slave 2 254 (scan_init E w) w).w) := by
  have hn : engine_page_size / 4 - 2 = 254 := by decide
  have h0 : (scan_init E w).engine_addr = 3 * 0x400 + 0x400 * slots_before tbl 2 := by
    simp [scan_init, slots_before, engine_page_size]
  obtain ⟨hnr, _⟩ := loop_table E slave tbl hok 254 2 (scan_init E w) w (by omega) (by omega)
    hread hcrc h0
  obtain ⟨hc, hh⟩ := loop_table_hub E slave tbl hok 254 2 (scan_init E w) w (by omega) (by omega)
    hread hcrc h0 (by simp [scan_init])
  have hc0 : (scan_init E w).conf_link_count = 0 := rfl
  have hh0 : (scan_init E w).hub = E.hub_uninit w.log := rfl
  rw [hc0, Nat.zero_add] at hc
  rw [hh0] at hh
  have key : ∀ (st : ScanState) (w' : World),
      st.conf_link_count = table_link_count tbl (table_entries tbl (List.range' 2 254)) →
      st.hub = table_hub tbl slave (table_entries tbl (List.range' 2 254))
        (E.hub_uninit w.log) →
      ((match st.hub with
        | some hub =>
          (({ rc := 0, my_engines := st.my_engines,
              hub := some { hub with n_links := st.conf_link_count / 2 } } : ScanResult),
            reg ({ hub with n_links := st.conf_link_count / 2 } : fsi_master_hub).master w')
        | none => ({ rc := 0, my_engines := st.my_engines, hub := none }, w')).1.hub
          = (table_hub tbl slave (table_entries tbl (List.range' 2 254))
              (E.hub_uninit w.log)).map
              (fun h => { h with
                n_links := table_link_count tbl (table_entries tbl (List.range' 2 254)) / 2 }))
        ∧ ((∃ j ∈ table_entries tbl (List.range' 2 254), conf_type (tbl j) = 0x1c) →
          ∃ h0, table_hub tbl slave (table_entries tbl (List.range' 2 254)) none = some h0
            ∧ (match st.hub with
              | some hub =>
                (({ rc := 0, my_engines := st.my_engines,
                    hub := some { hub with n_links := st.conf_link_count / 2 } } : ScanResult),
                  reg ({ hub with n_links := st.conf_link_count / 2 } : fsi_master_hub).master
                    w')
              | none => ({ rc := 0, my_engines := st.my_engines, hub := none }, w')).1.hub
              = some { h0 with
                  n_links := table_link_count tbl (table_entries tbl (List.range' 2 254)) / 2 }
            ∧ (match st.hub with
              | some hub =>
                (({ rc := 0, my_engines := st.my_engines,
                    hub := some { hub with n_links := st.conf_link_count / 2 } } : ScanResult),
                  reg ({ hub with n_links := st.conf_link_count / 2 } : fsi_master_hub).master
                    w')
              | none => ({ rc := 0, my_engines := st.my_engines, hub := none }, w')).2
              = reg ({ h0 with
                  n_links := table_link_count tbl (table_entries tbl (List.range' 2 254)) / 2 }
                    : fsi_master_hub).master w') := by
    intro st w' hcl hhub
    constructor
    · rw [← hhub, hcl]
      cases hs : st.hub with
      | none => rfl
      | some hub => rfl
    · intro hex
      obtain ⟨hi, y, hy⟩ := table_hub_of_entry tbl slave _ (E.hub_uninit w.log) hex
      rw [hi, hy] at hhub
      refine ⟨y, hy, ?_, ?_⟩
      · rw [hhub, hcl]
      · rw [hhub, hcl]
  unfold fsi_slave_scan
  rw [hn]
  cases hf : fsi_slave_scan_loop E slave 2 254 (scan_init E w) w with
  | next st' w' =>
    rw [hf] at hc hh
    exact key st' w' hc hh
  | brk st' w' =>
    rw [hf] at hc hh
    exact key st' w' hc hh
  | ret rc st' w' => exact absurd hf (hnr rc st' w')

theorem table_hub6_lt (j : Nat) : table_hub6 j < 2 ^ 32 := by
  unfold table_hub6; split_ifs <;> decide

theorem table_hub6_crc (j : Nat) : crc_ok (table_hub6 j) = true := by
  unfold table_hub6; split_ifs <;> decide

theorem env_hub6_read (j : Nat) (w' : World) (hj : 2 ≤ j ∧ j < 256) :
    (fsi_slave_read env_hub6 slave0 ((j + 1) * 4) 4 w').1.rc = 0
      ∧ u32 (fsi_slave_read env_hub6 slave0 ((j + 1) * 4) 4 w').1.data = table_hub6 j := by
  have h1 : u32 ((j + 1) * 4) = (j + 1) * 4 := u32_of_lt (by omega)
  have h2 : (j + 1) * 4 / 4 - 1 = j := by omega
  simp only [fsi_slave_read, slave0, master_read, call, env_hub6, h1, h2,
    u32_of_lt (table_hub6_lt j), and_self]

set_option maxRecDepth 100000 in
theorem fsi_slave_scan_hub_links_witness :
    (∃ h0, table_hub table_hub6 slave0 (table_entries table_hub6 (List.range' 2 254)) none
          = some h0
        ∧ (fsi_slave_scan env_hub6 (fsi_master_register env_hub6 2) slave0 ⟨[]⟩).1.hub
          = some { h0 with
              n_links :=
                table_link_count table_hub6 (table_entries table_hub6 (List.range' 2 254)) / 2 }
        ∧ (fsi_slave_scan env_hub6 (fsi_master_register env_hub6 2) slave0 ⟨[]⟩).2
          = fsi_master_register env_hub6 2 ({ h0 with
              n_links :=
                table_link_count table_hub6 (table_entries table_hub6 (List.range' 2 254)) / 2 }
                : fsi_master_hub).master
              (fsi_slave_scan_loop env_hub6 slave0 2 254 (scan_init env_hub6 ⟨[]⟩) ⟨[]⟩).w)
      ∧ table_link_count table_hub6 (table_entries table_hub6 (List.range' 2 254)) = 6
      ∧ (fsi_slave_scan env_hub6 (fsi_master_register env_hub6 2) slave0 ⟨[]⟩).1.hub
        = some ⟨3, slave0, 0xC00, 0x80000⟩
      ∧ ((fsi_slave_scan env_hub6 (fsi_master_register env_hub6 2) slave0 ⟨[]⟩).2.log.filter
            (fun op => op = .write 0 0 0xC18 0x80000000 4 ∨ op = .write 0 0 0xC18 0x40000000 4
              ∨ op = .write 0 0 0xC18 0x20000000 4)).length = 3
      ∧ ((fsi_slave_scan env_hub6 (fsi_master_register env_hub6 2) slave0 ⟨[]⟩).2.log.filter
            (fun op => op = .read 0 0 0x80800 4 ∨ op = .read 0 0 0x100800 4
              ∨ op = .read 0 0 0x180800 4)).length = 3
      ∧ ((fsi_slave_scan env_hub6 (fsi_master_register env_hub6 2) slave0 ⟨[]⟩).2.log.filter
            (fun op => op = .kzalloc)).length = 4 :=
  ⟨(fsi_slave_scan_hub_links env_hub6 (fsi_master_register env_hub6 2) slave0 ⟨[]⟩ table_hub6
      (fun _ => ⟨rfl, rfl⟩)
      (fun j hj w' => env_hub6_read j w'
        (by have := table_entries_sub table_hub6 _ j hj; simp [List.mem_range'] at this; omega))
      (fun j _ => table_hub6_crc j)).2 ⟨2, by decide, by decide⟩,
    by decide, by decide, by decide, by decide, by decide⟩

/-- C13, what the code does: the first access of `hub_master_init` fails, and the scan
still returns 0 with the hub, of three links, handed to `fsi_master_register`, which
draws an index for it and enables its three links. -/
theorem hub_init_failure_still_registers :
    (∀ w, (hub_master_init env_hub_init_fail ⟨0, slave0, 0xC00, FSI_HUB_LINK_OFFSET⟩ w).1
        = - EIO)
      ∧ (fsi_slave_scan env_hub_init_fail (fsi_master_register env_hub_init_fail 2) slave0
          ⟨[]⟩).1 = ⟨0, [], some ⟨3, slave0, 0xC00, 0x80000⟩⟩
      ∧ Op.ida_simple_get ∈ (fsi_slave_scan env_hub_init_fail
          (fsi_master_register env_hub_init_fail 2) slave0 ⟨[]⟩).2.log
      ∧ ((fsi_slave_scan env_hub_init_fail (fsi_master_register env_hub_init_fail 2) slave0
          ⟨[]⟩).2.log.filter
            (fun op => op = .write 0 0 0xC18 0x80000000 4 ∨ op = .write 0 0 0xC18 0x40000000 4
              ∨ op = .write 0 0 0xC18 0x20000000 4)).length = 3 := by
  refine ⟨?_, by decide, by decide, by decide⟩
  intro w
  simp [hub_master_init, fsi_slave_read, slave0, master_read, call, env_hub_init_fail,
    regs_sample, u32, EIO]

theorem not32_lt (x : Nat) : not32 x < 2 ^ 32 := by
  unfold not32
  exact Nat.xor_lt_two_pow (u32_lt x) (by decide)

/-- Setting and then clearing the bits of `b` in a 32-bit word that had none of them set
gives the word back. -/
theorem or_and_not32 (x b : Nat) (hx : x < 2 ^ 32) (hb : b < 2 ^ 32) (h : x &&& b = 0) :
    (x ||| b) &&& not32 b = x := by
  unfold not32
  rw [u32_of_lt hb]
  apply Nat.eq_of_testBit_eq
  intro i
  have h1 : (x &&& b).testBit i = false := by rw [h]; simp
  have h2 : (0xffffffff : Nat) = 2 ^ 32 - 1 := by decide
  simp only [Nat.testBit_and, Nat.testBit_or, Nat.testBit_xor, h2,
    Nat.testBit_two_pow_sub_one] at h1 ⊢
  by_cases hi : i < 32
  · cases hxi : x.testBit i <;> cases hbi : b.testBit i <;> simp_all
  · have hxi : x.testBit i = false :=
      Nat.testBit_lt_two_pow (Nat.lt_of_lt_of_le hx (Nat.pow_le_pow_right (by decide) (by omega)))
    have hbi : b.testBit i = false :=
      Nat.testBit_lt_two_pow (Nat.lt_of_lt_of_le hb (Nat.pow_le_pow_right (by decide) (by omega)))
    simp [hxi, hbi, hi]

/-! ### Enabling and disabling an engine's interrupt -/

theorem hub_ne_upstream (n : Nat) (sm : fsi_master) (sl si c b : Nat) :
    fsi_master.hub n sm sl si c b ≠ sm := by
  intro h
  have := congrArg sizeOf h
  simp at this
  omega

theorem mem_cell_read (init : Nat → Nat → Nat → Nat) (l i a sz : Nat) (log : List Op) :
    mem_cell init (.read l i a sz :: log) = mem_cell init log := by
  funext c
  simp only [mem_cell, mem_at]

theorem mem_cell_write (init : Nat → Nat → Nat → Nat) (l i a v sz : Nat) (log : List Op) :
    mem_cell init (.write l i a v sz :: log) = Function.update (mem_cell init log) (l, i, a) v := by
  funext c
  obtain ⟨l', i', a'⟩ := c
  simp only [mem_cell, mem_at, Function.update_apply, Prod.mk.injEq]
  by_cases h : l = l' ∧ i = i' ∧ a = a'
  · rw [if_pos h, if_pos ⟨h.1.symm, h.2.1.symm, h.2.2.symm⟩]
  · rw [if_neg h, if_neg (fun h' => h ⟨h'.1.symm, h'.2.1.symm, h'.2.2.symm⟩)]

theorem master_read_mem (E : Env) (init : Nat → Nat → Nat → Nat)
    (hE : E.respond = (env_mem init E.regs).respond) :
    ∀ (m : fsi_master) (l i a sz : Nat) (w : World),
      (master_read E m l i a sz w).1 = ⟨0, mem_cell init w.log (root_cell m l i a)⟩
        ∧ mem_cell init (master_read E m l i a sz w).2.log = mem_cell init w.log := by
  intro m
  induction m with
  | root n =>
    intro l i a sz w
    simp only [master_read, call, root_cell, hE, env_mem, mem_cell, mem_cell_read, and_self]
  | hub n sm sl si c b ih =>
    intro l i a sz w
    unfold master_read root_cell
    exact ih _ _ _ _ _

theorem master_write_mem (E : Env) (init : Nat → Nat → Nat → Nat)
    (hE : E.respond = (env_mem init E.regs).respond) :
    ∀ (m : fsi_master) (l i a v sz : Nat) (w : World),
      (master_write E m l i a v sz w).1.rc = 0
        ∧ mem_cell init (master_write E m l i a v sz w).2.log
          = Function.update (mem_cell init w.log) (root_cell m l i a) v := by
  intro m
  induction m with
  | root n =>
    intro l i a v sz w
    simp only [master_write, call, root_cell, hE, env_mem, true_and]
    exact mem_cell_write init l i a v sz w.log
  | hub n sm sl si c b ih =>
    intro l i a v sz w
    unfold master_write root_cell
    exact ih _ _ _ _ _ _

theorem set_upstream_irq_masks_nop (E : Env) (idx : fsi_master → Int) (master : fsi_master)
    (slave : fsi_slave) (on_ : Bool) (ipoll : fsi_master → Nat) (w : World)
    (hidx : idx master ≤ 0) :
    set_upstream_irq_masks E idx master slave on_ ipoll w = (0, ipoll, w) := by
  unfold set_upstream_irq_masks
  rw [if_pos hidx]

theorem fsi_enable_irq_mem (E : Env) (init : Nat → Nat → Nat → Nat)
    (hE : E.respond = (env_mem init E.regs).respond)
    (idx : fsi_master → Int) (m : fsi_master) (link id et ver un ad sz sb : Nat)
    (ipoll : fsi_master → Nat) (w : World) :
    fsi_enable_irq E idx ⟨⟨m, link, id⟩, et, ver, un, ad, sz, sb, true⟩ ipoll w
      = set_upstream_irq_masks E idx m ⟨m, link, id⟩ true
          (Function.update ipoll m
            (ipoll m ||| si1s_mask E ⟨⟨m, link, id⟩, et, ver, un, ad, sz, sb, true⟩))
          (master_write E m link 0 (FSI_SLAVE_BASE + FSI_SI1M)
            (u32 (mem_cell init w.log (root_cell m link 0 (FSI_SLAVE_BASE + FSI_SI1M)))
              ||| si1s_mask E ⟨⟨m, link, id⟩, et, ver, un, ad, sz, sb, true⟩) 4
            (master_read E m link 0 (FSI_SLAVE_BASE + FSI_SI1M) 4 w).2).2 := by
  unfold fsi_enable_irq
  simp only [(master_read_mem E init hE _ _ _ _ _ _).1, (master_write_mem E init hE _ _ _ _ _ _ _).1,
    ne_eq, not_true_eq_false, if_false, Bool.true_eq_false]

theorem fsi_disable_irq_mem (E : Env) (init : Nat → Nat → Nat → Nat)
    (hE : E.respond = (env_mem init E.regs).respond)
    (idx : fsi_master → Int) (m : fsi_master) (link id et ver un ad sz sb : Nat) (ih : Bool)
    (ipoll : fsi_master → Nat) (w : World) :
    fsi_disable_irq E idx ⟨⟨m, link, id⟩, et, ver, un, ad, sz, sb, ih⟩ ipoll w
      = if ipoll m &&& not32 (si1s_mask E ⟨⟨m, link, id⟩, et, ver, un, ad, sz, sb, ih⟩) = 0 then
          (set_upstream_irq_masks E idx m ⟨m, link, id⟩ false
            (Function.update ipoll m
              (ipoll m &&& not32 (si1s_mask E ⟨⟨m, link, id⟩, et, ver, un, ad, sz, sb, ih⟩)))
            (master_write E m link 0 (FSI_SLAVE_BASE + FSI_SI1M)
              (u32 (mem_cell init w.log (root_cell m link 0 (FSI_SLAVE_BASE + FSI_SI1M)))
                &&& not32 (si1s_mask E ⟨⟨m, link, id⟩, et, ver, un, ad, sz, sb, ih⟩)) 4
              (master_read E m link 0 (FSI_SLAVE_BASE + FSI_SI1M) 4 w).2).2).2
        else
          (Function.update ipoll m
              (ipoll m &&& not32 (si1s_mask E ⟨⟨m, link, id⟩, et, ver, un, ad, sz, sb, ih⟩)),
            (master_write E m link 0 (FSI_SLAVE_BASE + FSI_SI1M)
              (u32 (mem_cell init w.log (root_cell m link 0 (FSI_SLAVE_BASE + FSI_SI1M)))
                &&& not32 (si1s_mask E ⟨⟨m, link, id⟩, et, ver, un, ad, sz, sb, ih⟩)) 4
              (master_read E m link 0 (FSI_SLAVE_BASE + FSI_SI1M) 4 w).2).2) := by
  unfold fsi_disable_irq
  simp only [(master_read_mem E init hE _ _ _ _ _ _).1, (master_write_mem E init hE _ _ _ _ _ _ _).1,
    ne_eq, not_true_eq_false, if_false, Function.update_same]
theorem set_upstream_irq_masks_hub (E : Env) (init : Nat → Nat → Nat → Nat)
    (hE : E.respond = (env_mem init E.regs).respond)
    (idx : fsi_master → Int) (n : Nat) (U : fsi_master) (sl si c b link id : Nat)
    (on_ : Bool) (ipoll : fsi_master → Nat) (w : World)
    (hidx : 0 < idx (.hub n U sl si c b))
    (M M1 M2 M3 M4 : Nat × Nat × Nat → Nat)
    (hM : mem_cell init w.log = M)
    (hM1 : Function.update M (root_cell U sl si (u32 (FSI_SLAVE_BASE + FSI_SRSIM0)))
      (if on_ then u32 (M (root_cell U sl si (u32 (FSI_SLAVE_BASE + FSI_SRSIM0))))
          ||| link_to_srsim_mask E link
        else u32 (M (root_cell U sl si (u32 (FSI_SLAVE_BASE + FSI_SRSIM0))))
          &&& not32 (link_to_srsim_mask E link)) = M1)
    (hM2 : Function.update M1 (root_cell U 0 0 (u32 (FSI_HUB_CONTROL + E.regs.FSI_MSIEP0)))
      (if on_ then u32 (M1 (root_cell U 0 0 (u32 (FSI_HUB_CONTROL + E.regs.FSI_MSIEP0))))
          ||| link_to_msiep_mask E link
        else u32 (M1 (root_cell U 0 0 (u32 (FSI_HUB_CONTROL + E.regs.FSI_MSIEP0))))
          &&& not32 (link_to_msiep_mask E link)) = M2)
    (hM3 : Function.update M2 (root_cell U 0 0 (u32 (FSI_HUB_CONTROL + E.regs.FSI_MMODE)))
      0xd0040410 = M3)
    (hM4 : Function.update M3 (root_cell U 0 0 (FSI_SLAVE_BASE + FSI_SI1M))
      FSI_SI1_HUB_SRC = M4) :
    (set_upstream_irq_masks E idx (.hub n U sl si c b) ⟨.hub n U sl si c b, link, id⟩ on_
        ipoll w).1 = 0
      ∧ (set_upstream_irq_masks E idx (.hub n U sl si c b) ⟨.hub n U sl si c b, link, id⟩ on_
        ipoll w).2.1
        = Function.update ipoll U
          (if on_ then ipoll U ||| FSI_SI1_HUB_SRC else ipoll U &&& not32 FSI_SI1_HUB_SRC)
      ∧ mem_cell init (set_upstream_irq_masks E idx (.hub n U sl si c b)
          ⟨.hub n U sl si c b, link, id⟩ on_ ipoll w).2.2.log
        = Function.update M4 (root_cell U sl si (u32 (FSI_SLAVE_BASE + FSI_SI1M)))
          (if on_ then u32 (M4 (root_cell U sl si (u32 (FSI_SLAVE_BASE + FSI_SI1M))))
              ||| FSI_SI1_HUB_SRC
            else u32 (M4 (root_cell U sl si (u32 (FSI_SLAVE_BASE + FSI_SI1M))))
              &&& not32 FSI_SI1_HUB_SRC) := by
  subst hM hM1 hM2 hM3 hM4
  unfold set_upstream_irq_masks
  rw [if_neg (by omega)]
  simp only [fsi_slave_read, fsi_slave_write, set_si1m,
    (master_read_mem E init hE _ _ _ _ _ _).1, (master_read_mem E init hE _ _ _ _ _ _).2,
    (master_write_mem E init hE _ _ _ _ _ _ _).1, (master_write_mem E init hE _ _ _ _ _ _ _).2,
    ne_eq, not_true_eq_false, if_false, true_and]
theorem irq_round_trip_nop (E : Env) (init : Nat → Nat → Nat → Nat)
    (hE : E.respond = (env_mem init E.regs).respond)
    (idx : fsi_master → Int) (m : fsi_master) (link id et ver un ad sz sb : Nat)
    (ipoll : fsi_master → Nat) (w : World)
    (hidx : idx m ≤ 0)
    (hv : mem_cell init w.log (root_cell m link 0 (FSI_SLAVE_BASE + FSI_SI1M)) < 2 ^ 32)
    (hclear : mem_cell init w.log (root_cell m link 0 (FSI_SLAVE_BASE + FSI_SI1M))
      &&& si1s_mask E ⟨⟨m, link, id⟩, et, ver, un, ad, sz, sb, true⟩ = 0)
    (hp : ipoll m < 2 ^ 32)
    (hpclear : ipoll m &&& si1s_mask E ⟨⟨m, link, id⟩, et, ver, un, ad, sz, sb, true⟩ = 0) :
    (fsi_enable_irq E idx ⟨⟨m, link, id⟩, et, ver, un, ad, sz, sb, true⟩ ipoll w).1 = 0
      ∧ (irq_calls E idx [(true, ⟨⟨m, link, id⟩, et, ver, un, ad, sz, sb, true⟩),
            (false, ⟨⟨m, link, id⟩, et, ver, un, ad, sz, sb, true⟩)] ipoll w).1 = ipoll
      ∧ mem_cell init (irq_calls E idx [(true, ⟨⟨m, link, id⟩, et, ver, un, ad, sz, sb, true⟩),
            (false, ⟨⟨m, link, id⟩, et, ver, un, ad, sz, sb, true⟩)] ipoll w).2.log
          = mem_cell init w.log := by
  have hb := si1s_mask_lt E ⟨⟨m, link, id⟩, et, ver, un, ad, sz, sb, true⟩
  have he := fsi_enable_irq_mem E init hE idx m link id et ver un ad sz sb ipoll w
  have hd := fun ip w' => fsi_disable_irq_mem E init hE idx m link id et ver un ad sz sb true
    ip w'
  generalize si1s_mask E ⟨⟨m, link, id⟩, et, ver, un, ad, sz, sb, true⟩ = bit at *
  generalize hc1 : root_cell m link 0 (FSI_SLAVE_BASE + FSI_SI1M) = c1 at *
  generalize hM : mem_cell init w.log = M at *
  rw [set_upstream_irq_masks_nop E idx m _ _ _ _ hidx] at he
  have hw1 : mem_cell init (master_write E m link 0 (FSI_SLAVE_BASE + FSI_SI1M)
      (u32 (M c1) ||| bit) 4 (master_read E m link 0 (FSI_SLAVE_BASE + FSI_SI1M) 4 w).2).2.log
      = Function.update M c1 (M c1 ||| bit) := by
    rw [(master_write_mem E init hE _ _ _ _ _ _ _).2, (master_read_mem E init hE _ _ _ _ _ _).2,
      hM, hc1, u32_of_lt hv]
  generalize (master_write E m link 0 (FSI_SLAVE_BASE + FSI_SI1M)
      (u32 (M c1) ||| bit) 4 (master_read E m link 0 (FSI_SLAVE_BASE + FSI_SI1M) 4 w).2).2
      = w1 at he hw1
  have hor : M c1 ||| bit < 2 ^ 32 := Nat.or_lt_two_pow hv hb
  have hip : Function.update (Function.update ipoll m (ipoll m ||| bit)) m
      ((ipoll m ||| bit) &&& not32 bit) = ipoll := by
    rw [Function.update_idem, or_and_not32 _ _ hp hb hpclear, Function.update_eq_self]
  have hw2 : mem_cell init (master_write E m link 0 (FSI_SLAVE_BASE + FSI_SI1M)
      (u32 (mem_cell init w1.log c1) &&& not32 bit) 4
        (master_read E m link 0 (FSI_SLAVE_BASE + FSI_SI1M) 4 w1).2).2.log = M := by
    rw [(master_write_mem E init hE _ _ _ _ _ _ _).2, (master_read_mem E init hE _ _ _ _ _ _).2,
      hw1, hc1, Function.update_same, u32_of_lt hor, or_and_not32 _ _ hv hb hclear,
      Function.update_idem, Function.update_eq_self]
  replace hd := hd (Function.update ipoll m (ipoll m ||| bit)) w1
  simp only [Function.update_same, hip] at hd
  rw [set_upstream_irq_masks_nop E idx m _ _ _ _ hidx, ite_self] at hd
  simp only [irq_calls, he, hd]
  exact ⟨trivial, trivial, hw2⟩
theorem hub_src_bits :
    FSI_SI1_HUB_SRC < 2 ^ 32 ∧ u32 FSI_SI1_HUB_SRC ||| FSI_SI1_HUB_SRC = FSI_SI1_HUB_SRC
      ∧ u32 FSI_SI1_HUB_SRC &&& not32 FSI_SI1_HUB_SRC = 0
      ∧ u32 (FSI_SLAVE_BASE + FSI_SI1M) = FSI_SLAVE_BASE + FSI_SI1M := by
  refine ⟨by decide, by decide, by decide, by decide⟩

theorem irq_round_trip_hub_first (E : Env) (init : Nat → Nat → Nat → Nat)
    (hE : E.respond = (env_mem init E.regs).respond)
    (idx : fsi_master → Int) (n : Nat) (U : fsi_master) (c b link id et ver un ad sz sb : Nat)
    (ipoll : fsi_master → Nat) (w : World)
    (hidx : 0 < idx (.hub n U 0 0 c b))
    (hv : mem_cell init w.log (root_cell (.hub n U 0 0 c b) link 0 (FSI_SLAVE_BASE + FSI_SI1M))
      < 2 ^ 32)
    (hclear : mem_cell init w.log
        (root_cell (.hub n U 0 0 c b) link 0 (FSI_SLAVE_BASE + FSI_SI1M))
      &&& si1s_mask E ⟨⟨.hub n U 0 0 c b, link, id⟩, et, ver, un, ad, sz, sb, true⟩ = 0)
    (hpH : ipoll (.hub n U 0 0 c b) = 0)
    (hpU : ipoll U < 2 ^ 32) (hpUc : ipoll U &&& FSI_SI1_HUB_SRC = 0)
    (h2 : mem_cell init w.log (root_cell U 0 0 (u32 (FSI_SLAVE_BASE + FSI_SRSIM0))) < 2 ^ 32)
    (h2c : mem_cell init w.log (root_cell U 0 0 (u32 (FSI_SLAVE_BASE + FSI_SRSIM0)))
      &&& link_to_srsim_mask E link = 0)
    (h3 : mem_cell init w.log (root_cell U 0 0 (u32 (FSI_HUB_CONTROL + E.regs.FSI_MSIEP0)))
      < 2 ^ 32)
    (h3c : mem_cell init w.log (root_cell U 0 0 (u32 (FSI_HUB_CONTROL + E.regs.FSI_MSIEP0)))
      &&& link_to_msiep_mask E link = 0)
    (h5 : mem_cell init w.log (root_cell U 0 0 (FSI_SLAVE_BASE + FSI_SI1M)) = 0)
    (hnd : [root_cell (.hub n U 0 0 c b) link 0 (FSI_SLAVE_BASE + FSI_SI1M),
        root_cell U 0 0 (u32 (FSI_SLAVE_BASE + FSI_SRSIM0)),
        root_cell U 0 0 (u32 (FSI_HUB_CONTROL + E.regs.FSI_MSIEP0)),
        root_cell U 0 0 (u32 (FSI_HUB_CONTROL + E.regs.FSI_MMODE)),
        root_cell U 0 0 (FSI_SLAVE_BASE + FSI_SI1M)].Nodup) :
    (fsi_enable_irq E idx ⟨⟨.hub n U 0 0 c b, link, id⟩, et, ver, un, ad, sz, sb, true⟩
        ipoll w).1 = 0
      ∧ (irq_calls E idx
          [(true, ⟨⟨.hub n U 0 0 c b, link, id⟩, et, ver, un, ad, sz, sb, true⟩),
            (false, ⟨⟨.hub n U 0 0 c b, link, id⟩, et, ver, un, ad, sz, sb, true⟩)]
          ipoll w).1 = ipoll
      ∧ mem_cell init (irq_calls E idx
          [(true, ⟨⟨.hub n U 0 0 c b, link, id⟩, et, ver, un, ad, sz, sb, true⟩),
            (false, ⟨⟨.hub n U 0 0 c b, link, id⟩, et, ver, un, ad, sz, sb, true⟩)]
          ipoll w).2.log
        = Function.update (mem_cell init w.log)
            (root_cell U 0 0 (u32 (FSI_HUB_CONTROL + E.regs.FSI_MMODE))) 0xd0040410 := by
  obtain ⟨hH, hH1, hH2, e818⟩ := hub_src_bits
  have hne := hub_ne_upstream n U 0 0 c b
  have hb := si1s_mask_lt E ⟨⟨.hub n U 0 0 c b, link, id⟩, et, ver, un, ad, sz, sb, true⟩
  have hm2 : link_to_srsim_mask E link < 2 ^ 32 := shr32_lt E _ _
  have hm3 : link_to_msiep_mask E link < 2 ^ 32 := shr32_lt E _ _
  have he := fsi_enable_irq_mem E init hE idx (.hub n U 0 0 c b) link id et ver un ad sz sb
    ipoll w
  have hd := fun ip w' => fsi_disable_irq_mem E init hE idx (.hub n U 0 0 c b) link id et ver
    un ad sz sb true ip w'
  have hu := fun on_ ip w' => set_upstream_irq_masks_hub E init hE idx n U 0 0 c b link id on_
    ip w' hidx
  simp only [e818] at hu
  generalize si1s_mask E ⟨⟨.hub n U 0 0 c b, link, id⟩, et, ver, un, ad, sz, sb, true⟩
    = bit at *
  generalize link_to_srsim_mask E link = m2 at *
  generalize link_to_msiep_mask E link = m3 at *
  generalize hc1 : root_cell (.hub n U 0 0 c b) link 0 (FSI_SLAVE_BASE + FSI_SI1M) = c1 at *
  generalize root_cell U 0 0 (u32 (FSI_SLAVE_BASE + FSI_SRSIM0)) = c2 at *
  generalize root_cell U 0 0 (u32 (FSI_HUB_CONTROL + E.regs.FSI_MSIEP0)) = c3 at *
  generalize root_cell U 0 0 (u32 (FSI_HUB_CONTROL + E.regs.FSI_MMODE)) = c4 at *
  generalize root_cell U 0 0 (FSI_SLAVE_BASE + FSI_SI1M) = c5 at *
  generalize hM : mem_cell init w.log = M at *
  simp only [List.nodup_cons, List.mem_cons, List.mem_singleton, not_or, List.not_mem_nil,
    not_false_eq_true, List.nodup_nil, and_true] at hnd
  obtain ⟨⟨n12, n13, n14, n15⟩, ⟨n23, n24, n25⟩, ⟨n34, n35⟩, n45⟩ := hnd
  generalize fsi_master.hub n U 0 0 c b = H at *
  simp only [irq_calls]
  have hor1 : M c1 ||| bit < 2 ^ 32 := Nat.or_lt_two_pow hv hb
  have hor2 : M c2 ||| m2 < 2 ^ 32 := Nat.or_lt_two_pow h2 hm2
  have hor3 : M c3 ||| m3 < 2 ^ 32 := Nat.or_lt_two_pow h3 hm3
  have hb1 := or_and_not32 _ _ hv hb hclear
  have hb2 := or_and_not32 _ _ h2 hm2 h2c
  have hb3 := or_and_not32 _ _ h3 hm3 h3c
  have hbU := or_and_not32 _ _ hpU hH hpUc
  have hbz : (ipoll H ||| bit) &&& not32 bit = 0 := by
    rw [hpH]; exact or_and_not32 0 bit (by decide) hb (Nat.zero_and _)
  have hw1 : mem_cell init (master_write E H link 0 (FSI_SLAVE_BASE + FSI_SI1M)
      (u32 (M c1) ||| bit) 4 (master_read E H link 0 (FSI_SLAVE_BASE + FSI_SI1M) 4 w).2).2.log
      = Function.update M c1 (M c1 ||| bit) := by
    rw [(master_write_mem E init hE _ _ _ _ _ _ _).2, (master_read_mem E init hE _ _ _ _ _ _).2,
      hM, hc1, u32_of_lt hv]
  generalize (master_write E H link 0 (FSI_SLAVE_BASE + FSI_SI1M)
      (u32 (M c1) ||| bit) 4 (master_read E H link 0 (FSI_SLAVE_BASE + FSI_SI1M) 4 w).2).2
      = w1 at he hw1
  obtain ⟨r1, r2, r3⟩ := hu true (Function.update ipoll H (ipoll H ||| bit)) w1 _ _ _ _ _
    hw1 rfl rfl rfl rfl
  rw [← he] at r1 r2 r3
  generalize fsi_enable_irq E idx ⟨⟨H, link, id⟩, et, ver, un, ad, sz, sb, true⟩ ipoll w
    = re at *
  obtain ⟨rc, ip2, w2⟩ := re
  simp only at r1 r2 r3
  simp only [if_true, Function.update_same, Function.update_idem,
    Function.update_noteq (Ne.symm n12), Function.update_noteq (Ne.symm n13),
    Function.update_noteq (Ne.symm n23), u32_of_lt h2, u32_of_lt h3, hH1] at r2 r3
  have hw3 : mem_cell init (master_write E H link 0 (FSI_SLAVE_BASE + FSI_SI1M)
      (u32 (mem_cell init w2.log c1) &&& not32 bit) 4
        (master_read E H link 0 (FSI_SLAVE_BASE + FSI_SI1M) 4 w2).2).2.log
      = Function.update (mem_cell init w2.log) c1 (M c1) := by
    rw [(master_write_mem E init hE _ _ _ _ _ _ _).2, (master_read_mem E init hE _ _ _ _ _ _).2,
      hc1, r3, Function.update_noteq n15, Function.update_noteq n14, Function.update_noteq n13,
      Function.update_noteq n12, Function.update_same, u32_of_lt hor1, hb1]
  have hd2 := hd ip2 w2
  generalize (master_write E H link 0 (FSI_SLAVE_BASE + FSI_SI1M)
      (u32 (mem_cell init w2.log c1) &&& not32 bit) 4
        (master_read E H link 0 (FSI_SLAVE_BASE + FSI_SI1M) 4 w2).2).2 = w3 at hd2 hw3
  have hip2H : ip2 H = ipoll H ||| bit := by
    rw [r2, Function.update_noteq hne, Function.update_same]
  have hip2U : ip2 U = ipoll U ||| FSI_SI1_HUB_SRC := by
    rw [r2, Function.update_same, Function.update_noteq hne.symm]
  rw [hip2H, hbz, if_pos rfl] at hd2
  obtain ⟨q1, q2, q3⟩ := hu false (Function.update ip2 H 0) w3 _ _ _ _ _ hw3 rfl rfl rfl rfl
  rw [hd2]
  refine ⟨r1, ?_, ?_⟩
  · rw [q2]
    funext x
    simp only [Function.update_apply, Bool.false_eq_true, if_false, hip2U, hbU,
      if_neg hne.symm]
    by_cases hxU : x = U
    · rw [if_pos hxU, hxU]
    · rw [if_neg hxU]
      by_cases hxH : x = H
      · rw [if_pos hxH, hxH, hpH]
      · rw [if_neg hxH, r2, Function.update_noteq hxU, Function.update_noteq hxH]
  · rw [r3] at q3
    simp only [Bool.false_eq_true, if_false, Function.update_same,
      Function.update_noteq (Ne.symm n12), Function.update_noteq (Ne.symm n13),
      Function.update_noteq (Ne.symm n23), Function.update_noteq (Ne.symm n14),
      Function.update_noteq (Ne.symm n15), Function.update_noteq (Ne.symm n24),
      Function.update_noteq (Ne.symm n25), Function.update_noteq (Ne.symm n34),
      Function.update_noteq (Ne.symm n35), Function.update_noteq (Ne.symm n45),
      Function.update_noteq n12, Function.update_noteq n13, Function.update_noteq n14,
      Function.update_noteq n15, Function.update_noteq n23, Function.update_noteq n24,
      Function.update_noteq n25, Function.update_noteq n34, Function.update_noteq n35,
      Function.update_noteq n45, u32_of_lt hor2, u32_of_lt hor3, hb2, hb3, hH2] at q3
    rw [q3]
    funext x
    simp only [Function.update_apply]
    have s12 := Ne.symm n12
    have s13 := Ne.symm n13
    have s14 := Ne.symm n14
    have s15 := Ne.symm n15
    have s23 := Ne.symm n23
    have s24 := Ne.symm n24
    have s25 := Ne.symm n25
    have s34 := Ne.symm n34
    have s35 := Ne.symm n35
    have s45 := Ne.symm n45
    simp only [ne_eq] at s12 s13 s14 s15 s23 s24 s25 s34 s35 s45
    by_cases x5 : x = c5
    · subst x5
      simp only [if_true, if_false, n45, s45, h5]
    by_cases x4 : x = c4
    · subst x4
      simp only [if_true, if_false, x5]
    by_cases x3 : x = c3
    · subst x3
      simp only [if_true, if_false, x5, x4]
    by_cases x2 : x = c2
    · subst x2
      simp only [if_true, if_false, x5, x4, x3]
    by_cases x1 : x = c1
    · subst x1
      simp only [if_true, if_false, x5, x4, x3, x2]
    simp only [if_false, x5, x4, x3, x2, x1]
theorem irq_round_trip_hub_next (E : Env) (init : Nat → Nat → Nat → Nat)
    (hE : E.respond = (env_mem init E.regs).respond)
    (idx : fsi_master → Int) (n : Nat) (U : fsi_master) (c b link id et ver un ad sz sb : Nat)
    (ipoll : fsi_master → Nat) (w : World)
    (hidx : 0 < idx (.hub n U 0 0 c b))
    (hv : mem_cell init w.log (root_cell (.hub n U 0 0 c b) link 0 (FSI_SLAVE_BASE + FSI_SI1M))
      < 2 ^ 32)
    (hclear : mem_cell init w.log
        (root_cell (.hub n U 0 0 c b) link 0 (FSI_SLAVE_BASE + FSI_SI1M))
      &&& si1s_mask E ⟨⟨.hub n U 0 0 c b, link, id⟩, et, ver, un, ad, sz, sb, true⟩ = 0)
    (hp : ipoll (.hub n U 0 0 c b) < 2 ^ 32)
    (hpclear : ipoll (.hub n U 0 0 c b)
      &&& si1s_mask E ⟨⟨.hub n U 0 0 c b, link, id⟩, et, ver, un, ad, sz, sb, true⟩ = 0)
    (hpH : ipoll (.hub n U 0 0 c b) ≠ 0)
    (hpU : ipoll U ||| FSI_SI1_HUB_SRC = ipoll U)
    (h2 : mem_cell init w.log (root_cell U 0 0 (u32 (FSI_SLAVE_BASE + FSI_SRSIM0))) < 2 ^ 32)
    (h2c : mem_cell init w.log (root_cell U 0 0 (u32 (FSI_SLAVE_BASE + FSI_SRSIM0)))
        ||| link_to_srsim_mask E link
      = mem_cell init w.log (root_cell U 0 0 (u32 (FSI_SLAVE_BASE + FSI_SRSIM0))))
    (h3 : mem_cell init w.log (root_cell U 0 0 (u32 (FSI_HUB_CONTROL + E.regs.FSI_MSIEP0)))
      < 2 ^ 32)
    (h3c : mem_cell init w.log (root_cell U 0 0 (u32 (FSI_HUB_CONTROL + E.regs.FSI_MSIEP0)))
        ||| link_to_msiep_mask E link
      = mem_cell init w.log (root_cell U 0 0 (u32 (FSI_HUB_CONTROL + E.regs.FSI_MSIEP0))))
    (h5 : mem_cell init w.log (root_cell U 0 0 (FSI_SLAVE_BASE + FSI_SI1M)) = FSI_SI1_HUB_SRC)
    (hnd : [root_cell (.hub n U 0 0 c b) link 0 (FSI_SLAVE_BASE + FSI_SI1M),
        root_cell U 0 0 (u32 (FSI_SLAVE_BASE + FSI_SRSIM0)),
        root_cell U 0 0 (u32 (FSI_HUB_CONTROL + E.regs.FSI_MSIEP0)),
        root_cell U 0 0 (u32 (FSI_HUB_CONTROL + E.regs.FSI_MMODE)),
        root_cell U 0 0 (FSI_SLAVE_BASE + FSI_SI1M)].Nodup) :
    (fsi_enable_irq E idx ⟨⟨.hub n U 0 0 c b, link, id⟩, et, ver, un, ad, sz, sb, true⟩
        ipoll w).1 = 0
      ∧ (irq_calls E idx
          [(true, ⟨⟨.hub n U 0 0 c b, link, id⟩, et, ver, un, ad, sz, sb, true⟩),
            (false, ⟨⟨.hub n U 0 0 c b, link, id⟩, et, ver, un, ad, sz, sb, true⟩)]
          ipoll w).1 = ipoll
      ∧ mem_cell init (irq_calls E idx
          [(true, ⟨⟨.hub n U 0 0 c b, link, id⟩, et, ver, un, ad, sz, sb, true⟩),
            (false, ⟨⟨.hub n U 0 0 c b, link, id⟩, et, ver, un, ad, sz, sb, true⟩)]
          ipoll w).2.log
        = Function.update (mem_cell init w.log)
            (root_cell U 0 0 (u32 (FSI_HUB_CONTROL + E.regs.FSI_MMODE))) 0xd0040410 := by
  obtain ⟨hH, hH1, hH2, e818⟩ := hub_src_bits
  have hne := hub_ne_upstream n U 0 0 c b
  have hb := si1s_mask_lt E ⟨⟨.hub n U 0 0 c b, link, id⟩, et, ver, un, ad, sz, sb, true⟩
  have he := fsi_enable_irq_mem E init hE idx (.hub n U 0 0 c b) link id et ver un ad sz sb
    ipoll w
  have hd := fun ip w' => fsi_disable_irq_mem E init hE idx (.hub n U 0 0 c b) link id et ver
    un ad sz sb true ip w'
  have hu := fun on_ ip w' => set_upstream_irq_masks_hub E init hE idx n U 0 0 c b link id on_
    ip w' hidx
  simp only [e818] at hu
  generalize si1s_mask E ⟨⟨.hub n U 0 0 c b, link, id⟩, et, ver, un, ad, sz, sb, true⟩
    = bit at *
  generalize link_to_srsim_mask E link = m2 at *
  generalize link_to_msiep_mask E link = m3 at *
  generalize hc1 : root_cell (.hub n U 0 0 c b) link 0 (FSI_SLAVE_BASE + FSI_SI1M) = c1 at *
  generalize root_cell U 0 0 (u32 (FSI_SLAVE_BASE + FSI_SRSIM0)) = c2 at *
  generalize root_cell U 0 0 (u32 (FSI_HUB_CONTROL + E.regs.FSI_MSIEP0)) = c3 at *
  generalize root_cell U 0 0 (u32 (FSI_HUB_CONTROL + E.regs.FSI_MMODE)) = c4 at *
  generalize root_cell U 0 0 (FSI_SLAVE_BASE + FSI_SI1M) = c5 at *
  generalize hM : mem_cell init w.log = M at *
  simp only [List.nodup_cons, List.mem_cons, List.mem_singleton, not_or, List.not_mem_nil,
    not_false_eq_true, List.nodup_nil, and_true] at hnd
  obtain ⟨⟨n12, n13, n14, n15⟩, ⟨n23, n24, n25⟩, ⟨n34, n35⟩, n45⟩ := hnd
  generalize fsi_master.hub n U 0 0 c b = H at *
  simp only [irq_calls]
  have hor1 : M c1 ||| bit < 2 ^ 32 := Nat.or_lt_two_pow hv hb
  have hb1 := or_and_not32 _ _ hv hb hclear
  have hbz := or_and_not32 _ _ hp hb hpclear
  have hw1 : mem_cell init (master_write E H link 0 (FSI_SLAVE_BASE + FSI_SI1M)
      (u32 (M c1) ||| bit) 4 (master_read E H link 0 (FSI_SLAVE_BASE + FSI_SI1M) 4 w).2).2.log
      = Function.update M c1 (M c1 ||| bit) := by
    rw [(master_write_mem E init hE _ _ _ _ _ _ _).2, (master_read_mem E init hE _ _ _ _ _ _).2,
      hM, hc1, u32_of_lt hv]
  generalize (master_write E H link 0 (FSI_SLAVE_BASE + FSI_SI1M)
      (u32 (M c1) ||| bit) 4 (master_read E H link 0 (FSI_SLAVE_BASE + FSI_SI1M) 4 w).2).2
      = w1 at he hw1
  obtain ⟨r1, r2, r3⟩ := hu true (Function.update ipoll H (ipoll H ||| bit)) w1 _ _ _ _ _
    hw1 rfl rfl rfl rfl
  rw [← he] at r1 r2 r3
  generalize fsi_enable_irq E idx ⟨⟨H, link, id⟩, et, ver, un, ad, sz, sb, true⟩ ipoll w
    = re at *
  obtain ⟨rc, ip2, w2⟩ := re
  simp only at r1 r2 r3
  simp only [if_true, Function.update_same, Function.update_idem,
    Function.update_noteq (Ne.symm n12), Function.update_noteq (Ne.symm n13),
    Function.update_noteq (Ne.symm n23), u32_of_lt h2, u32_of_lt h3, hH1, h2c, h3c] at r2 r3
  have hw3 : mem_cell init (master_write E H link 0 (FSI_SLAVE_BASE + FSI_SI1M)
      (u32 (mem_cell init w2.log c1) &&& not32 bit) 4
        (master_read E H link 0 (FSI_SLAVE_BASE + FSI_SI1M) 4 w2).2).2.log
      = Function.update (mem_cell init w2.log) c1 (M c1) := by
    rw [(master_write_mem E init hE _ _ _ _ _ _ _).2, (master_read_mem E init hE _ _ _ _ _ _).2,
      hc1, r3, Function.update_noteq n15, Function.update_noteq n14, Function.update_noteq n13,
      Function.update_noteq n12, Function.update_same, u32_of_lt hor1, hb1]
  have hd2 := hd ip2 w2
  generalize (master_write E H link 0 (FSI_SLAVE_BASE + FSI_SI1M)
      (u32 (mem_cell init w2.log c1) &&& not32 bit) 4
        (master_read E H link 0 (FSI_SLAVE_BASE + FSI_SI1M) 4 w2).2).2 = w3 at hd2 hw3
  have hip2H : ip2 H = ipoll H ||| bit := by
    rw [r2, Function.update_noteq hne, Function.update_same]
  rw [hip2H, hbz, if_neg hpH] at hd2
  rw [hd2]
  refine ⟨r1, ?_, ?_⟩
  · show Function.update ip2 H (ipoll H) = ipoll
    funext x
    simp only [Function.update_apply]
    by_cases hxH : x = H
    · rw [if_pos hxH, hxH]
    · rw [if_neg hxH, r2]
      simp only [Function.update_apply, if_neg hne.symm, hpU]
      by_cases hxU : x = U
      · rw [if_pos hxU, hxU]
      · rw [if_neg hxU, if_neg hxH]
  · show mem_cell init w3.log = Function.update M c4 0xd0040410
    rw [hw3, r3]
    funext x
    simp only [Function.update_apply]
    have s12 := Ne.symm n12
    have s13 := Ne.symm n13
    have s14 := Ne.symm n14
    have s15 := Ne.symm n15
    have s23 := Ne.symm n23
    have s24 := Ne.symm n24
    have s25 := Ne.symm n25
    have s34 := Ne.symm n34
    have s35 := Ne.symm n35
    have s45 := Ne.symm n45
    simp only [ne_eq] at s12 s13 s14 s15 s23 s24 s25 s34 s35 s45
    by_cases x1 : x = c1
    · subst x1
      simp only [if_true, if_false, n14]
    by_cases x5 : x = c5
    · subst x5
      simp only [if_true, if_false, x1, s45, h5]
    by_cases x4 : x = c4
    · subst x4
      simp only [if_true, if_false, x5, x1]
    by_cases x3 : x = c3
    · subst x3
      simp only [if_true, if_false, x5, x4, x1]
    by_cases x2 : x = c2
    · subst x2
      simp only [if_true, if_false, x5, x4, x3, x1]
    simp only [if_false, x5, x4, x3, x2, x1]
/-- Counterexample to C16: (1) on a root master with the engine's bit of `SI1M` already
set before `fsi_enable_irq`, the bit is clear after `fsi_enable_irq` followed by
`fsi_disable_irq`; (2) for an engine below the hub `hub_a`, a bit that another engine has
set in `SI1M` of the slave that carries the hub is clear afterwards; (3) for an engine
below `hub_b`, whose slave is on link 1 of the root master, `SI1M` of link 0 holds the hub
source bit afterwards though every register was 0 before; (4) from registers that are
all 0 the hub round trip leaves 0xd0040410 in `MMODE`; (5) for an engine below `hub_a`
with the bit of its hub link already set in `SRSIM0` and no engine of the hub enabled,
the bit is clear afterwards. -/
theorem irq_enable_disable_counterexample :
    ((fsi_enable_irq (env_mem mem_si1m_set regs_zero) (fun _ => 0) engine2_irq
        (fun _ => 0) ⟨[]⟩).1 = 0
      ∧ mem_si1m_set 0 0 0x818 = 0x40000000
      ∧ mem_at mem_si1m_set
          (irq_calls (env_mem mem_si1m_set regs_zero) (fun _ => 0)
            [(true, engine2_irq), (false, engine2_irq)] (fun _ => 0) ⟨[]⟩).2.log 0 0 0x818 = 0)
    ∧ ((fsi_enable_irq (env_mem mem_si1m_set regs_sample) idx_two_hubs engine_a
        (fun _ => 0) ⟨[]⟩).1 = 0
      ∧ mem_si1m_set 0 0 0x80818 = 0
      ∧ mem_at mem_si1m_set
          (irq_calls (env_mem mem_si1m_set regs_sample) idx_two_hubs
            [(true, engine_a), (false, engine_a)] (fun _ => 0) ⟨[]⟩).2.log 0 0 0x818 = 0)
    ∧ ((fsi_enable_irq (env_mem (fun _ _ _ => 0) regs_sample) idx_two_hubs engine_b
        (fun _ => 0) ⟨[]⟩).1 = 0
      ∧ mem_at (fun _ _ _ => 0)
          (irq_calls (env_mem (fun _ _ _ => 0) regs_sample) idx_two_hubs
            [(true, engine_b), (false, engine_b)] (fun _ => 0) ⟨[]⟩).2.log 0 0 0x818
          = 0x00100000)
    ∧ mem_at (fun _ _ _ => 0)
          (irq_calls (env_mem (fun _ _ _ => 0) regs_sample) idx_two_hubs
            [(true, engine_a), (false, engine_a)] (fun _ => 0) ⟨[]⟩).2.log 0 0 0x3400
          = 0xd0040410
    ∧ ((fsi_enable_irq (env_mem mem_srsim_set regs_sample) idx_two_hubs engine_a
        (fun _ => 0) ⟨[]⟩).1 = 0
      ∧ mem_srsim_set 0 0 0x870 = link_to_srsim_mask (env_mem mem_srsim_set regs_sample) 0
      ∧ mem_at mem_srsim_set
          (irq_calls (env_mem mem_srsim_set regs_sample) idx_two_hubs
            [(true, engine_a), (false, engine_a)] (fun _ => 0) ⟨[]⟩).2.log 0 0 0x870 = 0) := by
  refine ⟨⟨by decide, by decide, by decide⟩, ⟨by decide, by decide, by decide⟩,
    ⟨by decide, by decide⟩, by decide, ⟨by decide, by decide, by decide⟩⟩

/-- C16 (amended): for an engine with a bound handler over register memory that never
fails, with the engine's interrupt bit clear beforehand in the `SI1M` word of its slave
and in its master's `ipoll` word (32-bit values).  (a) On a master, root or hub, whose
index is at most 0: `fsi_enable_irq` returns 0 and after the following `fsi_disable_irq`
every register and every master's `ipoll` word hold the value they held before.  (b) On
a hub master `H` with a positive index whose slave is at link 0, id 0 of the master `U`
above it, with `SI1M` of the engine's slave, `SRSIM0`, `MSIEP0`, `MMODE` and `SI1M` of
`H`'s slave being five different registers: the same holds for every register except
`MMODE`, both when the hub is not yet enabled (`H`'s `ipoll` is 0, the hub source bit of
`U`'s `ipoll`, the link's bits of `SRSIM0` and `MSIEP0` are clear and `SI1M` of `H`'s
slave is 0) and when it is enabled already (`H`'s `ipoll` is not 0, those bits are set
and `SI1M` of `H`'s slave is the hub source bit). -/
theorem fsi_enable_disable_irq_restores (E : Env) (init : Nat → Nat → Nat → Nat)
    (idx : fsi_master → Int) (dev : fsi_device) (ipoll : fsi_master → Nat) (w : World)
    (hE : E.respond = (env_mem init E.regs).respond)
    (hh : dev.irq_handler = true)
    (hv : mem_cell init w.log
      (root_cell dev.slave.master dev.slave.link 0 (FSI_SLAVE_BASE + FSI_SI1M)) < 2 ^ 32)
    (hclear : mem_cell init w.log
      (root_cell dev.slave.master dev.slave.link 0 (FSI_SLAVE_BASE + FSI_SI1M))
        &&& si1s_mask E dev = 0)
    (hp : ipoll dev.slave.master < 2 ^ 32)
    (hpclear : ipoll dev.slave.master &&& si1s_mask E dev = 0) :
    (idx dev.slave.master ≤ 0 →
        (fsi_enable_irq E idx dev ipoll w).1 = 0
          ∧ (irq_calls E idx [(true, dev), (false, dev)] ipoll w).1 = ipoll
          ∧ ∀ x, mem_cell init (irq_calls E idx [(true, dev), (false, dev)] ipoll w).2.log x
              = mem_cell init w.log x)
      ∧ ∀ (n : Nat) (U : fsi_master) (c b : Nat),
          dev.slave.master = .hub n U 0 0 c b →
          0 < idx dev.slave.master →
          [root_cell dev.slave.master dev.slave.link 0 (FSI_SLAVE_BASE + FSI_SI1M),
            root_cell U 0 0 (u32 (FSI_SLAVE_BASE + FSI_SRSIM0)),
            root_cell U 0 0 (u32 (FSI_HUB_CONTROL + E.regs.FSI_MSIEP0)),
            root_cell U 0 0 (u32 (FSI_HUB_CONTROL + E.regs.FSI_MMODE)),
            root_cell U 0 0 (FSI_SLAVE_BASE + FSI_SI1M)].Nodup →
          mem_cell init w.log (root_cell U 0 0 (u32 (FSI_SLAVE_BASE + FSI_SRSIM0))) < 2 ^ 32 →
          mem_cell init w.log (root_cell U 0 0 (u32 (FSI_HUB_CONTROL + E.regs.FSI_MSIEP0)))
            < 2 ^ 32 →
          ((ipoll dev.slave.master = 0
              ∧ ipoll U < 2 ^ 32 ∧ ipoll U &&& FSI_SI1_HUB_SRC = 0
              ∧ mem_cell init w.log (root_cell U 0 0 (u32 (FSI_SLAVE_BASE + FSI_SRSIM0)))
                  &&& link_to_srsim_mask E dev.slave.link = 0
              ∧ mem_cell init w.log
                    (root_cell U 0 0 (u32 (FSI_HUB_CONTROL + E.regs.FSI_MSIEP0)))
                  &&& link_to_msiep_mask E dev.slave.link = 0
              ∧ mem_cell init w.log (root_cell U 0 0 (FSI_SLAVE_BASE + FSI_SI1M)) = 0)
            ∨ (ipoll dev.slave.master ≠ 0
              ∧ ipoll U ||| FSI_SI1_HUB_SRC = ipoll U
              ∧ mem_cell init w.log (root_cell U 0 0 (u32 (FSI_SLAVE_BASE + FSI_SRSIM0)))
                  ||| link_to_srsim_mask E dev.slave.link
                = mem_cell init w.log (root_cell U 0 0 (u32 (FSI_SLAVE_BASE + FSI_SRSIM0)))
              ∧ mem_cell init w.log
                    (root_cell U 0 0 (u32 (FSI_HUB_CONTROL + E.regs.FSI_MSIEP0)))
                  ||| link_to_msiep_mask E dev.slave.link
                = mem_cell init w.log
                    (root_cell U 0 0 (u32 (FSI_HUB_CONTROL + E.regs.FSI_MSIEP0)))
              ∧ mem_cell init w.log (root_cell U 0 0 (FSI_SLAVE_BASE + FSI_SI1M))
                = FSI_SI1_HUB_SRC)) →
          (fsi_enable_irq E idx dev ipoll w).1 = 0
            ∧ (irq_calls E idx [(true, dev), (false, dev)] ipoll w).1 = ipoll
            ∧ ∀ x, x ≠ root_cell U 0 0 (u32 (FSI_HUB_CONTROL + E.regs.FSI_MMODE)) →
                mem_cell init (irq_calls E idx [(true, dev), (false, dev)] ipoll w).2.log x
                  = mem_cell init w.log x := by
  obtain ⟨⟨m, link, id⟩, et, ver, un, ad, sz, sb, ih⟩ := dev
  dsimp only at hh hv hclear hp hpclear ⊢
  subst hh
  constructor
  · intro hidx
    obtain ⟨r1, r2, r3⟩ := irq_round_trip_nop E init hE idx m link id et ver un ad sz sb ipoll w
      hidx hv hclear hp hpclear
    exact ⟨r1, r2, fun x => congrFun r3 x⟩
  · intro n U c b hm hidx hnd h2 h3 hcase
    subst hm
    rcases hcase with ⟨hpH, hpU, hpUc, h2c, h3c, h5⟩ | ⟨hpH, hpU, h2c, h3c, h5⟩
    · obtain ⟨r1, r2, r3⟩ := irq_round_trip_hub_first E init hE idx n U c b link id et ver un
        ad sz sb ipoll w hidx hv hclear hpH hpU hpUc h2 h2c h3 h3c h5 hnd
      refine ⟨r1, r2, fun x hx => ?_⟩
      rw [r3, Function.update_noteq hx]
    · obtain ⟨r1, r2, r3⟩ := irq_round_trip_hub_next E init hE idx n U c b link id et ver un
        ad sz sb ipoll w hidx hv hclear hp hpclear hpH hpU h2 h2c h3 h3c h5 hnd
      refine ⟨r1, r2, fun x hx => ?_⟩
      rw [r3, Function.update_noteq hx]
theorem fsi_enable_disable_irq_restores_witness :
    ((fsi_enable_irq (env_mem (fun _ _ _ => 0) regs_zero) (fun _ => 0) engine2_irq
          (fun _ => 0) ⟨[]⟩).1 = 0
      ∧ (irq_calls (env_mem (fun _ _ _ => 0) regs_zero) (fun _ => 0)
          [(true, engine2_irq), (false, engine2_irq)] (fun _ => 0) ⟨[]⟩).1 = (fun _ => 0)
      ∧ ∀ x, mem_cell (fun _ _ _ => 0)
          (irq_calls (env_mem (fun _ _ _ => 0) regs_zero) (fun _ => 0)
            [(true, engine2_irq), (false, engine2_irq)] (fun _ => 0) ⟨[]⟩).2.log x
          = mem_cell (fun _ _ _ => 0) (⟨[]⟩ : World).log x)
    ∧ ((fsi_enable_irq (env_mem (fun _ _ _ => 0) regs_sample) idx_two_hubs engine_a
          (fun _ => 0) ⟨[]⟩).1 = 0
      ∧ (irq_calls (env_mem (fun _ _ _ => 0) regs_sample) idx_two_hubs
          [(true, engine_a), (false, engine_a)] (fun _ => 0) ⟨[]⟩).1 = (fun _ => 0)
      ∧ ∀ x, x ≠ root_cell (.root 2) 0 0
            (u32 (FSI_HUB_CONTROL + (env_mem (fun _ _ _ => 0) regs_sample).regs.FSI_MMODE)) →
          mem_cell (fun _ _ _ => 0)
            (irq_calls (env_mem (fun _ _ _ => 0) regs_sample) idx_two_hubs
              [(true, engine_a), (false, engine_a)] (fun _ => 0) ⟨[]⟩).2.log x
          = mem_cell (fun _ _ _ => 0) (⟨[]⟩ : World).log x)
    ∧ ((fsi_enable_irq (env_mem (fun _ _ _ => 0) regs_sample) idx_two_hubs engine_a
          (fsi_enable_irq (env_mem (fun _ _ _ => 0) regs_sample) idx_two_hubs engine_a2
            (fun _ => 0) ⟨[]⟩).2.1
          (fsi_enable_irq (env_mem (fun _ _ _ => 0) regs_sample) idx_two_hubs engine_a2
            (fun _ => 0) ⟨[]⟩).2.2).1 = 0
      ∧ (irq_calls (env_mem (fun _ _ _ => 0) regs_sample) idx_two_hubs
          [(true, engine_a), (false, engine_a)]
          (fsi_enable_irq (env_mem (fun _ _ _ => 0) regs_sample) idx_two_hubs engine_a2
            (fun _ => 0) ⟨[]⟩).2.1
          (fsi_enable_irq (env_mem (fun _ _ _ => 0) regs_sample) idx_two_hubs engine_a2
            (fun _ => 0) ⟨[]⟩).2.2).1
        = (fsi_enable_irq (env_mem (fun _ _ _ => 0) regs_sample) idx_two_hubs engine_a2
            (fun _ => 0) ⟨[]⟩).2.1) :=
  ⟨(fsi_enable_disable_irq_restores (env_mem (fun _ _ _ => 0) regs_zero) (fun _ _ _ => 0)
      (fun _ => 0) engine2_irq (fun _ => 0) ⟨[]⟩ rfl rfl (by decide) (by decide) (by decide)
      (by decide)).1 (by decide),
    (fsi_enable_disable_irq_restores (env_mem (fun _ _ _ => 0) regs_sample) (fun _ _ _ => 0)
      idx_two_hubs engine_a (fun _ => 0) ⟨[]⟩ rfl rfl (by decide) (by decide) (by decide)
      (by decide)).2 1 (.root 2) 0xC00 FSI_HUB_LINK_OFFSET rfl (by decide) (by decide)
      (by decide) (by decide)
      (Or.inl ⟨by decide, by decide, by decide, by decide, by decide, by decide⟩),
    have h := (fsi_enable_disable_irq_restores (env_mem (fun _ _ _ => 0) regs_sample)
      (fun _ _ _ => 0) idx_two_hubs engine_a
      (fsi_enable_irq (env_mem (fun _ _ _ => 0) regs_sample) idx_two_hubs engine_a2
        (fun _ => 0) ⟨[]⟩).2.1
      (fsi_enable_irq (env_mem (fun _ _ _ => 0) regs_sample) idx_two_hubs engine_a2
        (fun _ => 0) ⟨[]⟩).2.2 rfl rfl (by decide) (by decide) (by decide)
      (by decide)).2 1 (.root 2) 0xC00 FSI_HUB_LINK_OFFSET rfl (by decide) (by decide)
      (by decide) (by decide)
      (Or.inr ⟨by decide, by decide, by decide, by decide, by decide⟩)
    ⟨h.1, h.2.1⟩⟩

theorem device_for_each_child_single {α : Type} (fn : α → World → Int × World) (c : α)
    (w : World) :
    device_for_each_child fn [c] w = if (fn c w).1 ≠ 0 then fn c w else (0, (fn c w).2) := by
  simp only [device_for_each_child]

theorem fsi_dev_irq_handler (E : Env) (fuel : Nat) (slave : fsi_slave) (si1s si1s_bit h : Nat)
    (d m : Bool) (children : List (fsi_slave × List irq_device)) (w : World)
    (hb : si1s &&& shr32 E 0x80000000 si1s_bit ≠ 0) :
    fsi_dev_irq E (fuel + 1) slave si1s (.mk si1s_bit (some h) d m children) w
      = (1, (call E (.irq_handler h) w).2) := by
  simp only [fsi_dev_irq, hb, ne_eq, not_false_eq_true, if_true]

theorem fsi_hub_slave_irq_ok (E : Env)
    (dev_irq : fsi_slave → Nat → irq_device → World → Int × World)
    (hs : fsi_slave × List irq_device) (w : World) (r : Resp × World)
    (hr : fsi_slave_read E hs.1 (FSI_SLAVE_BASE + FSI_SI1S) 4 w = r)
    (hrc : r.1.rc = 0) (h0 : u32 r.1.data ≠ 0) :
    fsi_hub_slave_irq E dev_irq hs w
      = device_for_each_child (dev_irq hs.1 (u32 r.1.data)) hs.2 r.2 := by
  simp only [fsi_hub_slave_irq, hr, hrc, h0, ne_eq, not_true_eq_false, if_false]

theorem fsi_dev_irq_hub (E : Env) (fuel : Nat) (slave : fsi_slave) (si1s si1s_bit : Nat)
    (irq_handler : Option Nat) (children : List (fsi_slave × List irq_device)) (w : World)
    (r : Resp × World)
    (hown : si1s &&& shr32 E 0x80000000 si1s_bit = 0 ∨ irq_handler = none)
    (hsrc : si1s &&& FSI_SI1_HUB_SRC ≠ 0)
    (hr : fsi_slave_read E slave (FSI_SLAVE_BASE + FSI_SRSIS0) 4 w = r)
    (hrc : r.1.rc = 0)
    (h0 : u32 r.1.data ≠ 0) :
    fsi_dev_irq E (fuel + 1) slave si1s (.mk si1s_bit irq_handler true true children) w
      = (if (fsi_slave_write E slave (FSI_SLAVE_BASE + FSI_SRSIC0)
                (srsic_clear_mask E (next_hublink_source (u32 r.1.data))) 4
                (device_for_each_child (fsi_hub_slave_irq E (fsi_dev_irq E fuel)) children
                  r.2).2).1.rc ≠ 0
           then ((fsi_slave_write E slave (FSI_SLAVE_BASE + FSI_SRSIC0)
                (srsic_clear_mask E (next_hublink_source (u32 r.1.data))) 4
                (device_for_each_child (fsi_hub_slave_irq E (fsi_dev_irq E fuel)) children
                  r.2).2).1.rc,
              (fsi_slave_write E slave (FSI_SLAVE_BASE + FSI_SRSIC0)
                (srsic_clear_mask E (next_hublink_source (u32 r.1.data))) 4
                (device_for_each_child (fsi_hub_slave_irq E (fsi_dev_irq E fuel)) children
                  r.2).2).2)
           else (1, (fsi_slave_write E slave (FSI_SLAVE_BASE + FSI_SRSIC0)
                (srsic_clear_mask E (next_hublink_source (u32 r.1.data))) 4
                (device_for_each_child (fsi_hub_slave_irq E (fsi_dev_irq E fuel)) children
                  r.2).2).2)) := by
  have hm : (if si1s &&& shr32 E 0x80000000 si1s_bit ≠ 0 then irq_handler else none)
      = none := by
    rcases hown with h | h
    · rw [if_neg (by simpa using h)]
    · rw [h]; simp
  simp only [fsi_dev_irq, hm, hr, hsrc, hrc, h0, ne_eq, not_true_eq_false,
    not_false_eq_true, if_true, if_false, Bool.true_eq_false]

/-- Counterexample to C17: in the hub cascade with `SRSIS0 = 0x00800000`, dispatching the
root status word 0x00100000 runs the grandchild engine's handler once and then writes
0x00FF0000 to `SRSIC0` of the hub's slave; the value 0xFF000000 is never written. -/
theorem srsic0_value_counterexample :
    (fsi_master_irq (env_mem mem_cascade regs_zero) 2 (cascade 1) 0x00100000 ⟨[]⟩).log
      = [.write 0 0 0x868 0x00FF0000 4, .irq_handler 7, .read 0 0 0x10081c 4,
          .read 0 0 0x878 4] ∧
    Op.write 0 0 0x868 0xFF000000 4 ∉
      (fsi_master_irq (env_mem mem_cascade regs_zero) 2 (cascade 1) 0x00100000 ⟨[]⟩).log := by
  refine ⟨by decide, by decide⟩

/-- C17 (amended): in the hub cascade with a handler bound to the grandchild engine with
`si1s_bit = 1`, when `SRSIS0` of the hub's slave reads 0x00800000 and the grandchild
slave's `SI1S` reads with the engine's bit 0x40000000 set, dispatching the root status
word 0x00100000 reads `SRSIS0`, reads the grandchild's `SI1S`, calls the engine's handler
exactly once and afterwards writes 0x00FF0000 (0xFF000000 shifted by 8: the status bit
0x00800000 belongs to hub link 1) to `SRSIC0` of the hub's slave; nothing else is done. -/
theorem fsi_master_irq_cascade (E : Env) (L fuel v : Nat) (w : World)
    (hfuel : 2 ≤ fuel)
    (hs : E.respond w.log (.read 0 0 0x878 4) = ⟨0, 0x00800000⟩)
    (hg : E.respond (.read 0 0 0x878 4 :: w.log)
      (.read 0 0 (u32 (0x81c + u32 (L * 0x80000 + 0x80000))) 4) = ⟨0, v⟩)
    (hv : u32 v &&& 0x40000000 ≠ 0) :
    (fsi_master_irq E fuel (cascade L) 0x00100000 w).log
      = .write 0 0 0x868 0x00FF0000 4 :: .irq_handler 7
        :: .read 0 0 (u32 (0x81c + u32 (L * 0x80000 + 0x80000))) 4
        :: .read 0 0 0x878 4 :: w.log := by
  obtain ⟨f, rfl⟩ : ∃ f, fuel = f + 2 := ⟨fuel - 2, by omega⟩
  have h1 : fsi_slave_read E slave0 (FSI_SLAVE_BASE + FSI_SRSIS0) 4 w
      = (⟨0, 0x00800000⟩, (⟨.read 0 0 0x878 4 :: w.log⟩ : World)) := by
    have e : u32 (FSI_SLAVE_BASE + FSI_SRSIS0) = 0x878 := by decide
    rw [fsi_slave_read, e]
    simp only [slave0, master_read, call, hs]
  have h2 : fsi_slave_read E (cascade_grandchild L) (FSI_SLAVE_BASE + FSI_SI1S) 4
        (⟨.read 0 0 0x878 4 :: w.log⟩ : World)
      = (⟨0, v⟩, (⟨.read 0 0 (u32 (0x81c + u32 (L * 0x80000 + 0x80000))) 4
          :: .read 0 0 0x878 4 :: w.log⟩ : World)) := by
    have e : u32 (FSI_SLAVE_BASE + FSI_SI1S) = 0x81c := by decide
    simp only [fsi_slave_read, cascade_grandchild, hub0, fsi_master_hub.master, slave0,
      master_read, call, e, FSI_MASTER_HUB_LINK_SIZE, FSI_HUB_LINK_OFFSET, hg]
  have h3 : fsi_slave_write E slave0 (FSI_SLAVE_BASE + FSI_SRSIC0) 0x00FF0000 4
        (⟨.irq_handler 7
          :: .read 0 0 (u32 (0x81c + u32 (L * 0x80000 + 0x80000))) 4
          :: .read 0 0 0x878 4 :: w.log⟩ : World)
      = (E.respond (.irq_handler 7
          :: .read 0 0 (u32 (0x81c + u32 (L * 0x80000 + 0x80000))) 4
          :: .read 0 0 0x878 4 :: w.log) (.write 0 0 0x868 0x00FF0000 4),
        (⟨.write 0 0 0x868 0x00FF0000 4 :: .irq_handler 7
          :: .read 0 0 (u32 (0x81c + u32 (L * 0x80000 + 0x80000))) 4
          :: .read 0 0 0x878 4 :: w.log⟩ : World)) := by
    have e : u32 (FSI_SLAVE_BASE + FSI_SRSIC0) = 0x868 := by decide
    simp only [fsi_slave_write, slave0, master_write, call, e]
  have e2 : (0x00100000 : Nat) &&& FSI_SI1_HUB_SRC ≠ 0 := by decide
  have e3 : u32 0x00800000 ≠ 0 := by decide
  have e4 : srsic_clear_mask E (next_hublink_source (u32 0x00800000)) = 0x00FF0000 := by
    have e : next_hublink_source (u32 0x00800000) * (FSI_SRSIX_BITS_PER_LINK : Nat)
        = ((8 : Nat) : Int) := by decide
    unfold srsic_clear_mask
    rw [e, shr32_of_lt E _ 8 (by decide)]; decide
  have e5 : u32 v &&& shr32 E 0x80000000 ((1 : Nat) : Int) ≠ 0 := by
    rw [shr32_of_lt E _ 1 (by decide)]
    have e : u32 0x80000000 >>> 1 = 0x40000000 := by decide
    rw [e]; exact hv
  have e6 : u32 v ≠ 0 := by
    intro h0
    rw [h0] at hv
    exact hv (by decide)
  have hd : device_for_each_child (fsi_hub_slave_irq E (fsi_dev_irq E (f + 1)))
      [(cascade_grandchild L, [cascade_engine])] (⟨.read 0 0 0x878 4 :: w.log⟩ : World)
      = (1, (⟨.irq_handler 7 :: .read 0 0 (u32 (0x81c + u32 (L * 0x80000 + 0x80000))) 4
          :: .read 0 0 0x878 4 :: w.log⟩ : World)) := by
    rw [device_for_each_child_single,
      fsi_hub_slave_irq_ok E _ (cascade_grandchild L, [cascade_engine]) _ _ h2 rfl e6,
      device_for_each_child_single, cascade_engine,
      fsi_dev_irq_handler E f _ _ 1 7 false false [] _ e5]
    simp only [call, ne_eq, one_ne_zero, not_false_eq_true, if_true]
  rw [fsi_master_irq, cascade, device_for_each_child_single, fsi_slave_irq,
    device_for_each_child_single,
    fsi_dev_irq_hub E (f + 1) slave0 0x00100000 0 none _ w _ (Or.inr rfl) e2 h1 rfl e3,
    e4, hd, h3]
  by_cases hq : (E.respond (.irq_handler 7
          :: .read 0 0 (u32 (0x81c + u32 (L * 0x80000 + 0x80000))) 4
          :: .read 0 0 0x878 4 :: w.log) (.write 0 0 0x868 0x00FF0000 4)).rc = 0
  · simp only [hq, ne_eq, not_true_eq_false, if_false, one_ne_zero, not_false_eq_true, if_true]
  · simp only [hq, ne_eq, not_false_eq_true, if_true]

theorem fsi_master_irq_cascade_witness :
    (fsi_master_irq (env_mem mem_cascade regs_zero) 3 (cascade 1) 0x00100000 ⟨[]⟩).log
      = [.write 0 0 0x868 0x00FF0000 4, .irq_handler 7,
          .read 0 0 (u32 (0x81c + u32 (1 * 0x80000 + 0x80000))) 4, .read 0 0 0x878 4] :=
  fsi_master_irq_cascade (env_mem mem_cascade regs_zero) 1 3 0x40000000 ⟨[]⟩ (by decide)
    (by decide) (by decide) (by decide)

/-! ### The hublink of a remote status word -/

theorem clz_from_le (n x : Nat) : clz_from n x ≤ n := by
  induction n with
  | zero => simp [clz_from]
  | succ n ih =>
    unfold clz_from
    split
    · omega
    · omega

/-- `clz_from n x` counts the zero bits above the leading one bit of `x < 2 ^ n`. -/
theorem clz_from_spec (n x : Nat) (hx : x < 2 ^ n) (h0 : x ≠ 0) :
    clz_from n x < n ∧ x.testBit (n - 1 - clz_from n x) = true
      ∧ x < 2 ^ (n - clz_from n x) := by
  induction n with
  | zero => simp at hx; exact absurd hx h0
  | succ n ih =>
    unfold clz_from
    by_cases hb : x.testBit n = true
    · rw [if_pos hb]
      exact ⟨by omega, by simpa using hb, by simpa using hx⟩
    · rw [if_neg hb]
      have hlt : x < 2 ^ n := by
        apply Nat.lt_pow_two_of_testBit
        intro i hi
        by_cases hin : i = n
        · subst hin; simpa using hb
        · exact Nat.testBit_lt_two_pow
            (Nat.lt_of_lt_of_le hx (Nat.pow_le_pow_right (by decide) (by omega)))
      obtain ⟨h1, h2, h3⟩ := ih hlt
      refine ⟨by omega, ?_, ?_⟩
      · have e : n + 1 - 1 - (1 + clz_from n x) = n - 1 - clz_from n x := by omega
        rw [e]; exact h2
      · have e : n + 1 - (1 + clz_from n x) = n - clz_from n x := by omega
        rw [e]; exact h3

theorem next_hublink_source_accepted (E : Env) (s : Nat) (hs : s < 2 ^ 32)
    (hacc : s &&& FSI_SRSIX_IRQ1_MASK ≠ 0) :
    next_hublink_source s = ((clz s / 8 : Nat) : Int) ∧ clz s / 8 ≤ 3
      ∧ s.testBit (31 - clz s) = true ∧ s < 2 ^ (32 - clz s)
      ∧ srsic_clear_mask E (next_hublink_source s) = 0xFF000000 >>> (8 * (clz s / 8)) := by
  have h0 : s ≠ 0 := by
    intro h; rw [h] at hacc; simp at hacc
  obtain ⟨h1, h2, h3⟩ := clz_from_spec 32 s hs h0
  have hn : next_hublink_source s = ((clz s / 8 : Nat) : Int) := by
    unfold next_hublink_source
    rw [if_neg hacc]
    simp [FSI_SRSIX_BITS_PER_LINK]
  have hk : clz s / 8 ≤ 3 := by
    unfold clz; omega
  refine ⟨hn, hk, h2, h3, ?_⟩
  rw [hn]
  unfold srsic_clear_mask shr32
  have hc : (0 : Int) ≤ ((clz s / 8 : Nat) : Int) * (FSI_SRSIX_BITS_PER_LINK : Nat)
      ∧ ((clz s / 8 : Nat) : Int) * (FSI_SRSIX_BITS_PER_LINK : Nat) < 32 := by
    simp only [FSI_SRSIX_BITS_PER_LINK]
    constructor
    · positivity
    · have : ((clz s / 8 : Nat) : Int) ≤ 3 := by exact_mod_cast hk
      push_cast
      omega
  rw [if_pos hc]
  have e : (((clz s / 8 : Nat) : Int) * (FSI_SRSIX_BITS_PER_LINK : Nat)).toNat
      = 8 * (clz s / 8) := by
    simp only [FSI_SRSIX_BITS_PER_LINK]
    have : ((clz s / 8 : Nat) : Int) * ((8 : Nat) : Int) = ((8 * (clz s / 8) : Nat) : Int) := by
      push_cast; ring
    rw [this, Int.toNat_ofNat]
  rw [e]
  rfl

/-- C23: when `__fsi_dev_irq` comes to a hub device (its own handler does not fire, the
hub source is set in `si1s`, `hub->master.dev` is set) and the read of `SRSIS0` on the
owning slave returns a word `s` that `next_hublink_source` accepts, the hublink is
`clz(s) / 8` rounded down, in 0..3, where `31 - clz(s)` is the position of the most
significant set bit of `s`; and after the child slaves have been served, the word
`0xFF000000 >> (8 * hublink)` is written to `SLAVE_BASE + SRSIC0` of the owning slave
(the result is that write's error, or 1). -/
theorem fsi_dev_irq_hublink (E : Env) (fuel : Nat) (slave : fsi_slave) (si1s si1s_bit : Nat)
    (irq_handler : Option Nat) (children : List (fsi_slave × List irq_device)) (w : World)
    (r : Resp × World)
    (hown : si1s &&& shr32 E 0x80000000 si1s_bit = 0 ∨ irq_handler = none)
    (hsrc : si1s &&& FSI_SI1_HUB_SRC ≠ 0)
    (hr : fsi_slave_read E slave (FSI_SLAVE_BASE + FSI_SRSIS0) 4 w = r)
    (hrc : r.1.rc = 0)
    (hacc : u32 r.1.data &&& FSI_SRSIX_IRQ1_MASK ≠ 0) :
    next_hublink_source (u32 r.1.data) = ((clz (u32 r.1.data) / 8 : Nat) : Int)
      ∧ clz (u32 r.1.data) / 8 ≤ 3
      ∧ (u32 r.1.data).testBit (31 - clz (u32 r.1.data)) = true
      ∧ u32 r.1.data < 2 ^ (32 - clz (u32 r.1.data))
      ∧ fsi_dev_irq E (fuel + 1) slave si1s (.mk si1s_bit irq_handler true true children) w
        = (if (fsi_slave_write E slave (FSI_SLAVE_BASE + FSI_SRSIC0)
                (0xFF000000 >>> (8 * (clz (u32 r.1.data) / 8))) 4
                (device_for_each_child (fsi_hub_slave_irq E (fsi_dev_irq E fuel)) children
                  r.2).2).1.rc ≠ 0
           then ((fsi_slave_write E slave (FSI_SLAVE_BASE + FSI_SRSIC0)
                (0xFF000000 >>> (8 * (clz (u32 r.1.data) / 8))) 4
                (device_for_each_child (fsi_hub_slave_irq E (fsi_dev_irq E fuel)) children
                  r.2).2).1.rc,
              (fsi_slave_write E slave (FSI_SLAVE_BASE + FSI_SRSIC0)
                (0xFF000000 >>> (8 * (clz (u32 r.1.data) / 8))) 4
                (device_for_each_child (fsi_hub_slave_irq E (fsi_dev_irq E fuel)) children
                  r.2).2).2)
           else (1, (fsi_slave_write E slave (FSI_SLAVE_BASE + FSI_SRSIC0)
                (0xFF000000 >>> (8 * (clz (u32 r.1.data) / 8))) 4
                (device_for_each_child (fsi_hub_slave_irq E (fsi_dev_irq E fuel)) children
                  r.2).2).2)) := by
  obtain ⟨h1, h2, h3, h4, h5⟩ := next_hublink_source_accepted E (u32 r.1.data) (u32_lt _) hacc
  refine ⟨h1, h2, h3, h4, ?_⟩
  have hm : (if si1s &&& shr32 E 0x80000000 si1s_bit ≠ 0 then irq_handler else none)
      = none := by
    rcases hown with h | h
    · rw [if_neg (by simpa using h)]
    · rw [h]; simp
  have h0 : u32 r.1.data ≠ 0 := by
    intro h; rw [h] at hacc; simp at hacc
  simp only [fsi_dev_irq, hm, hr, hsrc, hrc, h5, h0, ne_eq, not_true_eq_false,
    not_false_eq_true, if_true, if_false, Bool.true_eq_false]

theorem fsi_dev_irq_hublink_witness :
    next_hublink_source (u32 0x00800000) = ((clz (u32 0x00800000) / 8 : Nat) : Int)
      ∧ clz (u32 0x00800000) / 8 = 1 :=
  ⟨(fsi_dev_irq_hublink (env_mem mem_cascade regs_zero) 1 slave0 0x00100000 0 none
      [(cascade_grandchild 1, [cascade_engine])] ⟨[]⟩
      (⟨0, 0x00800000⟩, ⟨[.read 0 0 0x878 4]⟩) (by decide) (by decide) (by decide)
      (by decide) (by decide)).1, by decide⟩

/-- C27, what the code does: for the hub links 1, 2 and 3 `next_hublink_source` maps the
bit of `link_to_srsim_mask` back to the link, but the bit 0x02000000 of hub link 0 is
not among the sources of `FSI_SRSIX_IRQ1_MASK` and is answered with `-EINVAL`. -/
theorem next_hublink_source_link0 (E : Env) :
    link_to_srsim_mask E 0 = 0x02000000
      ∧ link_to_srsim_mask E 0 &&& FSI_SRSIX_IRQ1_MASK = 0
      ∧ next_hublink_source (link_to_srsim_mask E 0) = - EINVAL
      ∧ next_hublink_source (link_to_srsim_mask E 1) = 1
      ∧ next_hublink_source (link_to_srsim_mask E 2) = 2
      ∧ next_hublink_source (link_to_srsim_mask E 3) = 3 := by
  have h0 : link_to_srsim_mask E 0 = 0x02000000 := by
    unfold link_to_srsim_mask
    rw [shr32_of_lt E _ _ (by decide)]; decide
  have h1 : link_to_srsim_mask E 1 = 0x00020000 := by
    unfold link_to_srsim_mask
    rw [shr32_of_lt E _ _ (by decide)]; decide
  have h2 : link_to_srsim_mask E 2 = 0x00000200 := by
    unfold link_to_srsim_mask
    rw [shr32_of_lt E _ _ (by decide)]; decide
  have h3 : link_to_srsim_mask E 3 = 0x00000002 := by
    unfold link_to_srsim_mask
    rw [shr32_of_lt E _ _ (by decide)]; decide
  rw [h0, h1, h2, h3]
  refine ⟨rfl, by decide, by decide, by decide, by decide, by decide⟩

/-- C28, what the code does: `SRSIS0 = 0x01000000` is not zero and not accepted by
`next_hublink_source`; `__fsi_dev_irq` goes on with `hublink = -EINVAL`, whose shift
count `hublink * 8 = -176` is outside 0..31, serves the child slaves and writes the
resulting mask to `SRSIC0`. -/
theorem hublink_error_used_as_shift :
    next_hublink_source 0x01000000 = - EINVAL
      ∧ next_hublink_source 0x01000000 * FSI_SRSIX_BITS_PER_LINK = -176
      ∧ (fsi_master_irq (env_mem mem_srsis_odd regs_zero) 2 (cascade 0) 0x00100000 ⟨[]⟩).log
        = [.write 0 0 0x868 (srsic_clear_mask (env_mem mem_srsis_odd regs_zero) (- EINVAL)) 4,
            .read 0 0 0x8081c 4, .read 0 0 0x878 4] := by
  refine ⟨by decide, by decide, by decide⟩

/-! ### One handler per dispatch -/

theorem handler_calls_append (a b : List Op) :
    handler_calls (a ++ b) = handler_calls a ++ handler_calls b := by
  induction a with
  | nil => rfl
  | cons op a ih => cases op <;> simp [handler_calls, ih]

theorem one_handler_step_refl (w : World) : one_handler_step w (0, w) :=
  ⟨[], rfl, by simp [handler_calls], fun _ => rfl⟩

theorem one_handler_step_read (E : Env) (s : fsi_slave) (addr size : Nat) (w : World) :
    ∃ op, (fsi_slave_read E s addr size w).2.log = op :: w.log ∧ handler_calls [op] = [] := by
  obtain ⟨l, i, a, h⟩ := fsi_slave_read_one_call E s addr size w
  exact ⟨.read l i a size, by rw [h]; rfl, rfl⟩

theorem one_handler_step_write (E : Env) (s : fsi_slave) (addr val size : Nat) (w : World) :
    ∃ op, (fsi_slave_write E s addr val size w).2.log = op :: w.log
      ∧ handler_calls [op] = [] := by
  obtain ⟨l, i, a, h⟩ := fsi_slave_write_one_call E s addr val size w
  exact ⟨.write l i a val size, by rw [h]; rfl, rfl⟩

/-- A step from a world reached by calls without a handler is a step from the start. -/
theorem one_handler_step_after (w w1 : World) (r : Int × World) (ops : List Op)
    (h1 : w1.log = ops ++ w.log) (hops : handler_calls ops = [])
    (h : one_handler_step w1 r) : one_handler_step w r := by
  obtain ⟨pre, hp, hl, hz⟩ := h
  refine ⟨pre ++ ops, by rw [hp, h1, List.append_assoc], ?_, ?_⟩
  · rw [handler_calls_append, hops]; simpa using hl
  · intro h0; rw [handler_calls_append, hops, hz h0]; rfl

theorem one_handler_step_children {α : Type} (fn : α → World → Int × World)
    (hfn : ∀ c w, one_handler_step w (fn c w)) :
    ∀ (l : List α) (w : World), one_handler_step w (device_for_each_child fn l w) := by
  intro l
  induction l with
  | nil => intro w; exact one_handler_step_refl w
  | cons c cs ih =>
    intro w
    unfold device_for_each_child
    by_cases h : (fn c w).1 ≠ 0
    · rw [if_pos h]; exact hfn c w
    · rw [if_neg h]
      obtain ⟨pre, hp, _, hz⟩ := hfn c w
      exact one_handler_step_after w (fn c w).2 _ pre hp (hz (by simpa using h)) (ih _)

theorem one_handler_step_hub_slave (E : Env)
    (dev_irq : fsi_slave → Nat → irq_device → World → Int × World)
    (hd : ∀ s si1s d w, one_handler_step w (dev_irq s si1s d w))
    (c : fsi_slave × List irq_device) (w : World) :
    one_handler_step w (fsi_hub_slave_irq E dev_irq c w) := by
  obtain ⟨op, hop, hh⟩ := one_handler_step_read E c.1 (FSI_SLAVE_BASE + FSI_SI1S) 4 w
  unfold fsi_hub_slave_irq
  dsimp only
  by_cases h1 : (fsi_slave_read E c.1 (FSI_SLAVE_BASE + FSI_SI1S) 4 w).1.rc ≠ 0
  · rw [if_pos h1]
    exact ⟨[op], hop, by rw [hh]; simp, fun _ => hh⟩
  rw [if_neg h1]
  by_cases h2 : u32 (fsi_slave_read E c.1 (FSI_SLAVE_BASE + FSI_SI1S) 4 w).1.data = 0
  · rw [if_pos h2]
    exact ⟨[op], hop, by rw [hh]; simp, fun _ => hh⟩
  rw [if_neg h2]
  exact one_handler_step_after w _ _ [op] hop hh
    (one_handler_step_children _ (fun d w' => hd _ _ d w') _ _)

theorem one_handler_step_dev (E : Env) :
    ∀ (fuel : Nat) (slave : fsi_slave) (si1s : Nat) (dev : irq_device) (w : World),
      one_handler_step w (fsi_dev_irq E fuel slave si1s dev w) := by
  intro fuel
  induction fuel with
  | zero =>
    intro slave si1s dev w
    unfold fsi_dev_irq
    exact one_handler_step_refl w
  | succ fuel ih =>
    intro slave si1s dev w
    obtain ⟨bit, handler, drvdata, master_dev, children⟩ := dev
    unfold fsi_dev_irq
    dsimp only
    split
    · rename_i h _
      exact ⟨[.irq_handler h], rfl, by simp [handler_calls], fun h0 => absurd h0 one_ne_zero⟩
    · by_cases h1 : si1s &&& FSI_SI1_HUB_SRC = 0
      · rw [if_pos h1]; exact one_handler_step_refl w
      rw [if_neg h1]
      by_cases h2 : drvdata = false
      · rw [if_pos h2]; exact one_handler_step_refl w
      rw [if_neg h2]
      obtain ⟨op, hop, hh⟩ := one_handler_step_read E slave (FSI_SLAVE_BASE + FSI_SRSIS0) 4 w
      by_cases h3 : (fsi_slave_read E slave (FSI_SLAVE_BASE + FSI_SRSIS0) 4 w).1.rc ≠ 0
      · rw [if_pos h3]
        exact ⟨[op], hop, by rw [hh]; simp, fun _ => hh⟩
      rw [if_neg h3]
      by_cases h4 : u32 (fsi_slave_read E slave (FSI_SLAVE_BASE + FSI_SRSIS0) 4 w).1.data ≠ 0
      · rw [if_pos h4]
        by_cases h5 : master_dev = false
        · rw [if_pos h5]
          exact ⟨[op], hop, by rw [hh]; simp, fun _ => hh⟩
        rw [if_neg h5]
        obtain ⟨pre, hp, hl, _⟩ := one_handler_step_children
          (fsi_hub_slave_irq E (fsi_dev_irq E fuel))
          (fun c w' => one_handler_step_hub_slave E _ ih c w') children
          (fsi_slave_read E slave (FSI_SLAVE_BASE + FSI_SRSIS0) 4 w).2
        obtain ⟨op2, hop2, hh2⟩ := one_handler_step_write E slave (FSI_SLAVE_BASE + FSI_SRSIC0)
          (srsic_clear_mask E (next_hublink_source
            (u32 (fsi_slave_read E slave (FSI_SLAVE_BASE + FSI_SRSIS0) 4 w).1.data))) 4
          (device_for_each_child (fsi_hub_slave_irq E (fsi_dev_irq E fuel)) children
            (fsi_slave_read E slave (FSI_SLAVE_BASE + FSI_SRSIS0) 4 w).2).2
        have hlog : (fsi_slave_write E slave (FSI_SLAVE_BASE + FSI_SRSIC0)
            (srsic_clear_mask E (next_hublink_source
              (u32 (fsi_slave_read E slave (FSI_SLAVE_BASE + FSI_SRSIS0) 4 w).1.data))) 4
            (device_for_each_child (fsi_hub_slave_irq E (fsi_dev_irq E fuel)) children
              (fsi_slave_read E slave (FSI_SLAVE_BASE + FSI_SRSIS0) 4 w).2).2).2.log
            = (op2 :: pre ++ [op]) ++ w.log := by
          rw [hop2, hp, hop]; simp
        have hcnt : (handler_calls (op2 :: pre ++ [op])).length ≤ 1 := by
          have e : op2 :: pre ++ [op] = [op2] ++ (pre ++ [op]) := rfl
          rw [e, handler_calls_append, handler_calls_append, hh2, hh]
          simpa using hl
        split
        · rename_i hq
          exact ⟨_, hlog, hcnt, fun h0 => absurd h0 hq⟩
        · exact ⟨_, hlog, hcnt, fun h0 => absurd h0 one_ne_zero⟩
      · rw [if_neg h4]
        exact ⟨[op], hop, by rw [hh]; simp, fun _ => hh⟩

/-- C29: one call of `fsi_master_irq` only adds calls to the log, and among the calls it
adds there is at most one call of an engine's `irq_handler`: for every topology of
slaves, engines and nested hubs, every status word and every environment. -/
theorem fsi_master_irq_one_handler (E : Env) (fuel : Nat)
    (slaves : List (fsi_slave × List irq_device)) (si1s : Nat) (w : World) :
    ∃ pre, (fsi_master_irq E fuel slaves si1s w).log = pre ++ w.log
      ∧ (handler_calls pre).length ≤ 1 := by
  have h := one_handler_step_children (fsi_slave_irq E fuel si1s)
    (fun c w' => one_handler_step_children _
      (fun d w'' => one_handler_step_dev E fuel c.1 si1s d w'') c.2 w') slaves w
  obtain ⟨pre, hp, hl, _⟩ := h
  exact ⟨pre, hp, hl⟩

/-! ### Which slaves of a hub are served -/

/-- C24, what the code does: in a hub with slaves on its links 0 and 1,
`SRSIS0 = 0x00800000` selects hublink 1, yet the slave on link 0 has its `SI1S` read (at
0x8081c through the hub) and the handler 5 of its engine is called; the walk ends there,
the slave on link 1 is not looked at, and the group of hublink 1 is cleared in `SRSIC0`. -/
theorem hub_walk_ignores_hublink :
    next_hublink_source 0x00800000 = 1
      ∧ (cascade_grandchild 0).link = 0
      ∧ (fsi_slave_read (env_mem mem_cascade2 regs_zero) (cascade_grandchild 0)
          (FSI_SLAVE_BASE + FSI_SI1S) 4 ⟨[]⟩).2.log = [.read 0 0 0x8081c 4]
      ∧ (fsi_master_irq (env_mem mem_cascade2 regs_zero) 2 cascade2 0x00100000 ⟨[]⟩).log
        = [.write 0 0 0x868 0x00FF0000 4, .irq_handler 5, .read 0 0 0x8081c 4,
            .read 0 0 0x878 4] := by
  decide

/-! ### The poll pass -/

/-- Counterexample to C30: `slave0` has an engine with interrupt number 1 whose handler 8
is bound but whose interrupt was never enabled, and a hub; enabling the engine below the
hub leaves only the hub source in the root master's `ipoll`.  When `SI1S` reads
0x40100000 the pass calls the handler 8 although the engine's bit 0x40000000 is not in
`ipoll`. -/
theorem disabled_handler_counterexample :
    (fsi_enable_irq (env_mem mem_si1s_both regs_zero) idx_cascade cascade_engine_dev
        (fun _ => 0) ⟨[]⟩).1 = 0
      ∧ (fsi_enable_irq (env_mem mem_si1s_both regs_zero) idx_cascade cascade_engine_dev
        (fun _ => 0) ⟨[]⟩).2.1 (.root 1) = 0x00100000
      ∧ (0x00100000 : Nat) &&& u32 (0x80000000 >>> 1) = 0
      ∧ handler_calls (fsi_master_ipoll_pass (env_mem mem_si1s_both regs_zero) 2 (.root 1)
          engine_and_hub 0x00100000
          (fsi_enable_irq (env_mem mem_si1s_both regs_zero) idx_cascade cascade_engine_dev
            (fun _ => 0) ⟨[]⟩).2.2).log = [8] := by
  refine ⟨by decide, by decide, by decide, by decide⟩

/-- C30 (amended): a pass of the poll loop calls a handler only if the master's `ipoll`
is not 0, the read of `SI1S` succeeds and the word read has at least one bit of `ipoll`
(any of its bits, not necessarily the bit of the engine whose handler is called);
otherwise the pass calls no handler. -/
theorem fsi_master_ipoll_pass_gate (E : Env) (fuel : Nat) (master : fsi_master)
    (slaves : List (fsi_slave × List irq_device)) (ipoll : Nat) (w : World)
    (h : handler_calls (fsi_master_ipoll_pass E fuel master slaves ipoll w).log
      ≠ handler_calls w.log) :
    ipoll ≠ 0
      ∧ (master_read E master 0 0 (FSI_SLAVE_BASE + FSI_SI1S) 4 w).1.rc = 0
      ∧ u32 (master_read E master 0 0 (FSI_SLAVE_BASE + FSI_SI1S) 4 w).1.data &&& ipoll ≠ 0 := by
  obtain ⟨l, i, a, hread⟩ := master_read_one_call E master 0 0 (FSI_SLAVE_BASE + FSI_SI1S) 4 w
  have hlog : handler_calls (master_read E master 0 0 (FSI_SLAVE_BASE + FSI_SI1S) 4 w).2.log
      = handler_calls w.log := by
    rw [hread]; rfl
  unfold fsi_master_ipoll_pass at h
  dsimp only at h
  by_cases h0 : ipoll = 0
  · rw [if_pos h0] at h; exact absurd rfl h
  rw [if_neg h0] at h
  by_cases h1 : (master_read E master 0 0 (FSI_SLAVE_BASE + FSI_SI1S) 4 w).1.rc ≠ 0
  · rw [if_pos h1] at h; exact absurd hlog h
  rw [if_neg h1] at h
  by_cases h2 : u32 (master_read E master 0 0 (FSI_SLAVE_BASE + FSI_SI1S) 4 w).1.data
      &&& ipoll ≠ 0
  · exact ⟨h0, by simpa using h1, h2⟩
  · rw [if_neg h2] at h; exact absurd hlog h

theorem fsi_master_ipoll_pass_gate_witness :
    handler_calls (fsi_master_ipoll_pass (env_mem mem_si1s_both regs_zero) 2 (.root 1)
        engine_and_hub 0x00100000 ⟨[]⟩).log ≠ handler_calls (⟨[]⟩ : World).log
      ∧ u32 (master_read (env_mem mem_si1s_both regs_zero) (.root 1) 0 0
          (FSI_SLAVE_BASE + FSI_SI1S) 4 ⟨[]⟩).1.data &&& 0x00100000 ≠ 0 :=
  ⟨by decide, (fsi_master_ipoll_pass_gate (env_mem mem_si1s_both regs_zero) 2 (.root 1)
    engine_and_hub 0x00100000 ⟨[]⟩ (by decide)).2.2⟩

/-! ### Clearing the remote interrupt latches -/

/-- A call of `fsi_slave_init` that put a slave on the list got through the mode write,
the chip-ID read, the allocation and the registration, and ends with the scan and, if
that returns 0, `fsi_slave_irq_clear`. -/
theorem fsi_slave_init_some (E : Env) (reg : fsi_master → World → World)
    (master : fsi_master) (link slave_id : Nat) (w : World) (s : SlaveRec)
    (h : (fsi_slave_init E reg master link slave_id w).1.slave = some s) :
    fsi_slave_init E reg master link slave_id w
      = (if (fsi_slave_scan E reg ⟨master, link, slave_id⟩
              (call E .device_add (call E .kzalloc (master_read E master link slave_id 0 4
                (fsi_slave_set_smode E master link slave_id w).2).2).2).2).1.rc ≠ 0
         then (⟨(fsi_slave_scan E reg ⟨master, link, slave_id⟩
              (call E .device_add (call E .kzalloc (master_read E master link slave_id 0 4
                (fsi_slave_set_smode E master link slave_id w).2).2).2).2).1.rc, some s⟩,
              (fsi_slave_scan E reg ⟨master, link, slave_id⟩
              (call E .device_add (call E .kzalloc (master_read E master link slave_id 0 4
                (fsi_slave_set_smode E master link slave_id w).2).2).2).2).2)
         else (⟨(fsi_slave_irq_clear E ⟨master, link, slave_id⟩ (fsi_slave_scan E reg
              ⟨master, link, slave_id⟩
              (call E .device_add (call E .kzalloc (master_read E master link slave_id 0 4
                (fsi_slave_set_smode E master link slave_id w).2).2).2).2).2).1.rc, some s⟩,
              (fsi_slave_irq_clear E ⟨master, link, slave_id⟩ (fsi_slave_scan E reg
              ⟨master, link, slave_id⟩
              (call E .device_add (call E .kzalloc (master_read E master link slave_id 0 4
                (fsi_slave_set_smode E master link slave_id w).2).2).2).2).2).2)) := by
  unfold fsi_slave_init at h ⊢
  dsimp only at h ⊢
  by_cases h0 : slave_id > 0
  · rw [if_pos h0] at h; exact absurd h (by simp)
  rw [if_neg h0] at h ⊢
  by_cases h1 : (fsi_slave_set_smode E master link slave_id w).1.rc ≠ 0
  · rw [if_pos h1] at h; exact absurd h (by simp)
  rw [if_neg h1] at h ⊢
  by_cases h2 : (master_read E master link slave_id 0 4
      (fsi_slave_set_smode E master link slave_id w).2).1.rc ≠ 0
  · rw [if_pos h2] at h; exact absurd h (by simp)
  rw [if_neg h2] at h ⊢
  by_cases h3 : fsi_crc4 0 (u32 (master_read E master link slave_id 0 4
      (fsi_slave_set_smode E master link slave_id w).2).1.data >>> FSI_SLAVE_CONF_CRC_SHIFT)
      FSI_SLAVE_CONF_DATA_BITS ≠ u32 (master_read E master link slave_id 0 4
      (fsi_slave_set_smode E master link slave_id w).2).1.data &&& FSI_SLAVE_CONF_CRC_MASK
  · rw [if_pos h3] at h; exact absurd h (by simp)
  rw [if_neg h3] at h ⊢
  by_cases h4 : (call E Op.kzalloc (master_read E master link slave_id 0 4
      (fsi_slave_set_smode E master link slave_id w).2).2).1.rc ≠ 0
  · rw [if_pos h4] at h; exact absurd h (by simp)
  rw [if_neg h4] at h ⊢
  by_cases h5 : (call E Op.device_add (call E Op.kzalloc (master_read E master link slave_id
      0 4 (fsi_slave_set_smode E master link slave_id w).2).2).2).1.rc < 0
  · rw [if_pos h5] at h; exact absurd h (by simp)
  rw [if_neg h5] at h ⊢
  by_cases h6 : (fsi_slave_scan E reg ⟨master, link, slave_id⟩
      (call E Op.device_add (call E Op.kzalloc (master_read E master link slave_id
        0 4 (fsi_slave_set_smode E master link slave_id w).2).2).2).2).1.rc ≠ 0
  · rw [if_pos h6] at h
    rw [if_pos h6, if_pos h6]
    simp only [Option.some.injEq] at h
    rw [h]
  · rw [if_neg h6] at h
    rw [if_neg h6, if_neg h6]
    simp only [Option.some.injEq] at h
    rw [h]

/-- Counterexample to C25: with the CRC error in the second table word, `fsi_slave_init`
registers the slave and returns the error of the scan; no write to `SRSIC0` or `SRSIC1`
is made. -/
theorem irq_clear_skipped_counterexample :
    (fsi_slave_init (env_table table2_bad) reg_none (.root 1) 0 0 ⟨[]⟩).1
        = ⟨-1, some ⟨slave0, [engine2]⟩⟩
      ∧ Op.write 0 0 0x868 0xffffffff 4
          ∉ (fsi_slave_init (env_table table2_bad) reg_none (.root 1) 0 0 ⟨[]⟩).2.log
      ∧ Op.write 0 0 0x86c 0xffffffff 4
          ∉ (fsi_slave_init (env_table table2_bad) reg_none (.root 1) 0 0 ⟨[]⟩).2.log := by
  refine ⟨by decide, ?_, ?_⟩
  · decide
  · decide

/-- C25 (amended): when `fsi_slave_init` registers a slave and the scan of its
configuration table returns 0, it then writes `0xFFFFFFFF` to `SLAVE_BASE + SRSIC0` of
the slave and, if that write succeeds, to `SLAVE_BASE + SRSIC1`, and returns the result
of the last write made; when the scan returns an error, `fsi_slave_init` returns that
error with the world as the scan left it.  `w1` is the world in which the scan starts. -/
theorem fsi_slave_init_irq_clear (E : Env) (reg : fsi_master → World → World)
    (master : fsi_master) (link slave_id : Nat) (w w1 : World) (s : SlaveRec)
    (h : (fsi_slave_init E reg master link slave_id w).1.slave = some s)
    (hw1 : w1 = (call E .device_add (call E .kzalloc (master_read E master link slave_id 0 4
      (fsi_slave_set_smode E master link slave_id w).2).2).2).2) :
    ((fsi_slave_scan E reg ⟨master, link, slave_id⟩ w1).1.rc ≠ 0 →
        fsi_slave_init E reg master link slave_id w
          = (⟨(fsi_slave_scan E reg ⟨master, link, slave_id⟩ w1).1.rc, some s⟩,
              (fsi_slave_scan E reg ⟨master, link, slave_id⟩ w1).2))
      ∧ ((fsi_slave_scan E reg ⟨master, link, slave_id⟩ w1).1.rc = 0 →
        ((fsi_slave_write E ⟨master, link, slave_id⟩ (FSI_SLAVE_BASE + FSI_SRSIC0)
              0xffffffff 4 (fsi_slave_scan E reg ⟨master, link, slave_id⟩ w1).2).1.rc ≠ 0 →
          fsi_slave_init E reg master link slave_id w
            = (⟨(fsi_slave_write E ⟨master, link, slave_id⟩ (FSI_SLAVE_BASE + FSI_SRSIC0)
                  0xffffffff 4 (fsi_slave_scan E reg ⟨master, link, slave_id⟩ w1).2).1.rc,
                some s⟩,
              (fsi_slave_write E ⟨master, link, slave_id⟩ (FSI_SLAVE_BASE + FSI_SRSIC0)
                  0xffffffff 4 (fsi_slave_scan E reg ⟨master, link, slave_id⟩ w1).2).2))
        ∧ ((fsi_slave_write E ⟨master, link, slave_id⟩ (FSI_SLAVE_BASE + FSI_SRSIC0)
              0xffffffff 4 (fsi_slave_scan E reg ⟨master, link, slave_id⟩ w1).2).1.rc = 0 →
          fsi_slave_init E reg master link slave_id w
            = (⟨(fsi_slave_write E ⟨master, link, slave_id⟩ (FSI_SLAVE_BASE + FSI_SRSIC1)
                  0xffffffff 4
                  (fsi_slave_write E ⟨master, link, slave_id⟩ (FSI_SLAVE_BASE + FSI_SRSIC0)
                    0xffffffff 4
                    (fsi_slave_scan E reg ⟨master, link, slave_id⟩ w1).2).2).1.rc, some s⟩,
              (fsi_slave_write E ⟨master, link, slave_id⟩ (FSI_SLAVE_BASE + FSI_SRSIC1)
                  0xffffffff 4
                  (fsi_slave_write E ⟨master, link, slave_id⟩ (FSI_SLAVE_BASE + FSI_SRSIC0)
                    0xffffffff 4
                    (fsi_slave_scan E reg ⟨master, link, slave_id⟩ w1).2).2).2))) := by
  have he := fsi_slave_init_some E reg master link slave_id w s h
  rw [← hw1] at he
  refine ⟨?_, ?_⟩
  · intro hrc
    rw [he, if_pos hrc]
  · intro hrc
    rw [he, if_neg (by simpa using hrc)]
    unfold fsi_slave_irq_clear
    dsimp only
    constructor
    · intro hq; rw [if_pos hq]
    · intro hq; rw [if_neg (by simpa using hq)]

theorem fsi_slave_init_irq_clear_witness :
    (fsi_slave_init (env_table table2) reg_none (.root 1) 0 0 ⟨[]⟩).2.log.take 2
      = [.write 0 0 0x86c 0xffffffff 4, .write 0 0 0x868 0xffffffff 4] := by
  have h := ((fsi_slave_init_irq_clear (env_table table2) reg_none (.root 1) 0 0 ⟨[]⟩ _
    ⟨slave0, [⟨slave0, 9, 2, 3, 0x1000, 0x800, 2, false⟩, engine2]⟩ (by decide) rfl).2
      (by decide)).2 (by decide)
  rw [h]
  decide

/-! ### CRC-4: errors within one nibble -/

theorem crc4_tab_inv (a : Nat) (ha : a < 16) :
    [0x0, 0x8, 0x7, 0xf, 0xe, 0x6, 0x9, 0x1, 0xb, 0x3, 0xc, 0x4, 0x5, 0xd, 0x2, 0xa].getD
      (crc4_tab.getD a 0) 0 = a := by
  revert a
  decide

theorem crc4_tab_lt (a : Nat) (ha : a < 16) : crc4_tab.getD a 0 < 16 := by
  revert a
  decide

theorem crc4_tab_inj (a b : Nat) (ha : a < 16) (hb : b < 16)
    (h : crc4_tab.getD a 0 = crc4_tab.getD b 0) : a = b := by
  rw [← crc4_tab_inv a ha, ← crc4_tab_inv b hb, h]

theorem nib_lt (x : Nat) : x &&& 0xf < 16 := Nat.and_lt_two_pow x (by decide : 15 < 2 ^ 4)

theorem xor_lt16 {a b : Nat} (ha : a < 16) (hb : b < 16) : a ^^^ b < 16 :=
  Nat.xor_lt_two_pow (n := 4) ha hb

/-- One step of the CRC is injective in the running value and in the nibble. -/
theorem crc_step_inj_c (c c' n : Nat) (hc : c < 16) (hc' : c' < 16) (hn : n < 16)
    (h : crc4_tab.getD (c ^^^ n) 0 = crc4_tab.getD (c' ^^^ n) 0) : c = c' :=
  Nat.xor_left_injective (crc4_tab_inj _ _ (xor_lt16 hc hn) (xor_lt16 hc' hn) h)

theorem crc_step_inj_n (c n n' : Nat) (hc : c < 16) (hn : n < 16) (hn' : n' < 16)
    (h : crc4_tab.getD (c ^^^ n) 0 = crc4_tab.getD (c ^^^ n') 0) : n = n' :=
  Nat.xor_right_injective (crc4_tab_inj _ _ (xor_lt16 hc hn) (xor_lt16 hc hn') h)

/-- Over equal nibbles the loop of `fsi_crc4` is injective in the running value. -/
theorem fsi_crc4_loop_inj (x x' : Nat) :
    ∀ (k c c' : Nat), c < 16 → c' < 16 →
      (∀ j ≤ k, (x >>> (4 * j)) &&& 0xf = (x' >>> (4 * j)) &&& 0xf) →
      (fsi_crc4_loop x k c = fsi_crc4_loop x' k c' ↔ c = c') := by
  intro k
  induction k with
  | zero =>
    intro c c' hc hc' hx
    unfold fsi_crc4_loop
    have e := hx 0 (Nat.le_refl 0)
    simp only [Nat.mul_zero] at e
    rw [← e]
    constructor
    · exact crc_step_inj_c c c' _ hc hc' (nib_lt _)
    · intro h; rw [h]
  | succ k ih =>
    intro c c' hc hc' hx
    unfold fsi_crc4_loop
    have e := hx (k + 1) (Nat.le_refl _)
    rw [← e]
    rw [ih _ _ (crc4_tab_lt _ (xor_lt16 hc (nib_lt _))) (crc4_tab_lt _ (xor_lt16 hc' (nib_lt _)))
      (fun j hj => hx j (Nat.le_succ_of_le hj))]
    constructor
    · exact crc_step_inj_c c c' _ hc hc' (nib_lt _)
    · intro h; rw [h]

/-- Two inputs that differ in exactly one of the nibbles the loop reads give different
results. -/
theorem fsi_crc4_loop_one_nibble (x x' : Nat) :
    ∀ (k m c : Nat), c < 16 → m ≤ k →
      (x >>> (4 * m)) &&& 0xf ≠ (x' >>> (4 * m)) &&& 0xf →
      (∀ j ≤ k, j ≠ m → (x >>> (4 * j)) &&& 0xf = (x' >>> (4 * j)) &&& 0xf) →
      fsi_crc4_loop x k c ≠ fsi_crc4_loop x' k c := by
  intro k
  induction k with
  | zero =>
    intro m c hc hm hne _
    have hm0 : m = 0 := by omega
    subst hm0
    unfold fsi_crc4_loop
    intro h
    exact hne (crc_step_inj_n c _ _ hc (nib_lt _) (nib_lt _) (by simpa using h))
  | succ k ih =>
    intro m c hc hm hne hx
    unfold fsi_crc4_loop
    by_cases hmk : m = k + 1
    · subst hmk
      intro h
      have := (fsi_crc4_loop_inj x x' k _ _
        (crc4_tab_lt _ (xor_lt16 hc (nib_lt _))) (crc4_tab_lt _ (xor_lt16 hc (nib_lt _)))
        (fun j hj => hx j (Nat.le_succ_of_le hj) (by omega))).1 h
      exact hne (crc_step_inj_n c _ _ hc (nib_lt _) (nib_lt _) this)
    · have e := hx (k + 1) (Nat.le_refl _) (fun h => hmk h.symm)
      rw [← e]
      exact ih m _ (crc4_tab_lt _ (xor_lt16 hc (nib_lt _))) (by omega) hne
        (fun j hj hjm => hx j (Nat.le_succ_of_le hj) hjm)

theorem fsi_crc4_word (w : Nat) (hw : w < 2 ^ 32) :
    fsi_crc4 0 (w >>> 4) 28 = fsi_crc4_loop (w >>> 4) 7 0 := by
  have h1 : w >>> 4 < 2 ^ 64 := by
    have : w >>> 4 ≤ w := by
      rw [Nat.shiftRight_eq_div_pow]; exact Nat.div_le_self _ _
    omega
  unfold fsi_crc4
  simp only [Nat.mod_eq_of_lt h1]
  rfl

theorem nibble_shift (w j : Nat) :
    ((w >>> 4) >>> (4 * j)) &&& 0xf = (w >>> (4 * (j + 1))) &&& 0xf := by
  rw [← Nat.shiftRight_add]
  have e : 4 + 4 * j = 4 * (j + 1) := by ring
  rw [e]

theorem nibble_top (w : Nat) (hw : w < 2 ^ 32) : (w >>> (4 * 8)) &&& 0xf = 0 := by
  have : w >>> (4 * 8) = 0 := by
    rw [Nat.shiftRight_eq_div_pow]
    exact Nat.div_eq_of_lt (by simpa using hw)
  rw [this]; rfl

/-- Words that differ in exactly one nibble: one of them fails the CRC check. -/
theorem crc_one_nibble (w w' : Nat) (hw : w < 2 ^ 32) (hw' : w' < 2 ^ 32)
    (hok : fsi_crc4 0 (w >>> 4) 28 = w &&& 0xF) (k : Nat) (hk : k < 8)
    (hne : (w >>> (4 * k)) &&& 0xf ≠ (w' >>> (4 * k)) &&& 0xf)
    (heq : ∀ j < 8, j ≠ k → (w >>> (4 * j)) &&& 0xf = (w' >>> (4 * j)) &&& 0xf) :
    fsi_crc4 0 (w' >>> 4) 28 ≠ w' &&& 0xF := by
  rw [fsi_crc4_word w hw] at hok
  rw [fsi_crc4_word w' hw']
  by_cases hk0 : k = 0
  · subst hk0
    have hsame : fsi_crc4_loop (w >>> 4) 7 0 = fsi_crc4_loop (w' >>> 4) 7 0 := by
      rw [fsi_crc4_loop_inj (w >>> 4) (w' >>> 4) 7 0 0 (by decide) (by decide)]
      intro j hj
      rw [nibble_shift, nibble_shift]
      by_cases hj7 : j = 7
      · subst hj7
        rw [nibble_top w hw, nibble_top w' hw']
      · exact heq (j + 1) (by omega) (by omega)
    intro h
    apply hne
    simp only [Nat.mul_zero, Nat.shiftRight_zero]
    rw [← hok, hsame, h]
  · have hdiff : fsi_crc4_loop (w >>> 4) 7 0 ≠ fsi_crc4_loop (w' >>> 4) 7 0 := by
      apply fsi_crc4_loop_one_nibble (w >>> 4) (w' >>> 4) 7 (k - 1) 0 (by decide) (by omega)
      · rw [nibble_shift, nibble_shift]
        have e : k - 1 + 1 = k := by omega
        rw [e]; exact hne
      · intro j hj hjk
        rw [nibble_shift, nibble_shift]
        by_cases hj7 : j = 7
        · subst hj7
          rw [nibble_top w hw, nibble_top w' hw']
        · exact heq (j + 1) (by omega) (by omega)
    have h0 := heq 0 (by omega) (fun h => hk0 h.symm)
    simp only [Nat.mul_zero, Nat.shiftRight_zero] at h0
    intro h
    apply hdiff
    rw [hok, h, h0]

theorem nibble_testBit (w j i : Nat) :
    ((w >>> (4 * j)) &&& 0xf).testBit i = (decide (i < 4) && w.testBit (4 * j + i)) := by
  have h15 : (0xf : Nat) = 2 ^ 4 - 1 := by decide
  rw [Nat.testBit_and, Nat.testBit_shiftRight, h15, Nat.testBit_two_pow_sub_one,
    Bool.and_comm]

/-- Flipping one bit of a word changes exactly the nibble the bit is in. -/
theorem flip_one_nibble (w b : Nat) :
    (w >>> (4 * (b / 4))) &&& 0xf ≠ ((w ^^^ (1 <<< b)) >>> (4 * (b / 4))) &&& 0xf
      ∧ ∀ j, j ≠ b / 4 →
        (w >>> (4 * j)) &&& 0xf = ((w ^^^ (1 <<< b)) >>> (4 * j)) &&& 0xf := by
  have hb : 4 * (b / 4) + b % 4 = b := Nat.div_add_mod b 4
  have hlt : b % 4 < 4 := Nat.mod_lt _ (by decide)
  constructor
  · intro h
    have h2 := congrArg (fun x => x.testBit (b % 4)) h
    simp only [nibble_testBit, hb, Nat.testBit_xor, Nat.one_shiftLeft, Nat.testBit_two_pow_self,
      hlt, decide_True, Bool.true_and, Bool.xor_true] at h2
    cases hx : w.testBit b <;> simp [hx] at h2
  · intro j hj
    apply Nat.eq_of_testBit_eq
    intro i
    simp only [nibble_testBit, Nat.testBit_xor, Nat.one_shiftLeft]
    by_cases hi : i < 4
    · have hne : b ≠ 4 * j + i := by
        intro hbe
        apply hj
        omega
      rw [Nat.testBit_two_pow_of_ne hne]
      simp
    · simp [hi]

/-- C26: for a 32-bit word `w` that passes the CRC check
`fsi_crc4(0, w >> 4, 28) = w & 0xF`, every 32-bit word `w'` that differs from `w` in
exactly one of its eight nibbles fails it, and so does `w` with any one of its 32 bits
flipped. -/
theorem fsi_crc4_nibble_errors (w : Nat) (hw : w < 2 ^ 32)
    (hok : fsi_crc4 0 (w >>> 4) 28 = w &&& 0xF) :
    (∀ w' k, w' < 2 ^ 32 → k < 8 →
        (w >>> (4 * k)) &&& 0xf ≠ (w' >>> (4 * k)) &&& 0xf →
        (∀ j < 8, j ≠ k → (w >>> (4 * j)) &&& 0xf = (w' >>> (4 * j)) &&& 0xf) →
        fsi_crc4 0 (w' >>> 4) 28 ≠ w' &&& 0xF)
      ∧ ∀ b < 32, fsi_crc4 0 ((w ^^^ (1 <<< b)) >>> 4) 28 ≠ (w ^^^ (1 <<< b)) &&& 0xF := by
  constructor
  · intro w' k hw' hk hne heq
    exact crc_one_nibble w w' hw hw' hok k hk hne heq
  · intro b hb
    have hw' : w ^^^ (1 <<< b) < 2 ^ 32 := by
      apply Nat.xor_lt_two_pow hw
      rw [Nat.one_shiftLeft]
      exact Nat.pow_lt_pow_right (by decide) hb
    obtain ⟨h1, h2⟩ := flip_one_nibble w b
    exact crc_one_nibble w _ hw hw' hok (b / 4) (by omega) h1 (fun j _ hj => h2 j hj)

theorem fsi_crc4_nibble_errors_witness :
    (0x8001105e : Nat) < 2 ^ 32
      ∧ fsi_crc4 0 (0x8001105e >>> 4) 28 = 0x8001105e &&& 0xF
      ∧ fsi_crc4 0 ((0x8001105e ^^^ (1 <<< 17)) >>> 4) 28 ≠ (0x8001105e ^^^ (1 <<< 17)) &&& 0xF :=
  ⟨by decide, by decide,
    (fsi_crc4_nibble_errors 0x8001105e (by decide) (by decide)).2 17 (by decide)⟩

/-! ### The hub source bit of the upstream master -/

/-- Counterexample to C21: with an engine enabled below each of two hub masters of the same
root master, disabling the engine below `hub_a` clears the hub source bit in the root's
`ipoll` although the engine below `hub_b` is still enabled. -/
theorem hub_src_cleared_counterexample :
    (irq_calls (env_mem (fun _ _ _ => 0) regs_sample) idx_two_hubs
        [(true, engine_a), (true, engine_b)] (fun _ => 0) ⟨[]⟩).1 (.root 2) = 0x00100000
      ∧ (irq_calls (env_mem (fun _ _ _ => 0) regs_sample) idx_two_hubs
        [(true, engine_a), (true, engine_b), (false, engine_a)] (fun _ => 0) ⟨[]⟩).1 (.root 2)
          &&& FSI_SI1_HUB_SRC = 0
      ∧ (irq_calls (env_mem (fun _ _ _ => 0) regs_sample) idx_two_hubs
        [(true, engine_a), (true, engine_b), (false, engine_a)] (fun _ => 0) ⟨[]⟩).1 hub_b
          = 0x40000000 := by
  refine ⟨by decide, by decide, by decide⟩

theorem or_and_self_right (x m : Nat) : (x ||| m) &&& m = m := by
  apply Nat.eq_of_testBit_eq
  intro i
  simp only [Nat.testBit_and, Nat.testBit_or]
  cases x.testBit i <;> cases m.testBit i <;> rfl

theorem and_not32_and (x m : Nat) (hm : m < 2 ^ 32) : (x &&& not32 m) &&& m = 0 := by
  apply Nat.eq_of_testBit_eq
  intro i
  have h2 : (0xffffffff : Nat) = 2 ^ 32 - 1 := by decide
  simp only [not32, u32_of_lt hm, Nat.testBit_and, Nat.testBit_xor, h2,
    Nat.testBit_two_pow_sub_one, Nat.zero_testBit]
  by_cases hi : i < 32
  · cases x.testBit i <;> cases m.testBit i <;> simp [hi]
  · have hmi : m.testBit i = false :=
      Nat.testBit_lt_two_pow (Nat.lt_of_lt_of_le hm (Nat.pow_le_pow_right (by decide) (by omega)))
    simp [hmi]

theorem ok_master_read (E : Env) (hok : ∀ log op, (E.respond log op).rc = 0) (m : fsi_master)
    (link id addr size : Nat) (w : World) : (master_read E m link id addr size w).1.rc = 0 := by
  obtain ⟨l, i, a, h⟩ := master_read_one_call E m link id addr size w
  rw [h]; exact hok _ _

theorem ok_master_write (E : Env) (hok : ∀ log op, (E.respond log op).rc = 0) (m : fsi_master)
    (link id addr val size : Nat) (w : World) :
    (master_write E m link id addr val size w).1.rc = 0 := by
  obtain ⟨l, i, a, h⟩ := master_write_one_call E m link id addr val size w
  rw [h]; exact hok _ _

/-- Over a transport that never fails, `set_upstream_irq_masks` for a hub master with a
positive index sets or clears the hub source bit in the `ipoll` of the master above it
and leaves every other `ipoll` word alone. -/
theorem set_upstream_irq_masks_ipoll (E : Env) (hok : ∀ log op, (E.respond log op).rc = 0)
    (idx : fsi_master → Int) (n : Nat) (sm : fsi_master) (sl si c b link id : Nat)
    (on_ : Bool) (ipoll : fsi_master → Nat) (w : World)
    (hidx : 0 < idx (.hub n sm sl si c b)) :
    (set_upstream_irq_masks E idx (.hub n sm sl si c b) ⟨.hub n sm sl si c b, link, id⟩ on_
        ipoll w).2.1
      = Function.update ipoll sm
          (if on_ then ipoll sm ||| FSI_SI1_HUB_SRC else ipoll sm &&& not32 FSI_SI1_HUB_SRC) := by
  unfold set_upstream_irq_masks
  rw [if_neg (by omega)]
  simp only [fsi_slave_read, fsi_slave_write, ok_master_read E hok, ok_master_write E hok,
    ne_eq, not_true_eq_false, if_false]

theorem fsi_enable_irq_ipoll (E : Env) (hok : ∀ log op, (E.respond log op).rc = 0)
    (idx : fsi_master → Int) (n : Nat) (sm : fsi_master) (sl si c b : Nat)
    (dev : fsi_device) (ipoll : fsi_master → Nat) (w : World)
    (hidx : 0 < idx (.hub n sm sl si c b))
    (hm : dev.slave.master = .hub n sm sl si c b) (hh : dev.irq_handler = true) :
    (fsi_enable_irq E idx dev ipoll w).2.1
      = Function.update
          (Function.update ipoll (.hub n sm sl si c b)
            (ipoll (.hub n sm sl si c b) ||| si1s_mask E dev))
          sm (ipoll sm ||| FSI_SI1_HUB_SRC) := by
  obtain ⟨⟨m, link, id⟩, et, ver, un, ad, sz, sb, ih⟩ := dev
  dsimp only at hm hh
  subst hm
  subst hh
  unfold fsi_enable_irq
  simp only [ok_master_read E hok, ok_master_write E hok, ne_eq, not_true_eq_false, if_false,
    Bool.true_eq_false]
  rw [set_upstream_irq_masks_ipoll E hok idx n sm sl si c b link id true _ _ hidx]
  simp only [if_true]
  rw [Function.update_noteq (hub_ne_upstream n sm sl si c b).symm]

theorem fsi_disable_irq_ipoll (E : Env) (hok : ∀ log op, (E.respond log op).rc = 0)
    (idx : fsi_master → Int) (n : Nat) (sm : fsi_master) (sl si c b : Nat)
    (dev : fsi_device) (ipoll : fsi_master → Nat) (w : World)
    (hidx : 0 < idx (.hub n sm sl si c b))
    (hm : dev.slave.master = .hub n sm sl si c b) :
    (fsi_disable_irq E idx dev ipoll w).1
      = if ipoll (.hub n sm sl si c b) &&& not32 (si1s_mask E dev) = 0 then
          Function.update
            (Function.update ipoll (.hub n sm sl si c b)
              (ipoll (.hub n sm sl si c b) &&& not32 (si1s_mask E dev)))
            sm (ipoll sm &&& not32 FSI_SI1_HUB_SRC)
        else
          Function.update ipoll (.hub n sm sl si c b)
            (ipoll (.hub n sm sl si c b) &&& not32 (si1s_mask E dev)) := by
  obtain ⟨⟨m, link, id⟩, et, ver, un, ad, sz, sb, ih⟩ := dev
  dsimp only at hm
  subst hm
  unfold fsi_disable_irq
  simp only [ok_master_read E hok, ok_master_write E hok, ne_eq, not_true_eq_false, if_false,
    Function.update_same]
  split
  · rw [set_upstream_irq_masks_ipoll E hok idx n sm sl si c b link id false _ _ hidx]
    simp only [Bool.false_eq_true, if_false]
    rw [Function.update_noteq (hub_ne_upstream n sm sl si c b).symm]
  · rfl

/-- C21 (amended): let `H` be a hub master with a positive index and `U` the master above
it, over a transport that never fails.  From any state in which the hub source bit of
`U`'s `ipoll` is set iff `H`'s `ipoll` is not 0 (the all-disabled state is one), after
any sequence of `fsi_enable_irq` and `fsi_disable_irq` calls on engines below `H` with a
bound handler and `si1s_bit <= 31`: the hub source bit of `U`'s `ipoll` is set iff `H`'s
`ipoll` is not 0, and `H`'s `ipoll` holds exactly the engine bits set by an enable and
not cleared by a later disable. -/
theorem irq_calls_hub_src (E : Env) (hok : ∀ log op, (E.respond log op).rc = 0)
    (idx : fsi_master → Int) (n : Nat) (sm : fsi_master) (sl si c b : Nat)
    (hidx : 0 < idx (.hub n sm sl si c b))
    (calls : List (Bool × fsi_device))
    (hcalls : ∀ cd ∈ calls, cd.2.slave.master = .hub n sm sl si c b
      ∧ cd.2.irq_handler = true ∧ cd.2.si1s_bit ≤ 31)
    (ipoll : fsi_master → Nat) (w : World)
    (h0 : ipoll sm &&& FSI_SI1_HUB_SRC ≠ 0 ↔ ipoll (.hub n sm sl si c b) ≠ 0) :
    ((irq_calls E idx calls ipoll w).1 sm &&& FSI_SI1_HUB_SRC ≠ 0
        ↔ (irq_calls E idx calls ipoll w).1 (.hub n sm sl si c b) ≠ 0)
      ∧ (irq_calls E idx calls ipoll w).1 (.hub n sm sl si c b)
          = ipoll_bits E calls (ipoll (.hub n sm sl si c b)) := by
  have hne := hub_ne_upstream n sm sl si c b
  induction calls generalizing ipoll w with
  | nil => exact ⟨h0, rfl⟩
  | cons cd cs ih =>
    obtain ⟨on_, dev⟩ := cd
    obtain ⟨hm, hh, hb⟩ := hcalls (on_, dev) (List.mem_cons_self _ _)
    have hcs : ∀ cd ∈ cs, cd.2.slave.master = .hub n sm sl si c b
        ∧ cd.2.irq_handler = true ∧ cd.2.si1s_bit ≤ 31 :=
      fun cd h => hcalls cd (List.mem_cons_of_mem _ h)
    dsimp only at hm hh hb
    cases on_ with
    | true =>
      have he := fsi_enable_irq_ipoll E hok idx n sm sl si c b dev ipoll w hidx hm hh
      have h1 : (fsi_enable_irq E idx dev ipoll w).2.1 sm = ipoll sm ||| FSI_SI1_HUB_SRC := by
        rw [he, Function.update_same]
      have h2 : (fsi_enable_irq E idx dev ipoll w).2.1 (.hub n sm sl si c b)
          = ipoll (.hub n sm sl si c b) ||| si1s_mask E dev := by
        rw [he, Function.update_noteq hne, Function.update_same]
      have hinv : (fsi_enable_irq E idx dev ipoll w).2.1 sm &&& FSI_SI1_HUB_SRC ≠ 0
          ↔ (fsi_enable_irq E idx dev ipoll w).2.1 (.hub n sm sl si c b) ≠ 0 := by
        rw [h1, h2, or_and_self_right]
        constructor
        · intro _ hz
          have hm0 : si1s_mask E dev = 0 := by
            rw [← or_and_self_right (ipoll (.hub n sm sl si c b)) (si1s_mask E dev), hz,
              Nat.zero_and]
          exact si1s_mask_ne_zero E dev hb hm0
        · intro _; decide
      have := ih hcs _ (fsi_enable_irq E idx dev ipoll w).2.2 hinv
      rw [h2] at this
      exact this
    | false =>
      have hd := fsi_disable_irq_ipoll E hok idx n sm sl si c b dev ipoll w hidx hm
      have h2 : (fsi_disable_irq E idx dev ipoll w).1 (.hub n sm sl si c b)
          = ipoll (.hub n sm sl si c b) &&& not32 (si1s_mask E dev) := by
        rw [hd]
        split
        · rw [Function.update_noteq hne, Function.update_same]
        · rw [Function.update_same]
      have hinv : (fsi_disable_irq E idx dev ipoll w).1 sm &&& FSI_SI1_HUB_SRC ≠ 0
          ↔ (fsi_disable_irq E idx dev ipoll w).1 (.hub n sm sl si c b) ≠ 0 := by
        rw [h2]
        by_cases hz : ipoll (.hub n sm sl si c b) &&& not32 (si1s_mask E dev) = 0
        · rw [hd, if_pos hz, Function.update_same, and_not32_and _ _ (by decide), hz]
        · rw [hd, if_neg hz, Function.update_noteq hne.symm]
          constructor
          · intro _; exact hz
          · intro _
            apply h0.2
            intro hi
            rw [hi] at hz
            exact hz (Nat.zero_and _)
      have := ih hcs _ (fsi_disable_irq E idx dev ipoll w).2 hinv
      rw [h2] at this
      exact this

theorem irq_calls_hub_src_witness :
    ((irq_calls (env_mem (fun _ _ _ => 0) regs_sample) idx_two_hubs
        [(true, engine_a), (false, engine_a)] (fun _ => 0) ⟨[]⟩).1 (.root 2)
          &&& FSI_SI1_HUB_SRC ≠ 0
      ↔ (irq_calls (env_mem (fun _ _ _ => 0) regs_sample) idx_two_hubs
        [(true, engine_a), (false, engine_a)] (fun _ => 0) ⟨[]⟩).1 hub_a ≠ 0)
      ∧ (irq_calls (env_mem (fun _ _ _ => 0) regs_sample) idx_two_hubs
        [(true, engine_a), (false, engine_a)] (fun _ => 0) ⟨[]⟩).1 hub_a = 0 :=
  have h := irq_calls_hub_src (env_mem (fun _ _ _ => 0) regs_sample)
    (fun _ op => by cases op <;> rfl) idx_two_hubs 1 (.root 2) 0 0 0xC00 FSI_HUB_LINK_OFFSET
    (by decide) [(true, engine_a), (false, engine_a)] (by decide) (fun _ => 0) ⟨[]⟩ (by decide)
  ⟨h.1, h.2.trans (by decide)⟩

/-! ### Registration and unregistration of a root master -/

/-- C22, what the code does: the index 0 is held by another master; registering the root
master over a table with two HUB_MASTER entries draws the index 1 for it and the index 2
for the hub of the second entry (the only hub the scan hands to `fsi_master_register`,
though it allocated and added a device for both); unregistering then gives back 1, then
the index 0 found in the hub that never drew one, then 2: the pool ends empty, not as it
was. -/
theorem unregister_frees_foreign_index :
    ida_allocated env_two_hubs world_one_master.log = [0]
      ∧ ida_allocated env_two_hubs
          (fsi_master_register env_two_hubs 2 (.root 1) world_one_master).log = [2, 1, 0]
      ∧ (fsi_slave_scan env_two_hubs (fsi_master_register env_two_hubs 1) slave0
          world_one_master).1 = ⟨0, [], some ⟨0, slave0, 0x1000, 0x80000⟩⟩
      ∧ ((fsi_slave_scan env_two_hubs (fsi_master_register env_two_hubs 1) slave0
          world_one_master).2.log.filter (fun o => o = .kzalloc)).length = 2
      ∧ (fsi_master_unregister env_two_hubs 2 tree_two_hubs
          (fsi_master_register env_two_hubs 2 (.root 1) world_one_master)).log.take 3
          = [.ida_simple_remove 2, .ida_simple_remove 0, .ida_simple_remove 1]
      ∧ ida_allocated env_two_hubs
          (fsi_master_unregister env_two_hubs 2 tree_two_hubs
            (fsi_master_register env_two_hubs 2 (.root 1) world_one_master)).log = [] := by
  refine ⟨by decide, by decide, by decide, by decide, by decide, by decide⟩
end Fsi
